import Mathlib

/-!
Verification of the transactional EVM state overlay (`CommitStateDB`) of
`x/evm/types/statedb.go`.

The embedding models:
* addresses and 32-byte hashes as `Nat` (opaque identifiers);
* `*big.Int` balances and `sdk.Dec` amounts as `Int` — an `sdk.Dec` produced by
  `NewDecFromBigIntWithPrec(B, Precision)` is represented by its internal
  integer `B` (decimal value `B · 10^-P`), so balance round-trips are exact
  integer equalities;
* Go maps as functions into `Option`/`Bool` (Go maps are unordered);
* Go slices as `List`s;
* the `uint64` refund counter and the `uint` log counter with explicit
  `% 2^64` wrap-around, and the Go `int` revision counter with two's
  complement wrap-around;
* the external collaborators (account keeper, KV store, params subspace,
  bank blacklist) as a read-only-or-threaded `World` record; Keccak-256 is an
  uninterpreted function carried by the `World`;
* panics (`SubRefund`, `RevertToSnapshot`) as `Option`-valued results and Go
  `error` returns as `Option ErrKind`.

`statedb.go` is embedded directly.  The `stateObject`, `journal` and
`accessList` implementations live in companion files that are not part of the
given sources; their operations are modelled from the specification
(§3, §4.1–§4.3 of the spec) and are marked `Modelled from the spec:` in their
doc comments.
-/

namespace OkexStateDB

/-- 20-byte account address, modelled as an opaque natural number. -/
abbrev Addr := Nat

/-- 32-byte hash, modelled as an opaque natural number. -/
abbrev Hash := Nat

/-- `2^64`, the modulus of Go's `uint64`/`uint` arithmetic. -/
def wordMod : Nat := 18446744073709551616

/-- Two's-complement wrap of a Go `int` (64-bit). -/
def intWrap64 (n : Int) : Int := ((n + 9223372036854775808) % 18446744073709551616) - 9223372036854775808

/-- Modelled from the spec: the account record handed out by the external
`AccountKeeper` (§6).  It carries an address, a coin mapping
denomination ↦ decimal amount (internal integer of the `sdk.Dec`), a sequence
number (nonce) and, as in the host chain's `EthAccount`, a code hash. -/
structure Account where
  addr : Addr
  coins : String → Int
  seq : Nat
  codeHash : Hash

/-- Modelled from the spec: the per-account `stateObject` cache (§3, §4.3).
The account mirror carries balance-coins, the sequence number and the code
hash; `originStorage` is the committed-view cache, `dirtyStorage` the ordered
write log with its `Hash → index` lookup map. -/
structure StateObj where
  account : Account
  code : Option (List Nat)
  dirtyCode : Bool
  originStorage : Hash → Option Hash
  dirtyStorage : List (Hash × Hash)
  keyToDirtyStorageIndex : Hash → Option Nat
  suicided : Bool
  deleted : Bool

/-- One element of the `stateObjects` slice (`stateEntry` in statedb.go). -/
structure StateEntry where
  address : Addr
  so : StateObj

/-- An EVM log.  Only the metadata stamped by `AddLog` plus an opaque payload
distinguishing distinct logs are modelled. -/
structure Log where
  txHash : Hash
  blockHash : Hash
  txIndex : Int
  index : Nat
  payload : Nat
deriving DecidableEq

/-- Modelled from the spec: the tagged journal entries of §4.2, one variant
per row of the table.  `storageChange` carries the previous dirty entry
(`none` when the key was absent from dirty storage), `codeChange` carries the
previous `dirty_code` flag so that revert can "clear dirty_code if it was
previously clear". -/
inductive JEntry where
  | createObjectChange (addr : Addr)
  | resetObjectChange (prev : StateObj)
  | suicideChange (addr : Addr) (prevSuicided : Bool) (prevBalance : Int)
  | balanceChange (addr : Addr) (prev : Int)
  | nonceChange (addr : Addr) (prev : Nat)
  | storageChange (addr : Addr) (key : Hash) (prevDirty : Option Hash)
  | codeChange (addr : Addr) (prevCode : Option (List Nat)) (prevHash : Hash) (prevDirtyCode : Bool)
  | refundChange (prev : Nat)
  | addLogChange (txhash : Hash)
  | addPreimageChange (hash : Hash)
  | touchChange (addr : Addr)
  | accessListAddAccountChange (addr : Addr)
  | accessListAddSlotChange (addr : Addr) (slot : Hash)

/-- Modelled from the spec: the address a journal entry marks dirty (§4.2:
the journal "tracks a multiset of dirty addresses — every mutating entry adds
its address", exposed to `Finalise`/`Commit`).  Account-mutating entries
report their address; refund, log, preimage, access-list and reset entries do
not name a new dirty account. -/
def JEntry.dirtied : JEntry → Option Addr
  | .createObjectChange a => some a
  | .resetObjectChange _ => none
  | .suicideChange a _ _ => some a
  | .balanceChange a _ => some a
  | .nonceChange a _ => some a
  | .storageChange a _ _ => some a
  | .codeChange a _ _ _ => some a
  | .touchChange a => some a
  | _ => none

/-- Modelled from the spec: the journal of §4.2 — the ordered entry list plus
the dirty-address marks consumed by `Finalise`/`Commit`. -/
structure Journal where
  entries : List JEntry
  dirties : List Addr

/-- Modelled from the spec: `newJournal` — an empty journal. -/
def newJournal : Journal := { entries := [], dirties := [] }

/-- Modelled from the spec: `journal.append` records the entry and adds its
dirtied address (if any) to the dirty marks. -/
def Journal.append (j : Journal) (e : JEntry) : Journal :=
  { entries := j.entries ++ [e]
    dirties := j.dirties ++ (e.dirtied).toList }

/-- Modelled from the spec: the EIP-2930 access list (§4.1): `addresses` maps
an address to `none` (absent), `some none` (present, no slot set) or
`some (some i)` (present with slot set `slots[i]`); `slots` is the ordered
sequence of slot sets, each an insertion-ordered duplicate-free list. -/
structure AccessList where
  addresses : Addr → Option (Option Nat)
  slots : List (List Hash)

/-- Modelled from the spec: `newAccessList` — empty. -/
def newAccessList : AccessList := { addresses := fun _ => none, slots := [] }

/-- The EVM module parameters (§6 ParamSpace). -/
structure Params where
  evmDenom : String
  enableCreate : Bool
  enableCall : Bool

/-- Error kinds surfaced by the overlay (§7). -/
inductive ErrKind where
  | noAccount (a : Addr)
  | invalidBalance
  | blacklisted (a : Addr)
deriving DecidableEq

/-- The external collaborators of §6, plus the uninterpreted Keccak-256
function: the account keeper's store, the per-contract storage sub-store
(absent = zero), the code sub-store keyed by code hash, the bank blacklist
and the persisted parameter set. -/
structure World where
  accounts : Addr → Option Account
  contractStorage : Addr → Hash → Hash
  codeStore : Hash → List Nat
  blacklist : Addr → Bool
  storedParams : Params
  keccak : List Nat → Hash

/-- The `CommitStateDB` of statedb.go (fields in source order; maps are
functions, slices are lists, the `sync.Mutex` and the embedded `sdk.Context`
with its store keys are subsumed by the explicit `World`). -/
structure CommitStateDB where
  stateObjects : List StateEntry
  addressToObjectIndex : Addr → Option Nat
  stateObjectsDirty : Addr → Bool
  refund : Nat
  thash : Hash
  bhash : Hash
  txIndex : Int
  logSize : Nat
  logs : List Log
  preimages : List (Hash × List Nat)
  hashToPreimageIndex : Hash → Option Nat
  dbErr : Option ErrKind
  journal : Journal
  validRevisions : List (Int × Nat)
  nextRevisionID : Int
  accessList : AccessList
  params : Option Params

/-- `newCommitStateDB` / `CreateEmptyCommitStateDB`: the freshly initialized
overlay of statedb.go lines 108-151. -/
def newCommitStateDB : CommitStateDB :=
  { stateObjects := []
    addressToObjectIndex := fun _ => none
    stateObjectsDirty := fun _ => false
    refund := 0
    thash := 0
    bhash := 0
    txIndex := 0
    logSize := 0
    logs := []
    preimages := []
    hashToPreimageIndex := fun _ => none
    dbErr := none
    journal := newJournal
    validRevisions := []
    nextRevisionID := 0
    accessList := newAccessList
    params := none }

/-- Placeholder entry used only to make positional access total; well-formed
states never expose it (indices point inside the slice). -/
def dummyEntry : StateEntry :=
  { address := 0
    so :=
      { account := { addr := 0, coins := fun _ => 0, seq := 0, codeHash := 0 }
        code := none
        dirtyCode := false
        originStorage := fun _ => none
        dirtyStorage := []
        keyToDirtyStorageIndex := fun _ => none
        suicided := false
        deleted := false } }

/-- Read the `i`-th live state entry (Go: `csdb.stateObjects[idx]`). -/
def getEntry (s : CommitStateDB) (i : Nat) : StateEntry :=
  s.stateObjects.getD i dummyEntry

/-- Pointer-style in-place update of the state object stored at address `a`'s
slot (Go mutates through the `*stateObject` pointer held in the slice).  A
no-op when the address is not indexed. -/
def updateObjAt (s : CommitStateDB) (a : Addr) (f : StateObj → StateObj) : CommitStateDB :=
  match s.addressToObjectIndex a with
  | some i =>
      { s with stateObjects :=
          s.stateObjects.set i { address := (getEntry s i).address, so := f (getEntry s i).so } }
  | none => s

/-- Append a journal entry (Go: `csdb.journal.append(...)`). -/
def appendJ (s : CommitStateDB) (e : JEntry) : CommitStateDB :=
  { s with journal := s.journal.append e }

/-- The effective parameter set: the cached params if present, otherwise the
persisted ones (`GetParams` reads the param space on a cache miss). -/
def paramsVal (w : World) (s : CommitStateDB) : Params :=
  s.params.getD w.storedParams

/-- `GetParams` (statedb.go lines 337-344): return the cached params,
loading them from the param space and caching them on a miss. -/
def GetParams (w : World) (s : CommitStateDB) : Params × CommitStateDB :=
  match s.params with
  | some p => (p, s)
  | none => (w.storedParams, { s with params := some w.storedParams })

/-- Modelled from the spec: `AccountKeeper.NewAccountWithAddress` (§6) mints
a fresh account: no coins, zero sequence, empty-code hash (the host chain's
`EthAccount` is initialised with `Keccak256(nil)`). -/
def newAccountWithAddress (w : World) (a : Addr) : Account :=
  { addr := a, coins := fun _ => 0, seq := 0, codeHash := w.keccak [] }

/-- Modelled from the spec: `newStateObject` wraps an account into a clean
cache object — no code loaded, nothing dirty, not suicided, not deleted. -/
def newStateObject (acc : Account) : StateObj :=
  { account := acc
    code := none
    dirtyCode := false
    originStorage := fun _ => none
    dirtyStorage := []
    keyToDirtyStorageIndex := fun _ => none
    suicided := false
    deleted := false }

/-- Modelled from the spec: a state object's balance is the decimal amount of
its account mirror's coin of the overlay denomination (§3: the account is a
"mirror of the external account record (address, balance-coins,
sequence/nonce)"; §6: reading a balance reconstructs `B` from the stored
decimal amount). -/
def StateObj.balance (o : StateObj) (denom : String) : Int :=
  o.account.coins denom

/-- Modelled from the spec: `stateObject.setBalance(denom, amount)` — replace
the mirror's coin amount for `denom` (journalling is done by the capitalised
wrapper). -/
def StateObj.setBalance (o : StateObj) (denom : String) (amt : Int) : StateObj :=
  { o with account :=
      { o.account with coins := fun e => if e = denom then amt else o.account.coins e } }

/-- Modelled from the spec: `stateObject.setNonce` — plain assignment of the
sequence number. -/
def StateObj.setNonce (o : StateObj) (n : Nat) : StateObj :=
  { o with account := { o.account with seq := n } }

/-- Modelled from the spec: `markSuicided` — idempotent flag set. -/
def StateObj.markSuicided (o : StateObj) : StateObj :=
  { o with suicided := true }

/-- Modelled from the spec (§4.3 `GetState` resolution): dirty storage, then
the origin cache, then the external store — a store read populates
`origin_storage`.  Returns the value and the (possibly cache-extended)
object. -/
def StateObj.getState (w : World) (a : Addr) (o : StateObj) (k : Hash) : Hash × StateObj :=
  match o.keyToDirtyStorageIndex k with
  | some i => ((o.dirtyStorage.getD i (0, 0)).2, o)
  | none =>
      match o.originStorage k with
      | some v => (v, o)
      | none =>
          let v := w.contractStorage a k
          (v, { o with originStorage := fun k2 => if k2 = k then some v else o.originStorage k2 })

/-- Modelled from the spec: `GetCommittedState` — the committed view, ignoring
dirty storage.  Only the value is needed by the embedding. -/
def StateObj.getCommittedState (w : World) (a : Addr) (o : StateObj) (k : Hash) : Hash :=
  match o.originStorage k with
  | some v => v
  | none => w.contractStorage a k

/-- Modelled from the spec: record a (possibly new) dirty-storage entry:
update in place when the key is already dirty, otherwise append and index. -/
def StateObj.setStateRaw (o : StateObj) (k v : Hash) : StateObj :=
  match o.keyToDirtyStorageIndex k with
  | some i => { o with dirtyStorage := o.dirtyStorage.set i (k, v) }
  | none =>
      { o with
        dirtyStorage := o.dirtyStorage ++ [(k, v)]
        keyToDirtyStorageIndex := fun k2 =>
          if k2 = k then some o.dirtyStorage.length else o.keyToDirtyStorageIndex k2 }

/-- Modelled from the spec: `Code()` returns the cached code, else loads from
the external store keyed by the code hash. -/
def StateObj.codeVal (w : World) (o : StateObj) : List Nat :=
  match o.code with
  | some c => c
  | none => w.codeStore o.account.codeHash

/-- Modelled from the spec: `empty()` — EIP-161: zero nonce, zero balance and
no code (code hash equals the hash of the empty byte string). -/
def StateObj.emptyObj (w : World) (denom : String) (o : StateObj) : Bool :=
  o.account.seq = 0 && o.balance denom = 0 && o.account.codeHash = w.keccak []

/-- `setError` (statedb.go lines 847-852): remember the first non-nil
error. -/
def setError (s : CommitStateDB) (e : ErrKind) : CommitStateDB :=
  match s.dbErr with
  | none => { s with dbErr := some e }
  | some _ => s

/-- `setStateObject` (statedb.go lines 882-897): update the existing slot for
the object's address, or append a new entry and index it. -/
def setStateObject (s : CommitStateDB) (so : StateObj) : CommitStateDB :=
  match s.addressToObjectIndex so.account.addr with
  | some i =>
      { s with stateObjects :=
          s.stateObjects.set i { address := (getEntry s i).address, so := so } }
  | none =>
      { s with
        stateObjects := s.stateObjects ++ [{ address := so.account.addr, so := so }]
        addressToObjectIndex := fun b =>
          if b = so.account.addr then some s.stateObjects.length
          else s.addressToObjectIndex b }

/-- `getStateObject` (statedb.go lines 854-880): prefer the live (cached)
object, hiding deleted ones; otherwise fetch from the account keeper —
memoising a `no account found` error on a miss — and insert the loaded object
into the live set (unjournalled). -/
def getStateObject (w : World) (s : CommitStateDB) (a : Addr) : Option StateObj × CommitStateDB :=
  match s.addressToObjectIndex a with
  | some i =>
      let so := (getEntry s i).so
      if so.deleted then (none, s) else (some so, s)
  | none =>
      match w.accounts a with
      | none => (none, setError s (.noAccount a))
      | some acc =>
          let so := newStateObject acc
          (some so, setStateObject s so)

/-- `createObject` (statedb.go lines 829-845): resolve any previous object,
mint a fresh account, build a new zero-nonce object, journal
`createObjectChange` (no previous) or `resetObjectChange` (overwrite), and
install the new object. -/
def createObject (w : World) (s : CommitStateDB) (a : Addr) :
    StateObj × Option StateObj × CommitStateDB :=
  let r := getStateObject w s a
  let prevObj := r.1
  let acc := newAccountWithAddress w a
  let newObj := (newStateObject acc).setNonce 0
  let s2 :=
    match prevObj with
    | none => appendJ r.2 (.createObjectChange a)
    | some p => appendJ r.2 (.resetObjectChange p)
  (newObj, prevObj, setStateObject s2 newObj)

/-- `GetOrNewStateObject` (statedb.go lines 818-825): retrieve, creating a
fresh object when resolution fails. -/
def GetOrNewStateObject (w : World) (s : CommitStateDB) (a : Addr) :
    StateObj × CommitStateDB :=
  match getStateObject w s a with
  | (some so, s1) => (so, s1)
  | (none, s1) =>
      let c := createObject w s1 a
      (c.1, c.2.2)

/-- The object currently cached at address `a`, if any (the target of Go's
`*stateObject` pointer mutations). -/
def liveObj (s : CommitStateDB) (a : Addr) : Option StateObj :=
  (s.addressToObjectIndex a).map (fun i => (getEntry s i).so)

/-- `stateObject.SetBalance` as invoked through the overlay after
`GetOrNewStateObject` succeeded: journal the previous balance, then replace
it with `f previous` (spec §4.3; the denomination is the overlay's
`evm_denom`, via `GetParams`).  `f` is the identity writing the new amount
for `SetBalance` and the balance arithmetic for `Add`/`SubBalance`. -/
def soBalanceOp (w : World) (s : CommitStateDB) (a : Addr) (f : Int → Int) : CommitStateDB :=
  let pr := GetParams w s
  let d := pr.1.evmDenom
  match liveObj pr.2 a with
  | some o =>
      updateObjAt (appendJ pr.2 (.balanceChange a (o.balance d))) a
        (fun o2 => o2.setBalance d (f (o.balance d)))
  | none => pr.2

/-- `SetBalance` (statedb.go lines 176-182). -/
def SetBalance (w : World) (s : CommitStateDB) (a : Addr) (amt : Int) : CommitStateDB :=
  let g := GetOrNewStateObject w s a
  soBalanceOp w g.2 a (fun _ => amt)

/-- `AddBalance` (statedb.go lines 184-190); the object operation is balance
arithmetic followed by the journalled replacement (spec §4.3). -/
def AddBalance (w : World) (s : CommitStateDB) (a : Addr) (amt : Int) : CommitStateDB :=
  let g := GetOrNewStateObject w s a
  soBalanceOp w g.2 a (fun b => b + amt)

/-- `SubBalance` (statedb.go lines 192-198). -/
def SubBalance (w : World) (s : CommitStateDB) (a : Addr) (amt : Int) : CommitStateDB :=
  let g := GetOrNewStateObject w s a
  soBalanceOp w g.2 a (fun b => b - amt)

/-- `SetNonce` (statedb.go lines 200-206): journal the previous sequence
number, then assign (spec §4.3). -/
def SetNonce (w : World) (s : CommitStateDB) (a : Addr) (n : Nat) : CommitStateDB :=
  let g := GetOrNewStateObject w s a
  match liveObj g.2 a with
  | some o => updateObjAt (appendJ g.2 (.nonceChange a o.account.seq)) a (fun o2 => o2.setNonce n)
  | none => g.2

/-- `SetState` (statedb.go lines 208-214) delegating to
`stateObject.SetState` (spec §4.3): read the current value (populating the
origin cache), no-op if the value is unchanged, otherwise journal the
previous dirty entry (`none` when the key was not dirty) and record the
write. -/
def SetState (w : World) (s : CommitStateDB) (a : Addr) (k v : Hash) : CommitStateDB :=
  let g := GetOrNewStateObject w s a
  match liveObj g.2 a with
  | some o =>
      let gv := o.getState w a k
      let s2 := updateObjAt g.2 a (fun _ => gv.2)
      if gv.1 = v then s2
      else
        let prevDirty := (gv.2.keyToDirtyStorageIndex k).map
          (fun i => (gv.2.dirtyStorage.getD i (0, 0)).2)
        updateObjAt (appendJ s2 (.storageChange a k prevDirty)) a (fun o2 => o2.setStateRaw k v)
  | none => g.2

/-- `SetCode` (statedb.go lines 216-222) delegating to
`stateObject.SetCode` (spec §4.3): journal the previous code, hash and
dirty-code flag, then install the new code with its Keccak-256 hash and set
`dirty_code`. -/
def SetCode (w : World) (s : CommitStateDB) (a : Addr) (c : List Nat) : CommitStateDB :=
  let g := GetOrNewStateObject w s a
  match liveObj g.2 a with
  | some o =>
      updateObjAt (appendJ g.2 (.codeChange a o.code o.account.codeHash o.dirtyCode)) a
        (fun o2 =>
          { o2 with
            code := some c
            dirtyCode := true
            account := { o2.account with codeHash := w.keccak c } })
  | none => g.2

/-- `SetLogs` (statedb.go lines 232-235): replace the log slice (the hash is
ignored). -/
def SetLogs (s : CommitStateDB) (logs : List Log) : CommitStateDB :=
  { s with logs := logs }

/-- `DeleteLogs` (statedb.go lines 238-240): clear the log slice (the hash is
ignored). -/
def DeleteLogs (s : CommitStateDB) : CommitStateDB :=
  { s with logs := [] }

/-- `AddLog` (statedb.go lines 243-253): journal, stamp the log with the
per-transaction metadata and the running log index, bump `logSize`
(`uint` arithmetic) and append. -/
def AddLog (s : CommitStateDB) (l : Log) : CommitStateDB :=
  let s1 := appendJ s (.addLogChange s.thash)
  let stamped : Log :=
    { l with txHash := s.thash, blockHash := s.bhash, txIndex := s.txIndex, index := s.logSize }
  { s1 with logSize := (s.logSize + 1) % wordMod, logs := s.logs ++ [stamped] }

/-- `AddPreimage` (statedb.go lines 256-266): no-op when the hash is already
indexed; otherwise journal, append the (copied) preimage and index it. -/
def AddPreimage (s : CommitStateDB) (h : Hash) (p : List Nat) : CommitStateDB :=
  match s.hashToPreimageIndex h with
  | some _ => s
  | none =>
      let s1 := appendJ s (.addPreimageChange h)
      { s1 with
        preimages := s.preimages ++ [(h, p)]
        hashToPreimageIndex := fun h2 =>
          if h2 = h then some s.preimages.length else s.hashToPreimageIndex h2 }

/-- `AddRefund` (statedb.go lines 269-272): journal the previous counter and
add (Go `uint64` arithmetic wraps). -/
def AddRefund (s : CommitStateDB) (g : Nat) : CommitStateDB :=
  let s1 := appendJ s (.refundChange s.refund)
  { s1 with refund := (s.refund + g) % wordMod }

/-- `SubRefund` (statedb.go lines 276-283): journal the previous counter,
panic (`none`) when the subtrahend exceeds the counter, otherwise
subtract. -/
def SubRefund (s : CommitStateDB) (g : Nat) : Option CommitStateDB :=
  let s1 := appendJ s (.refundChange s.refund)
  if g > s.refund then none else some { s1 with refund := s.refund - g }

/-- Modelled from the spec: `accessList.ContainsAddress` (§4.1). -/
def AccessList.containsAddress (al : AccessList) (a : Addr) : Bool :=
  (al.addresses a).isSome

/-- Modelled from the spec: `accessList.AddAddress` (§4.1): insert with no
slot set if absent; report whether the address was newly added. -/
def AccessList.addAddress (al : AccessList) (a : Addr) : Bool × AccessList :=
  match al.addresses a with
  | some _ => (false, al)
  | none => (true, { al with addresses := fun b => if b = a then some none else al.addresses b })

/-- Modelled from the spec: `accessList.AddSlot` (§4.1): ensure the address
is present (allocating a slot set if needed) and insert the slot; report
`(address newly added, slot newly added)`. -/
def AccessList.addSlot (al : AccessList) (a : Addr) (sl : Hash) : Bool × Bool × AccessList :=
  match al.addresses a with
  | none =>
      (true, true,
        { addresses := fun b => if b = a then some (some al.slots.length) else al.addresses b
          slots := al.slots ++ [[sl]] })
  | some none =>
      (false, true,
        { addresses := fun b => if b = a then some (some al.slots.length) else al.addresses b
          slots := al.slots ++ [[sl]] })
  | some (some i) =>
      let set := al.slots.getD i []
      if sl ∈ set then (false, false, al)
      else (false, true, { al with slots := al.slots.set i (set ++ [sl]) })

/-- Modelled from the spec: `accessList.Contains` (§4.1): the slot is only
reported present when its address is present. -/
def AccessList.containsSlot (al : AccessList) (a : Addr) (sl : Hash) : Bool × Bool :=
  match al.addresses a with
  | none => (false, false)
  | some none => (true, false)
  | some (some i) => (true, decide (sl ∈ al.slots.getD i []))

/-- `AddAddressToAccessList` (statedb.go lines 286-290): journal only when
the address was newly added. -/
def AddAddressToAccessList (s : CommitStateDB) (a : Addr) : CommitStateDB :=
  let r := s.accessList.addAddress a
  let s1 := { s with accessList := r.2 }
  if r.1 then appendJ s1 (.accessListAddAccountChange a) else s1

/-- `AddSlotToAccessList` (statedb.go lines 293-308): journal an account
entry when the address was newly added, then a slot entry when the slot was
newly added. -/
def AddSlotToAccessList (s : CommitStateDB) (a : Addr) (sl : Hash) : CommitStateDB :=
  let r := s.accessList.addSlot a sl
  let s1 := { s with accessList := r.2.2 }
  let s2 := if r.1 then appendJ s1 (.accessListAddAccountChange a) else s1
  if r.2.1 then appendJ s2 (.accessListAddSlotChange a sl) else s2

/-- `AddressInAccessList` (statedb.go lines 311-313). -/
def AddressInAccessList (s : CommitStateDB) (a : Addr) : Bool :=
  s.accessList.containsAddress a

/-- `SlotInAccessList` (statedb.go lines 316-318). -/
def SlotInAccessList (s : CommitStateDB) (a : Addr) (sl : Hash) : Bool × Bool :=
  s.accessList.containsSlot a sl

/-- `Snapshot` (statedb.go lines 616-629): allocate the next revision id
(Go `int` increment), push `(id, journal length)` and return the id. -/
def Snapshot (s : CommitStateDB) : Int × CommitStateDB :=
  let id := s.nextRevisionID
  (id,
    { s with
      nextRevisionID := intWrap64 (s.nextRevisionID + 1)
      validRevisions := s.validRevisions ++ [(id, s.journal.entries.length)] })

/-- Remove the live entry for `a` and its index mapping, shifting the index
of every later entry down by one (the only reading of §4.2 "remove object
from live set and address index" that keeps the map consistent). -/
def removeEntryFor (s : CommitStateDB) (a : Addr) : CommitStateDB :=
  match s.addressToObjectIndex a with
  | some i =>
      { s with
        stateObjects := s.stateObjects.eraseIdx i
        addressToObjectIndex := fun b =>
          if b = a then none
          else (s.addressToObjectIndex b).map (fun j => if i < j then j - 1 else j) }
  | none => s

/-- Modelled from the spec: the revert action of a single journal entry
(§4.2 table).  Object-directed undos act on the object cached at the entry's
address (a no-op when absent — reachable reverts always find it);
`resetObjectChange` reinstates the previous object through `setStateObject`;
the balance-restoring undos use the overlay denomination. -/
def undoEntry (w : World) (e : JEntry) (s : CommitStateDB) : CommitStateDB :=
  match e with
  | .createObjectChange a => removeEntryFor s a
  | .resetObjectChange prev => setStateObject s prev
  | .suicideChange a pf pb =>
      updateObjAt s a (fun o => (StateObj.setBalance { o with suicided := pf } (paramsVal w s).evmDenom pb))
  | .balanceChange a p => updateObjAt s a (fun o => o.setBalance (paramsVal w s).evmDenom p)
  | .nonceChange a p => updateObjAt s a (fun o => o.setNonce p)
  | .storageChange a k prevD =>
      updateObjAt s a (fun o =>
        match o.keyToDirtyStorageIndex k with
        | none => o
        | some i =>
            match prevD with
            | some v => { o with dirtyStorage := o.dirtyStorage.set i (k, v) }
            | none =>
                { o with
                  dirtyStorage := o.dirtyStorage.eraseIdx i
                  keyToDirtyStorageIndex := fun k2 =>
                    if k2 = k then none
                    else (o.keyToDirtyStorageIndex k2).map (fun j => if i < j then j - 1 else j) })
  | .codeChange a pc ph pd =>
      updateObjAt s a (fun o =>
        { o with code := pc, dirtyCode := pd, account := { o.account with codeHash := ph } })
  | .refundChange p => { s with refund := p }
  | .addLogChange _ =>
      { s with logs := s.logs.dropLast, logSize := (s.logSize + (wordMod - 1)) % wordMod }
  | .addPreimageChange h =>
      match s.hashToPreimageIndex h with
      | some i =>
          { s with
            preimages := s.preimages.eraseIdx i
            hashToPreimageIndex := fun h2 =>
              if h2 = h then none
              else (s.hashToPreimageIndex h2).map (fun j => if i < j then j - 1 else j) }
      | none => s
  | .touchChange _ => s
  | .accessListAddAccountChange a =>
      { s with accessList :=
          { s.accessList with addresses := fun b => if b = a then none else s.accessList.addresses b } }
  | .accessListAddSlotChange a sl =>
      match s.accessList.addresses a with
      | some (some i) =>
          let set2 := (s.accessList.slots.getD i []).erase sl
          let al2 := { s.accessList with slots := s.accessList.slots.set i set2 }
          if set2.isEmpty then
            { s with accessList :=
                { al2 with addresses := fun b => if b = a then some none else al2.addresses b } }
          else { s with accessList := al2 }
      | _ => s

/-- Undo a list of journal entries; the head of the list is the earliest
entry and is undone last (the journal replays backwards). -/
def undoSeq (w : World) (es : List JEntry) (s : CommitStateDB) : CommitStateDB :=
  match es with
  | [] => s
  | e :: rest => undoEntry w e (undoSeq w rest s)

/-- Modelled from the spec: `journal.revert(overlay, snapshot_length)` —
undo every entry beyond `target` in reverse order, truncating the entry list
to `target` (the undos never read or write the entry list, so truncating
first is equivalent to Go's truncate-after). -/
def journalRevert (w : World) (s : CommitStateDB) (target : Nat) : CommitStateDB :=
  undoSeq w (s.journal.entries.drop target)
    { s with journal := { s.journal with entries := s.journal.entries.take target } }

/-- Go's `sort.Search` loop: binary search for the least index in `[i, j)`
satisfying `f`, assuming `f` monotone; `j` when none. -/
def searchAux (f : Nat → Bool) (i j : Nat) : Nat :=
  if h : i < j then
    let m := (i + j) / 2
    if f m then searchAux f i m else searchAux f (m + 1) j
  else i
termination_by j - i
decreasing_by
  · have hm : (i + j) / 2 < j := Nat.lt_of_lt_of_le (by omega) (le_refl j)
    omega
  · omega

/-- Go's `sort.Search(n, f)`. -/
def sortSearch (n : Nat) (f : Nat → Bool) : Nat := searchAux f 0 n

/-- `RevertToSnapshot` (statedb.go lines 632-647): binary-search the valid
revisions for the first id `≥ revID`; panic (`none`) when absent or
mismatched; otherwise replay the journal back to the recorded length and
truncate the revision stack to just before the entry found. -/
def RevertToSnapshot (w : World) (s : CommitStateDB) (revID : Int) : Option CommitStateDB :=
  let n := s.validRevisions.length
  let idx := sortSearch n (fun i => decide ((s.validRevisions.getD i (0, 0)).1 ≥ revID))
  if idx = n ∨ (s.validRevisions.getD idx (0, 0)).1 ≠ revID then none
  else
    let snapshot := (s.validRevisions.getD idx (0, 0)).2
    let s1 := journalRevert w s snapshot
    some { s1 with validRevisions := s.validRevisions.take idx }

/-- `GetBalance` (statedb.go lines 348-355): the resolved object's balance,
else zero. -/
def GetBalance (w : World) (s : CommitStateDB) (a : Addr) : Int × CommitStateDB :=
  match getStateObject w s a with
  | (some so, s1) =>
      let pr := GetParams w s1
      (so.balance pr.1.evmDenom, pr.2)
  | (none, s1) => (0, s1)

/-- `GetNonce` (statedb.go lines 358-365). -/
def GetNonce (w : World) (s : CommitStateDB) (a : Addr) : Nat × CommitStateDB :=
  match getStateObject w s a with
  | (some so, s1) => (so.account.seq, s1)
  | (none, s1) => (0, s1)

/-- `GetCode` (statedb.go lines 382-389). -/
def GetCode (w : World) (s : CommitStateDB) (a : Addr) : List Nat × CommitStateDB :=
  match getStateObject w s a with
  | (some so, s1) => (so.codeVal w, s1)
  | (none, s1) => ([], s1)

/-- `GetCodeHash` (statedb.go lines 406-413). -/
def GetCodeHash (w : World) (s : CommitStateDB) (a : Addr) : Hash × CommitStateDB :=
  match getStateObject w s a with
  | (some so, s1) => (so.account.codeHash, s1)
  | (none, s1) => (0, s1)

/-- `GetState` (statedb.go lines 416-423): the current (possibly dirty)
storage value, caching committed reads into the origin cache. -/
def GetState (w : World) (s : CommitStateDB) (a : Addr) (k : Hash) : Hash × CommitStateDB :=
  match getStateObject w s a with
  | (some so, s1) =>
      let gv := so.getState w a k
      (gv.1, updateObjAt s1 a (fun _ => gv.2))
  | (none, s1) => (0, s1)

/-- `GetCommittedState` (statedb.go lines 427-434). -/
def GetCommittedState (w : World) (s : CommitStateDB) (a : Addr) (k : Hash) :
    Hash × CommitStateDB :=
  match getStateObject w s a with
  | (some so, s1) => (so.getCommittedState w a k, s1)
  | (none, s1) => (0, s1)

/-- `GetLogs` (statedb.go lines 437-439): the current log slice with a nil
error, whatever hash is requested. -/
def GetLogs (s : CommitStateDB) (_hash : Hash) : List Log × Option ErrKind :=
  (s.logs, none)

/-- `GetRefund` (statedb.go lines 442-444). -/
def GetRefund (s : CommitStateDB) : Nat := s.refund

/-- `Preimages` (statedb.go lines 447-454): materialise the preimage list as
a map (later entries win, as when inserting into a Go map). -/
def Preimages (s : CommitStateDB) (h : Hash) : Option (List Nat) :=
  (s.preimages.foldl (fun acc e => if e.1 = h then some e.2 else acc) none)

/-- `HasSuicided` (statedb.go lines 458-465). -/
def HasSuicided (w : World) (s : CommitStateDB) (a : Addr) : Bool × CommitStateDB :=
  match getStateObject w s a with
  | (some so, s1) => (so.suicided, s1)
  | (none, s1) => (false, s1)

/-- `Empty` (statedb.go lines 661-664): non-existent or EIP-161 empty. -/
def Empty (w : World) (s : CommitStateDB) (a : Addr) : Bool × CommitStateDB :=
  match getStateObject w s a with
  | (some so, s1) =>
      let pr := GetParams w s1
      (so.emptyObj w pr.1.evmDenom, pr.2)
  | (none, s1) => (true, s1)

/-- `Exist` (statedb.go lines 668-670). -/
def Exist (w : World) (s : CommitStateDB) (a : Addr) : Bool × CommitStateDB :=
  let r := getStateObject w s a
  (r.1.isSome, r.2)

/-- `Error` (statedb.go lines 673-675): the first memoised database
error. -/
def ErrorOf (s : CommitStateDB) : Option ErrKind := s.dbErr

/-- `Suicide` (statedb.go lines 681-697): resolve the object (false when
absent); journal the suicide with the previous flag and balance, mark
suicided, and zero the balance through the journalled `SetBalance`. -/
def Suicide (w : World) (s : CommitStateDB) (a : Addr) : Bool × CommitStateDB :=
  match getStateObject w s a with
  | (none, s1) => (false, s1)
  | (some so, s1) =>
      let pr := GetParams w s1
      let d := pr.1.evmDenom
      let s2 := appendJ pr.2 (.suicideChange a so.suicided (so.balance d))
      let s3 := updateObjAt s2 a StateObj.markSuicided
      (true, soBalanceOp w s3 a (fun _ => 0))

/-- `clearJournalAndRefund` (statedb.go lines 748-752). -/
def clearJournalAndRefund (s : CommitStateDB) : CommitStateDB :=
  { s with journal := newJournal, validRevisions := [], refund := 0 }

/-- `Reset` (statedb.go lines 702-717): drop the ephemeral state (note: the
log slice is deliberately not part of what `Reset` clears).  The world is
threaded to express that the call does not touch the external stores. -/
def Reset (w : World) (s : CommitStateDB) : World × CommitStateDB :=
  (w,
    clearJournalAndRefund
      { s with
        stateObjects := []
        addressToObjectIndex := fun _ => none
        stateObjectsDirty := fun _ => false
        thash := 0
        bhash := 0
        txIndex := 0
        logSize := 0
        preimages := []
        hashToPreimageIndex := fun _ => none
        accessList := newAccessList
        params := none })

/-- `ClearStateObjects` (statedb.go lines 742-746). -/
def ClearStateObjects (s : CommitStateDB) : CommitStateDB :=
  { s with
    stateObjects := []
    addressToObjectIndex := fun _ => none
    stateObjectsDirty := fun _ => false }

/-- `Prepare` (statedb.go lines 756-760). -/
def Prepare (s : CommitStateDB) (th bh : Hash) (txi : Int) : CommitStateDB :=
  { s with thash := th, bhash := bh, txIndex := txi }

/-- `CreateAccount` (statedb.go lines 772-778): create the object; when a
previous object existed, carry its balance over onto the new object through
the unjournalled `setBalance`. -/
def CreateAccount (w : World) (s : CommitStateDB) (a : Addr) : CommitStateDB :=
  let c := createObject w s a
  match c.2.1 with
  | none => c.2.2
  | some prev =>
      let pr := GetParams w c.2.2
      let d := pr.1.evmDenom
      updateObjAt pr.2 a (fun o => o.setBalance d (prev.balance d))

/-- Validity of a coin denomination (`sdk.Coin.IsValid` checks the
denomination against the sdk regex; the embedding abstracts this to
non-emptiness). -/
def validDenom (d : String) : Bool := d ≠ ""

/-- `updateStateObject` (statedb.go lines 577-603) acting on the entry at
position `i`: build the coin `(evm_denom, Dec(balance))`, reject invalid
coins and blacklisted addresses, add the coin onto the mirror's coins exactly
when the stored amount is zero or differs from it (cosmos `Coins.Add` sums
amounts per denomination), write the mirror back into the object and store
the account through the keeper. -/
def updateStateObjectAt (w : World) (s : CommitStateDB) (i : Nat) :
    Option ErrKind × World × CommitStateDB :=
  let pr := GetParams w s
  let d := pr.1.evmDenom
  let o := (getEntry pr.2 i).so
  let amt := o.balance d
  if ¬ (validDenom d ∧ 0 ≤ amt) then (some .invalidBalance, w, pr.2)
  else if w.blacklist o.account.addr then (some (.blacklisted o.account.addr), w, pr.2)
  else
    let bal := o.account.coins d
    let coins2 :=
      if bal = 0 ∨ bal ≠ amt then
        fun e => if e = d then o.account.coins e + amt else o.account.coins e
      else o.account.coins
    let acc2 := { o.account with coins := coins2 }
    let s2 :=
      { pr.2 with stateObjects :=
          pr.2.stateObjects.set i { address := (getEntry pr.2 i).address, so := { o with account := acc2 } } }
    (none, { w with accounts := fun b => if b = acc2.addr then some acc2 else w.accounts b }, s2)

/-- `deleteStateObject` (statedb.go lines 606-609) acting on the entry at
position `i`: flag the object deleted and remove its account from the
keeper. -/
def deleteStateObjectAt (w : World) (s : CommitStateDB) (i : Nat) : World × CommitStateDB :=
  let e := getEntry s i
  ({ w with accounts := fun b => if b = e.so.account.addr then none else w.accounts b },
    { s with stateObjects :=
        s.stateObjects.set i { address := e.address, so := { e.so with deleted := true } } })

/-- Modelled from the spec: `commitCode` writes `(code_hash → code)` to the
external store (§4.3); the caller clears `dirty_code`. -/
def commitCodeAt (w : World) (s : CommitStateDB) (i : Nat) : World :=
  let e := getEntry s i
  { w with codeStore := fun h =>
      if h = e.so.account.codeHash then e.so.code.getD [] else w.codeStore h }

/-- Last-wins lookup in an ordered write log (flushing happens in insertion
order, so the last write to a key is the surviving one). -/
def lastLookup (l : List (Hash × Hash)) (k : Hash) : Option Hash :=
  l.foldl (fun acc kv => if kv.1 = k then some kv.2 else acc) none

/-- Modelled from the spec: `commitState` flushes the dirty storage of the
entry at `i` into the per-contract storage sub-store in insertion order
(zero values delete, which coincides with storing the zero default), clears
the dirty log and folds the flushed values into the origin cache (§4.3). -/
def commitStateAt (w : World) (s : CommitStateDB) (i : Nat) : World × CommitStateDB :=
  let e := getEntry s i
  let a := e.so.account.addr
  let st2 := e.so.dirtyStorage.foldl
    (fun cs kv => fun b k => if b = a ∧ k = kv.1 then kv.2 else cs b k) w.contractStorage
  let so2 :=
    { e.so with
      dirtyStorage := []
      keyToDirtyStorageIndex := fun _ => none
      originStorage := fun k =>
        match lastLookup e.so.dirtyStorage k with
        | some v => some v
        | none => e.so.originStorage k }
  ({ w with contractStorage := st2 },
    { s with stateObjects := s.stateObjects.set i { address := e.address, so := so2 } })

/-- Fold the journal's dirty marks into the `stateObjectsDirty` set
(statedb.go lines 485-487). -/
def mergeJournalDirties (s : CommitStateDB) : CommitStateDB :=
  { s with stateObjectsDirty :=
      s.journal.dirties.foldl (fun f a => fun b => if b = a then true else f b) s.stateObjectsDirty }

/-- The body of `Commit`'s loop over the live slice (statedb.go lines
490-513), by position: suicided objects — and, with `deleteEmptyObjects`,
dirty empty ones — are deleted from the keeper; other dirty objects have
their code committed (when set and dirty) and their account written, any
write error aborting the loop; each fully processed address is removed from
the dirty set. -/
def commitLoop (deleteEmpty : Bool) (w : World) (s : CommitStateDB) :
    List Nat → Option ErrKind × World × CommitStateDB
  | [] => (none, w, s)
  | i :: rest =>
      let e := getEntry s i
      let isDirty := s.stateObjectsDirty e.address
      if e.so.suicided then
        let r := deleteStateObjectAt w s i
        let s2 := { r.2 with stateObjectsDirty := fun b => if b = e.address then false else r.2.stateObjectsDirty b }
        commitLoop deleteEmpty r.1 s2 rest
      else if isDirty then
        let pr := GetParams w s
        if deleteEmpty && e.so.emptyObj w pr.1.evmDenom then
          let r := deleteStateObjectAt w pr.2 i
          let s2 := { r.2 with stateObjectsDirty := fun b => if b = e.address then false else r.2.stateObjectsDirty b }
          commitLoop deleteEmpty r.1 s2 rest
        else
          let w1 := if e.so.code.isSome && e.so.dirtyCode then commitCodeAt w pr.2 i else w
          let s1 :=
            if e.so.code.isSome && e.so.dirtyCode then
              { pr.2 with stateObjects :=
                  pr.2.stateObjects.set i { address := e.address, so := { e.so with dirtyCode := false } } }
            else pr.2
          let u := updateStateObjectAt w1 s1 i
          match u.1 with
          | some err => (some err, u.2.1, u.2.2)
          | none =>
              let s2 := { u.2.2 with stateObjectsDirty := fun b => if b = e.address then false else u.2.2.stateObjectsDirty b }
              commitLoop deleteEmpty u.2.1 s2 rest
      else
        let s2 := { s with stateObjectsDirty := fun b => if b = e.address then false else s.stateObjectsDirty b }
        commitLoop deleteEmpty w s2 rest

/-- `Commit` (statedb.go lines 481-519): merge journal dirties, run the loop
over the live slice, and — via the deferred `clearJournalAndRefund` — clear
the journal and refund on every path.  The returned hash is the all-zero
hash at every return site. -/
def Commit (w : World) (s : CommitStateDB) (deleteEmpty : Bool) :
    Hash × Option ErrKind × World × CommitStateDB :=
  let s0 := mergeJournalDirties s
  let r := commitLoop deleteEmpty w s0 (List.range s0.stateObjects.length)
  (0, r.1, r.2.1, clearJournalAndRefund r.2.2)

/-- The body of `Finalise`'s loop over the journal's dirty addresses
(statedb.go lines 525-553): skip addresses that fell out of the index
(the ripeMD special case); delete suicided (or, with `deleteEmptyObjects`,
empty) objects; otherwise flush dirty storage and write the account, any
write error aborting the loop without clearing the journal; each processed
address is marked in `stateObjectsDirty`. -/
def finaliseLoop (deleteEmpty : Bool) (w : World) (s : CommitStateDB) :
    List Addr → Option ErrKind × World × CommitStateDB
  | [] => (none, w, s)
  | a :: rest =>
      match s.addressToObjectIndex a with
      | none => finaliseLoop deleteEmpty w s rest
      | some idx =>
          let e := getEntry s idx
          let pr := GetParams w s
          if e.so.suicided || (deleteEmpty && e.so.emptyObj w pr.1.evmDenom) then
            let r := deleteStateObjectAt w pr.2 idx
            let s2 := { r.2 with stateObjectsDirty := fun b => if b = a then true else r.2.stateObjectsDirty b }
            finaliseLoop deleteEmpty r.1 s2 rest
          else
            let c := commitStateAt w pr.2 idx
            let u := updateStateObjectAt c.1 c.2 idx
            match u.1 with
            | some err => (some err, u.2.1, u.2.2)
            | none =>
                let s2 := { u.2.2 with stateObjectsDirty := fun b => if b = a then true else u.2.2.stateObjectsDirty b }
                finaliseLoop deleteEmpty u.2.1 s2 rest

/-- `Finalise` (statedb.go lines 524-559): run the loop over the journal's
dirty addresses, then clear journal, refund and the per-transaction logs. -/
def Finalise (w : World) (s : CommitStateDB) (deleteEmpty : Bool) :
    Option ErrKind × World × CommitStateDB :=
  let r := finaliseLoop deleteEmpty w s s.journal.dirties
  match r.1 with
  | some err => (some err, r.2.1, r.2.2)
  | none => (none, r.2.1, DeleteLogs (clearJournalAndRefund r.2.2))

/-- The mutating overlay operations quantified over by the snapshot
round-trip property: balance/nonce/storage/code setters, `AddLog`,
`AddPreimage`, `AddRefund`, the access-list additions and object creation
(`CreateAccount`, the public wrapper of `createObject`). -/
inductive Op where
  | setBalance (a : Addr) (v : Int)
  | addBalance (a : Addr) (v : Int)
  | subBalance (a : Addr) (v : Int)
  | setNonce (a : Addr) (n : Nat)
  | setState (a : Addr) (k v : Hash)
  | setCode (a : Addr) (c : List Nat)
  | addLog (l : Log)
  | addPreimage (h : Hash) (p : List Nat)
  | addRefund (g : Nat)
  | addAddress (a : Addr)
  | addSlot (a : Addr) (sl : Hash)
  | createAccount (a : Addr)

/-- Dispatch of a mutating operation. -/
def applyOp (w : World) (s : CommitStateDB) : Op → CommitStateDB
  | .setBalance a v => SetBalance w s a v
  | .addBalance a v => AddBalance w s a v
  | .subBalance a v => SubBalance w s a v
  | .setNonce a n => SetNonce w s a n
  | .setState a k v => SetState w s a k v
  | .setCode a c => SetCode w s a c
  | .addLog l => AddLog s l
  | .addPreimage h p => AddPreimage s h p
  | .addRefund g => AddRefund s g
  | .addAddress a => AddAddressToAccessList s a
  | .addSlot a sl => AddSlotToAccessList s a sl
  | .createAccount a => CreateAccount w s a

/-- A sequence of mutating operations, applied left to right. -/
def applyOps (w : World) (ops : List Op) (s : CommitStateDB) : CommitStateDB :=
  ops.foldl (fun s2 op => applyOp w s2 op) s

/-- The public operations of the overlay (mutators, reads that may populate
the cache, lifecycle calls); `Option` is `none` exactly when the Go
operation panics. -/
inductive PublicOp where
  | mutate (op : Op)
  | suicide (a : Addr)
  | subRefund (g : Nat)
  | snapshot
  | revertToSnapshot (id : Int)
  | commit (deleteEmpty : Bool)
  | finalise (deleteEmpty : Bool)
  | reset
  | clearStateObjects
  | prepare (th bh : Hash) (txi : Int)
  | getBalance (a : Addr)
  | getNonce (a : Addr)
  | getStateOf (a : Addr) (k : Hash)
  | getCommittedStateOf (a : Addr) (k : Hash)
  | getCode (a : Addr)
  | getCodeHash (a : Addr)
  | getOrNew (a : Addr)
  | existQ (a : Addr)
  | emptyQ (a : Addr)
  | hasSuicidedQ (a : Addr)
  | setLogs (ls : List Log)
  | deleteLogs
  | addLogOp (l : Log)

/-- Dispatch of a public operation to the embedded implementation. -/
def applyPublicOp (w : World) (s : CommitStateDB) : PublicOp → Option (World × CommitStateDB)
  | .mutate op => some (w, applyOp w s op)
  | .suicide a => some (w, (Suicide w s a).2)
  | .subRefund g => (SubRefund s g).map (fun s2 => (w, s2))
  | .snapshot => some (w, (Snapshot s).2)
  | .revertToSnapshot id => (RevertToSnapshot w s id).map (fun s2 => (w, s2))
  | .commit b => some ((Commit w s b).2.2.1, (Commit w s b).2.2.2)
  | .finalise b => some ((Finalise w s b).2.1, (Finalise w s b).2.2)
  | .reset => some (Reset w s)
  | .clearStateObjects => some (w, ClearStateObjects s)
  | .prepare th bh txi => some (w, Prepare s th bh txi)
  | .getBalance a => some (w, (GetBalance w s a).2)
  | .getNonce a => some (w, (GetNonce w s a).2)
  | .getStateOf a k => some (w, (GetState w s a k).2)
  | .getCommittedStateOf a k => some (w, (GetCommittedState w s a k).2)
  | .getCode a => some (w, (GetCode w s a).2)
  | .getCodeHash a => some (w, (GetCodeHash w s a).2)
  | .getOrNew a => some (w, (GetOrNewStateObject w s a).2)
  | .existQ a => some (w, (Exist w s a).2)
  | .emptyQ a => some (w, (Empty w s a).2)
  | .hasSuicidedQ a => some (w, (HasSuicided w s a).2)
  | .setLogs ls => some (w, SetLogs s ls)
  | .deleteLogs => some (w, DeleteLogs s)
  | .addLogOp l => some (w, AddLog s l)

/-- The address-to-index map is consistent with the live slice: every mapped
pair points inside the slice at an entry carrying that address, and every
entry is mapped back to its own position (hence no address occupies two
entries). -/
structure WFIndex (s : CommitStateDB) : Prop where
  lookup : ∀ a i, s.addressToObjectIndex a = some i →
    i < s.stateObjects.length ∧ (getEntry s i).address = a
  mem : ∀ i, i < s.stateObjects.length →
    s.addressToObjectIndex (getEntry s i).address = some i

/-- Per-object dirty-storage consistency: the key map indexes exactly the
entries of the ordered dirty log. -/
structure WFObj (o : StateObj) : Prop where
  lookup : ∀ k i, o.keyToDirtyStorageIndex k = some i →
    i < o.dirtyStorage.length ∧ (o.dirtyStorage.getD i (0, 0)).1 = k
  mem : ∀ i, i < o.dirtyStorage.length →
    o.keyToDirtyStorageIndex (o.dirtyStorage.getD i (0, 0)).1 = some i

/-- Well-formedness of an overlay state relative to the external world,
bundling the invariants the implementation maintains between transactions:
index-map consistency, entry/account address agreement, no deleted cache
entries (deletion happens only inside finalise/commit, which clear or
rebuild the cache boundary), per-object storage-map consistency, preimage
index consistency, access-list index consistency (referenced slot sets
in range, non-empty, duplicate-free), keeper accounts keyed by their own
address, and a sorted, bounded revision stack. -/
structure WFState (w : World) (s : CommitStateDB) : Prop where
  idx : WFIndex s
  addrOk : ∀ i, i < s.stateObjects.length →
    (getEntry s i).so.account.addr = (getEntry s i).address
  noDel : ∀ i, i < s.stateObjects.length → (getEntry s i).so.deleted = false
  objOk : ∀ i, i < s.stateObjects.length → WFObj (getEntry s i).so
  preimLookup : ∀ h i, s.hashToPreimageIndex h = some i →
    i < s.preimages.length ∧ (s.preimages.getD i (0, [])).1 = h
  preimMem : ∀ i, i < s.preimages.length →
    s.hashToPreimageIndex ((s.preimages.getD i (0, [])).1) = some i
  access : ∀ a i, s.accessList.addresses a = some (some i) →
    i < s.accessList.slots.length ∧ s.accessList.slots.getD i [] ≠ []
  accessNodup : ∀ i, i < s.accessList.slots.length → (s.accessList.slots.getD i []).Nodup
  world : ∀ a acc, w.accounts a = some acc → acc.addr = a
  revSorted : (s.validRevisions.map Prod.fst).Pairwise (· < ·)
  revBounded : ∀ r, r ∈ s.validRevisions → r.1 < s.nextRevisionID
  revLen : ∀ r, r ∈ s.validRevisions → r.2 ≤ s.journal.entries.length

/-- The object that address `a` observably resolves to: the cached object
unless deleted, else the keeper's account wrapped as a fresh object. -/
def resolveVal (w : World) (s : CommitStateDB) (a : Addr) : Option StateObj :=
  match s.addressToObjectIndex a with
  | some i => if (getEntry s i).so.deleted then none else some (getEntry s i).so
  | none => (w.accounts a).map newStateObject

/-- Observable balance of an address (the value `GetBalance` returns). -/
def getBalanceVal (w : World) (s : CommitStateDB) (a : Addr) : Int :=
  match resolveVal w s a with
  | some o => o.balance (paramsVal w s).evmDenom
  | none => 0

/-- Observable nonce of an address (the value `GetNonce` returns). -/
def getNonceVal (w : World) (s : CommitStateDB) (a : Addr) : Nat :=
  match resolveVal w s a with
  | some o => o.account.seq
  | none => 0

/-- Observable storage value (the value `GetState` returns). -/
def getStateVal (w : World) (s : CommitStateDB) (a : Addr) (k : Hash) : Hash :=
  match resolveVal w s a with
  | some o => (o.getState w a k).1
  | none => 0

/-- Observable code of an address (the value `GetCode` returns). -/
def getCodeVal (w : World) (s : CommitStateDB) (a : Addr) : List Nat :=
  match resolveVal w s a with
  | some o => o.codeVal w
  | none => []

/-- Concrete parameter set used by the executable witnesses. -/
def exParams : Params := { evmDenom := "okt", enableCreate := true, enableCall := true }

/-- A concrete stand-in for Keccak-256 (any function works: the development
treats the hash as uninterpreted). -/
def exKeccak : List Nat → Hash := fun l => l.foldl (fun a b => a * 1000003 + b + 1) 7

/-- A concrete keeper account at address 0 holding 7 `okt` (decimal internal
units). -/
def acct0 : Account :=
  { addr := 0
    coins := fun e => if e = "okt" then 7 else 0
    seq := 0
    codeHash := exKeccak [] }

/-- A concrete external world: address 0 exists in the keeper, storage and
code stores are empty, nobody is blacklisted. -/
def exWorld : World :=
  { accounts := fun a => if a = 0 then some acct0 else none
    contractStorage := fun _ _ => 0
    codeStore := fun _ => []
    blacklist := fun _ => false
    storedParams := exParams
    keccak := exKeccak }

/-- A concrete log used by the executable witnesses. -/
def exLog : Log := { txHash := 1, blockHash := 2, txIndex := 3, index := 0, payload := 5 }

/-- A fresh overlay that already carries one emitted log. -/
def sWithLog : CommitStateDB := { newCommitStateDB with logs := [exLog] }

/-- A fresh overlay whose refund counter sits at the top of the `uint64`
range. -/
def sMaxRefund : CommitStateDB := { newCommitStateDB with refund := wordMod - 1 }

/-- A fresh overlay with a 100-gas refund. -/
def sRefund100 : CommitStateDB := { newCommitStateDB with refund := 100 }

/-- A fresh overlay caching the keeper account of address 0. -/
def sLive0 : CommitStateDB :=
  { newCommitStateDB with
    stateObjects := [{ address := 0, so := newStateObject acct0 }]
    addressToObjectIndex := fun a => if a = 0 then some 0 else none }

/-- A fresh overlay on which one snapshot (id 0) has been taken. -/
def sSnap : CommitStateDB := (Snapshot newCommitStateDB).2

/-- The fields of the overlay that a journal undo never touches: the journal
itself, the revision stack and counter, the per-transaction metadata, the
memoised error, the dirty set and the params cache. -/
def MetaEq (s2 s : CommitStateDB) : Prop :=
  s2.journal = s.journal ∧ s2.validRevisions = s.validRevisions ∧
  s2.nextRevisionID = s.nextRevisionID ∧ s2.thash = s.thash ∧ s2.bhash = s.bhash ∧
  s2.txIndex = s.txIndex ∧ s2.dbErr = s.dbErr ∧
  s2.stateObjectsDirty = s.stateObjectsDirty ∧ s2.params = s.params

/-- Address `a` is cached at position `i` of the live slice, the position is
in range, and the entry there holds object `o` (the shape `getStateObject`
leaves the overlay in whenever it returns an object). -/
structure Cached (s : CommitStateDB) (a : Addr) (i : Nat) (o : StateObj) : Prop where
  idx : s.addressToObjectIndex a = some i
  len : i < s.stateObjects.length
  entry : (getEntry s i).so = o

-- ===================================================================
-- THEOREMS
-- ===================================================================

/-- C4: `GetLogs` returns the overlay's current log sequence with a nil
error for every requested hash; in particular the result is identical for
any two hashes. -/
theorem c4_getLogs_hash_independent (s : CommitStateDB) (h1 h2 : Hash) :
    GetLogs s h1 = (s.logs, (none : Option ErrKind)) ∧ GetLogs s h1 = GetLogs s h2 :=
  ⟨rfl, rfl⟩

/-- C3 counterexample: the claim says `Reset` leaves the logs empty, but an
overlay holding one log still holds it after `Reset` (the source does not
touch `csdb.logs`, and the repository's own `TestStateDB_Logs` asserts the
logs survive `Reset`). -/
theorem c3_counterexample :
    ((Reset exWorld sWithLog).2).logs = [exLog] ∧ ([exLog] : List Log) ≠ [] := by
  refine ⟨rfl, by decide⟩

/-- C3 (amended: `Reset` clears the live set, address index, dirty set,
per-tx metadata, preimages, access list, params cache, journal, snapshot
stack and refund counter, and leaves the external account store untouched —
but it does NOT clear the logs, which survive the call). -/
theorem c3_reset_amended (w : World) (s : CommitStateDB) :
    (Reset w s).1 = w ∧
    (Reset w s).2.stateObjects = [] ∧
    (∀ a, (Reset w s).2.addressToObjectIndex a = none) ∧
    (∀ a, (Reset w s).2.stateObjectsDirty a = false) ∧
    (Reset w s).2.thash = 0 ∧
    (Reset w s).2.bhash = 0 ∧
    (Reset w s).2.txIndex = 0 ∧
    (Reset w s).2.logSize = 0 ∧
    (Reset w s).2.preimages = [] ∧
    (∀ h, (Reset w s).2.hashToPreimageIndex h = none) ∧
    (Reset w s).2.accessList = newAccessList ∧
    (Reset w s).2.params = none ∧
    (Reset w s).2.journal = newJournal ∧
    (Reset w s).2.validRevisions = [] ∧
    (Reset w s).2.refund = 0 ∧
    (Reset w s).2.logs = s.logs :=
  ⟨rfl, rfl, fun _ => rfl, fun _ => rfl, rfl, rfl, rfl, rfl, rfl, fun _ => rfl,
    rfl, rfl, rfl, rfl, rfl, rfl⟩

/-- C6 counterexample: the claim says `AddRefund(g)` sets the counter to
`r + g` for every `r`, but Go `uint64` addition wraps: with the counter at
`2^64 - 1`, adding 1 yields 0, not `2^64`. -/
theorem c6_counterexample :
    (AddRefund sMaxRefund 1).refund = 0 ∧ sMaxRefund.refund + 1 ≠ 0 := by
  constructor
  · show (sMaxRefund.refund + 1) % wordMod = 0
    decide
  · decide

/-- C6 (amended: `AddRefund(g)` sets the counter to `(r + g) mod 2^64` —
equal to `r + g` whenever the sum fits in 64 bits; `SubRefund(g)` panics iff
`g > r` and otherwise sets the counter to `r - g`, never silently wrapping
below zero). -/
theorem c6_refund_amended (s : CommitStateDB) (g : Nat) :
    (AddRefund s g).refund = (s.refund + g) % wordMod ∧
    (SubRefund s g = none ↔ s.refund < g) ∧
    (g ≤ s.refund →
      ∃ s2, SubRefund s g = some s2 ∧ s2.refund = s.refund - g ∧
        s2.journal.entries = s.journal.entries ++ [.refundChange s.refund]) := by
  refine ⟨rfl, ?_, ?_⟩
  · unfold SubRefund
    split
    · simpa using by omega
    · simp only [reduceCtorEq, false_iff]
      omega
  · intro hle
    unfold SubRefund
    split
    · omega
    · exact ⟨_, rfl, rfl, rfl⟩

/-- Witness for C6: with the counter at 100, `AddRefund 1` yields 101,
`SubRefund 200` panics and `SubRefund 50` succeeds leaving 50. -/
theorem c6_refund_amended_witness :
    (50 ≤ sRefund100.refund) ∧
    (∃ s2, SubRefund sRefund100 50 = some s2 ∧ s2.refund = sRefund100.refund - 50 ∧
      s2.journal.entries = sRefund100.journal.entries ++ [.refundChange sRefund100.refund]) :=
  ⟨by decide, (c6_refund_amended sRefund100 50).2.2 (by decide)⟩

theorem GetParams_snd (w : World) (s : CommitStateDB) :
    (GetParams w s).2 = { s with params := some (paramsVal w s) } := by
  unfold GetParams paramsVal
  cases hs : s.params with
  | none => rfl
  | some p =>
      show s = { s with params := some p }
      rw [← hs]

/-- C9: resolving an address that is neither live nor in the keeper returns
absent and memoises a `no account found` error; subsequent reads return the
zero/empty defaults; `Error()` surfaces the first memoised error, and a
previously memoised error is never overwritten. -/
theorem c9_missing_account (w : World) (s : CommitStateDB) (a : Addr)
    (hidx : s.addressToObjectIndex a = none) (hacc : w.accounts a = none) :
    (getStateObject w s a).1 = none ∧
    (s.dbErr = none → (getStateObject w s a).2.dbErr = some (.noAccount a)) ∧
    (∀ e, s.dbErr = some e → (getStateObject w s a).2.dbErr = some e) ∧
    (GetBalance w (getStateObject w s a).2 a).1 = 0 ∧
    (GetNonce w (getStateObject w s a).2 a).1 = 0 ∧
    (∀ k, (GetState w (getStateObject w s a).2 a k).1 = 0) ∧
    (GetCode w (getStateObject w s a).2 a).1 = [] ∧
    ErrorOf (getStateObject w s a).2 = (getStateObject w s a).2.dbErr := by
  have hs : getStateObject w s a = (none, setError s (.noAccount a)) := by
    unfold getStateObject
    rw [hidx, hacc]
  have hfields : (setError s (.noAccount a)).addressToObjectIndex = s.addressToObjectIndex := by
    unfold setError
    cases s.dbErr <;> rfl
  have hread : getStateObject w (setError s (.noAccount a)) a =
      (none, setError (setError s (.noAccount a)) (.noAccount a)) := by
    unfold getStateObject
    rw [hfields, hidx, hacc]
  refine ⟨by rw [hs], ?_, ?_, ?_, ?_, ?_, ?_, rfl⟩
  · intro h0
    rw [hs]
    unfold setError
    rw [h0]
  · intro e he
    rw [hs]
    show (setError s (.noAccount a)).dbErr = some e
    unfold setError
    rw [he]
    exact he
  · rw [hs]
    show (GetBalance w (setError s (.noAccount a)) a).1 = 0
    unfold GetBalance
    rw [hread]
  · rw [hs]
    show (GetNonce w (setError s (.noAccount a)) a).1 = 0
    unfold GetNonce
    rw [hread]
  · intro k
    rw [hs]
    show (GetState w (setError s (.noAccount a)) a k).1 = 0
    unfold GetState
    rw [hread]
  · rw [hs]
    show (GetCode w (setError s (.noAccount a)) a).1 = []
    unfold GetCode
    rw [hread]

/-- Witness for C9 at a concrete missing address. -/
theorem c9_missing_account_witness :
    (newCommitStateDB.addressToObjectIndex 5 = none ∧ exWorld.accounts 5 = none) ∧
    ((getStateObject exWorld newCommitStateDB 5).1 = none ∧
      (newCommitStateDB.dbErr = none →
        (getStateObject exWorld newCommitStateDB 5).2.dbErr = some (.noAccount 5)) ∧
      (∀ e, newCommitStateDB.dbErr = some e →
        (getStateObject exWorld newCommitStateDB 5).2.dbErr = some e) ∧
      (GetBalance exWorld (getStateObject exWorld newCommitStateDB 5).2 5).1 = 0 ∧
      (GetNonce exWorld (getStateObject exWorld newCommitStateDB 5).2 5).1 = 0 ∧
      (∀ k, (GetState exWorld (getStateObject exWorld newCommitStateDB 5).2 5 k).1 = 0) ∧
      (GetCode exWorld (getStateObject exWorld newCommitStateDB 5).2 5).1 = [] ∧
      ErrorOf (getStateObject exWorld newCommitStateDB 5).2 =
        (getStateObject exWorld newCommitStateDB 5).2.dbErr) :=
  ⟨⟨rfl, rfl⟩, c9_missing_account exWorld newCommitStateDB 5 rfl rfl⟩

theorem acct_lookup_update (f : Addr → Option Account) (a : Addr) (acc : Account) :
    (fun b => if b = a then some acc else f b) a = some acc := by simp

/-- C2: a successful `updateStateObject` on the object at position `i` with
balance `B ≥ 0` stores an account whose `evm_denom` coin amount is exactly
`B` (decimal value `B · 10^-P`): the overlay balance overwrites whatever the
keeper previously stored and is not accumulated onto it. -/
theorem c2_updateStateObject_balance (w : World) (s : CommitStateDB) (i : Nat)
    (_hbal : 0 ≤ (getEntry s i).so.balance (paramsVal w s).evmDenom)
    (hok : (updateStateObjectAt w s i).1 = none) :
    ∃ acc2,
      (updateStateObjectAt w s i).2.1.accounts (getEntry s i).so.account.addr = some acc2 ∧
      acc2.coins (paramsVal w s).evmDenom =
        (getEntry s i).so.balance (paramsVal w s).evmDenom := by
  have hg : getEntry (GetParams w s).2 i = getEntry s i := by
    rw [GetParams_snd]
    rfl
  have hd : ((GetParams w s).1) = paramsVal w s := by
    unfold GetParams paramsVal
    cases s.params <;> rfl
  simp only [updateStateObjectAt, hg, hd, StateObj.balance] at hok ⊢
  split_ifs at hok ⊢ with h1 h2 h3
  · refine ⟨_, acct_lookup_update _ _ _, ?_⟩
    simp [h3.resolve_right (fun h => h rfl)]
  · exact ⟨_, acct_lookup_update _ _ _, rfl⟩

/-- Witness for C2: committing the cached account of address 0 (balance 7)
stores exactly 7 `okt`. -/
theorem c2_updateStateObject_balance_witness :
    (0 ≤ (getEntry sLive0 0).so.balance (paramsVal exWorld sLive0).evmDenom ∧
      (updateStateObjectAt exWorld sLive0 0).1 = none) ∧
    (∃ acc2,
        (updateStateObjectAt exWorld sLive0 0).2.1.accounts
            (getEntry sLive0 0).so.account.addr = some acc2 ∧
        acc2.coins (paramsVal exWorld sLive0).evmDenom =
          (getEntry sLive0 0).so.balance (paramsVal exWorld sLive0).evmDenom) :=
  ⟨⟨by decide, by decide⟩,
    c2_updateStateObject_balance exWorld sLive0 0 (by decide) (by decide)⟩

theorem searchAux_spec : ∀ (n : Nat) (f : Nat → Bool) (i j : Nat), j - i ≤ n → i ≤ j →
    (∀ x y, x ≤ y → y < j → f x = true → f y = true) →
    i ≤ searchAux f i j ∧ searchAux f i j ≤ j ∧
      (∀ x, i ≤ x → x < searchAux f i j → f x = false) ∧
      (searchAux f i j < j → f (searchAux f i j) = true) := by
  intro n
  induction n with
  | zero =>
      intro f i j hn hij _
      have hji : ¬ i < j := by omega
      rw [searchAux, dif_neg hji]
      exact ⟨le_refl i, hij, fun x hx1 hx2 => absurd (lt_of_le_of_lt hx1 hx2) (lt_irrefl i),
        fun h => absurd h hji⟩
  | succ n ih =>
      intro f i j hn hij hmono
      by_cases hji : i < j
      · rw [searchAux, dif_pos hji]
        by_cases hfm : f ((i + j) / 2) = true
        · rw [if_pos hfm]
          have hm1 : i ≤ (i + j) / 2 := by omega
          have hm2 : (i + j) / 2 < j := by omega
          have hr := ih f i ((i + j) / 2) (by omega) hm1
            (fun x y hxy hy hfx => hmono x y hxy (lt_trans hy hm2) hfx)
          refine ⟨hr.1, le_trans hr.2.1 (le_of_lt hm2), hr.2.2.1, ?_⟩
          intro _
          rcases Nat.lt_or_ge (searchAux f i ((i + j) / 2)) ((i + j) / 2) with h | h
          · exact hr.2.2.2 h
          · have : searchAux f i ((i + j) / 2) = (i + j) / 2 := le_antisymm hr.2.1 h
            rw [this]
            exact hfm
        · rw [if_neg hfm]
          have hm2 : (i + j) / 2 < j := by omega
          have hr := ih f ((i + j) / 2 + 1) j (by omega) (by omega) hmono
          refine ⟨by omega, hr.2.1, ?_, hr.2.2.2⟩
          intro x hx1 hx2
          rcases Nat.lt_or_ge x ((i + j) / 2 + 1) with h | h
          · rcases Bool.eq_false_or_eq_true (f x) with hb | hb
            · exact absurd (hmono x ((i + j) / 2) (by omega) hm2 hb)
                (by simp [hfm])
            · exact hb
          · exact hr.2.2.1 x h hx2
      · rw [searchAux, dif_neg hji]
        exact ⟨le_refl i, hij, fun x hx1 hx2 => absurd (lt_of_le_of_lt hx1 hx2) (lt_irrefl i),
          fun h => absurd h hji⟩

theorem sortSearch_spec (n : Nat) (f : Nat → Bool)
    (hmono : ∀ x y, x ≤ y → y < n → f x = true → f y = true) :
    sortSearch n f ≤ n ∧ (∀ x, x < sortSearch n f → f x = false) ∧
      (sortSearch n f < n → f (sortSearch n f) = true) := by
  have h := searchAux_spec n f 0 n (by omega) (by omega) hmono
  exact ⟨h.2.1, fun x hx => h.2.2.1 x (Nat.zero_le x) hx, h.2.2.2⟩

theorem updateObjAt_meta (s : CommitStateDB) (a : Addr) (f : StateObj → StateObj) :
    (updateObjAt s a f).journal = s.journal ∧
    (updateObjAt s a f).validRevisions = s.validRevisions ∧
    (updateObjAt s a f).nextRevisionID = s.nextRevisionID ∧
    (updateObjAt s a f).refund = s.refund ∧
    (updateObjAt s a f).logs = s.logs ∧
    (updateObjAt s a f).logSize = s.logSize ∧
    (updateObjAt s a f).preimages = s.preimages ∧
    (updateObjAt s a f).hashToPreimageIndex = s.hashToPreimageIndex ∧
    (updateObjAt s a f).accessList = s.accessList ∧
    (updateObjAt s a f).dbErr = s.dbErr ∧
    (updateObjAt s a f).stateObjectsDirty = s.stateObjectsDirty ∧
    (updateObjAt s a f).params = s.params ∧
    (updateObjAt s a f).thash = s.thash ∧
    (updateObjAt s a f).bhash = s.bhash ∧
    (updateObjAt s a f).txIndex = s.txIndex ∧
    (updateObjAt s a f).addressToObjectIndex = s.addressToObjectIndex ∧
    (updateObjAt s a f).stateObjects.length = s.stateObjects.length := by
  unfold updateObjAt
  cases s.addressToObjectIndex a <;> simp

theorem setStateObject_meta (s : CommitStateDB) (so : StateObj) :
    (setStateObject s so).journal = s.journal ∧
    (setStateObject s so).validRevisions = s.validRevisions ∧
    (setStateObject s so).nextRevisionID = s.nextRevisionID ∧
    (setStateObject s so).refund = s.refund ∧
    (setStateObject s so).logs = s.logs ∧
    (setStateObject s so).logSize = s.logSize ∧
    (setStateObject s so).preimages = s.preimages ∧
    (setStateObject s so).hashToPreimageIndex = s.hashToPreimageIndex ∧
    (setStateObject s so).accessList = s.accessList ∧
    (setStateObject s so).dbErr = s.dbErr ∧
    (setStateObject s so).stateObjectsDirty = s.stateObjectsDirty ∧
    (setStateObject s so).params = s.params := by
  unfold setStateObject
  cases s.addressToObjectIndex so.account.addr <;> simp

theorem removeEntryFor_meta (s : CommitStateDB) (a : Addr) :
    (removeEntryFor s a).journal = s.journal ∧
    (removeEntryFor s a).validRevisions = s.validRevisions ∧
    (removeEntryFor s a).nextRevisionID = s.nextRevisionID ∧
    (removeEntryFor s a).refund = s.refund ∧
    (removeEntryFor s a).logs = s.logs ∧
    (removeEntryFor s a).logSize = s.logSize ∧
    (removeEntryFor s a).preimages = s.preimages ∧
    (removeEntryFor s a).hashToPreimageIndex = s.hashToPreimageIndex ∧
    (removeEntryFor s a).accessList = s.accessList ∧
    (removeEntryFor s a).dbErr = s.dbErr ∧
    (removeEntryFor s a).stateObjectsDirty = s.stateObjectsDirty ∧
    (removeEntryFor s a).params = s.params := by
  unfold removeEntryFor
  cases s.addressToObjectIndex a <;> simp

theorem MetaEq_refl (s : CommitStateDB) : MetaEq s s :=
  ⟨rfl, rfl, rfl, rfl, rfl, rfl, rfl, rfl, rfl⟩

theorem MetaEq_trans (s3 s2 s : CommitStateDB) (h23 : MetaEq s3 s2) (h12 : MetaEq s2 s) :
    MetaEq s3 s :=
  ⟨h23.1.trans h12.1, h23.2.1.trans h12.2.1, h23.2.2.1.trans h12.2.2.1,
    h23.2.2.2.1.trans h12.2.2.2.1, h23.2.2.2.2.1.trans h12.2.2.2.2.1,
    h23.2.2.2.2.2.1.trans h12.2.2.2.2.2.1, h23.2.2.2.2.2.2.1.trans h12.2.2.2.2.2.2.1,
    h23.2.2.2.2.2.2.2.1.trans h12.2.2.2.2.2.2.2.1,
    h23.2.2.2.2.2.2.2.2.trans h12.2.2.2.2.2.2.2.2⟩

theorem MetaEq_updateObjAt (s : CommitStateDB) (a : Addr) (f : StateObj → StateObj) :
    MetaEq (updateObjAt s a f) s := by
  unfold updateObjAt
  cases s.addressToObjectIndex a
  · exact MetaEq_refl s
  · exact ⟨rfl, rfl, rfl, rfl, rfl, rfl, rfl, rfl, rfl⟩

theorem MetaEq_setStateObject (s : CommitStateDB) (so : StateObj) :
    MetaEq (setStateObject s so) s := by
  unfold setStateObject
  cases s.addressToObjectIndex so.account.addr
  · exact ⟨rfl, rfl, rfl, rfl, rfl, rfl, rfl, rfl, rfl⟩
  · exact ⟨rfl, rfl, rfl, rfl, rfl, rfl, rfl, rfl, rfl⟩

theorem MetaEq_removeEntryFor (s : CommitStateDB) (a : Addr) :
    MetaEq (removeEntryFor s a) s := by
  unfold removeEntryFor
  cases s.addressToObjectIndex a
  · exact MetaEq_refl s
  · exact ⟨rfl, rfl, rfl, rfl, rfl, rfl, rfl, rfl, rfl⟩

/-- The undo of a single journal entry never touches the journal itself,
the revision stack, the revision counter, the per-tx metadata, the memoised
error, the dirty set or the params cache. -/
theorem undoEntry_meta (w : World) (e : JEntry) (s : CommitStateDB) :
    MetaEq (undoEntry w e s) s := by
  cases e with
  | createObjectChange a =>
      simp only [undoEntry]
      exact MetaEq_removeEntryFor s a
  | resetObjectChange prev =>
      simp only [undoEntry]
      exact MetaEq_setStateObject s prev
  | suicideChange a pf pb =>
      simp only [undoEntry]
      exact MetaEq_updateObjAt s a _
  | balanceChange a p =>
      simp only [undoEntry]
      exact MetaEq_updateObjAt s a _
  | nonceChange a p =>
      simp only [undoEntry]
      exact MetaEq_updateObjAt s a _
  | storageChange a k prevD =>
      simp only [undoEntry]
      exact MetaEq_updateObjAt s a _
  | codeChange a pc ph pd =>
      simp only [undoEntry]
      exact MetaEq_updateObjAt s a _
  | refundChange p =>
      simp only [undoEntry]
      exact ⟨rfl, rfl, rfl, rfl, rfl, rfl, rfl, rfl, rfl⟩
  | addLogChange h =>
      simp only [undoEntry]
      exact ⟨rfl, rfl, rfl, rfl, rfl, rfl, rfl, rfl, rfl⟩
  | addPreimageChange h =>
      simp only [undoEntry]
      cases s.hashToPreimageIndex h
      · exact MetaEq_refl s
      · exact ⟨rfl, rfl, rfl, rfl, rfl, rfl, rfl, rfl, rfl⟩
  | touchChange a =>
      simp only [undoEntry]
      exact MetaEq_refl s
  | accessListAddAccountChange a =>
      simp only [undoEntry]
      exact ⟨rfl, rfl, rfl, rfl, rfl, rfl, rfl, rfl, rfl⟩
  | accessListAddSlotChange a sl =>
      simp only [undoEntry]
      cases s.accessList.addresses a with
      | none => exact MetaEq_refl s
      | some o =>
          cases o with
          | none => exact MetaEq_refl s
          | some i =>
              dsimp only
              split
              · exact ⟨rfl, rfl, rfl, rfl, rfl, rfl, rfl, rfl, rfl⟩
              · exact ⟨rfl, rfl, rfl, rfl, rfl, rfl, rfl, rfl, rfl⟩

/-- `undoSeq` never touches the journal, revision stack, revision counter,
per-tx metadata, memoised error, dirty set or params cache. -/
theorem undoSeq_meta (w : World) (es : List JEntry) (s : CommitStateDB) :
    MetaEq (undoSeq w es s) s := by
  induction es with
  | nil => exact MetaEq_refl s
  | cons e rest ih => exact MetaEq_trans _ _ _ (undoEntry_meta w e (undoSeq w rest s)) ih

theorem journalRevert_entries (w : World) (s : CommitStateDB) (t : Nat) :
    (journalRevert w s t).journal.entries = s.journal.entries.take t ∧
    (journalRevert w s t).journal.dirties = s.journal.dirties ∧
    (journalRevert w s t).validRevisions = s.validRevisions := by
  unfold journalRevert
  have h := undoSeq_meta w (s.journal.entries.drop t)
    { s with journal := { s.journal with entries := s.journal.entries.take t } }
  exact ⟨by rw [h.1], by rw [h.1], h.2.1⟩

/-- C7: `RevertToSnapshot(id)` panics exactly when `id` is not on the valid
revision stack (given the stack invariants: strictly increasing ids and
recorded journal lengths within bounds); when `id` sits at position `k`, the
call succeeds, truncates the journal to the recorded length and truncates
the revision stack to just before position `k`. -/
theorem c7_revertToSnapshot (w : World) (s : CommitStateDB) (revID : Int)
    (hsorted : (s.validRevisions.map Prod.fst).Pairwise (· < ·)) :
    (RevertToSnapshot w s revID = none ↔ revID ∉ s.validRevisions.map Prod.fst) ∧
    (∀ k, k < s.validRevisions.length → (s.validRevisions.getD k (0, 0)).1 = revID →
      ∃ s2, RevertToSnapshot w s revID = some s2 ∧
        s2.journal.entries = s.journal.entries.take ((s.validRevisions.getD k (0, 0)).2) ∧
        s2.journal.dirties = s.journal.dirties ∧
        s2.validRevisions = s.validRevisions.take k) := by
  set n := s.validRevisions.length with hn
  set f : Nat → Bool := fun i => decide ((s.validRevisions.getD i (0, 0)).1 ≥ revID) with hf
  set r := sortSearch n f with hr
  have hRT : RevertToSnapshot w s revID =
      (if r = n ∨ (s.validRevisions.getD r (0, 0)).1 ≠ revID then none
       else some { (journalRevert w s ((s.validRevisions.getD r (0, 0)).2)) with
           validRevisions := s.validRevisions.take r }) := rfl
  have hgetlt : ∀ x y, x < y → y < n →
      (s.validRevisions.getD x (0, 0)).1 < (s.validRevisions.getD y (0, 0)).1 := by
    intro x y hxy hy
    have hx : x < s.validRevisions.length := lt_trans hxy hy
    have hy2 : y < s.validRevisions.length := hy
    have hpg := List.pairwise_iff_getElem.mp hsorted x y (by simpa using hx)
      (by simpa using hy2) hxy
    rw [List.getElem_map, List.getElem_map] at hpg
    rw [List.getD_eq_getElem _ _ hx, List.getD_eq_getElem _ _ hy2]
    exact hpg
  have hmono : ∀ x y, x ≤ y → y < n → f x = true → f y = true := by
    intro x y hxy hy hfx
    have hfx2 : (s.validRevisions.getD x (0, 0)).1 ≥ revID := of_decide_eq_true hfx
    refine decide_eq_true ?_
    rcases Nat.lt_or_ge x y with h | h
    · have hlt := hgetlt x y h hy
      omega
    · have hxy2 : x = y := by omega
      rw [← hxy2]
      exact hfx2
  have hspec := sortSearch_spec n f hmono
  have hrek : ∀ k, k < n → (s.validRevisions.getD k (0, 0)).1 = revID → r = k := by
    intro k hk hkd
    have hfk : f k = true := decide_eq_true (ge_of_eq hkd)
    have hrk : r ≤ k := by
      by_contra hgt
      have hfalse := hspec.2.1 k (by omega)
      rw [hfk] at hfalse
      exact absurd hfalse (by simp)
    have hkr : ¬ r < k := by
      intro hlt
      have hfr := hspec.2.2 (by omega : r < n)
      have hfr2 : (s.validRevisions.getD r (0, 0)).1 ≥ revID := of_decide_eq_true hfr
      have := hgetlt r k hlt hk
      omega
    omega
  constructor
  · constructor
    · intro hnone hmem
      obtain ⟨k, hk0, hkeq⟩ := List.mem_iff_getElem.mp hmem
      have hk : k < s.validRevisions.length := by simpa using hk0
      have hkd : (s.validRevisions.getD k (0, 0)).1 = revID := by
        rw [List.getD_eq_getElem _ _ hk]
        rw [List.getElem_map] at hkeq
        exact hkeq
      have hre := hrek k hk hkd
      rw [hRT, if_neg (by
        push_neg
        exact ⟨by omega, by rw [hre]; exact hkd⟩)] at hnone
      exact Option.noConfusion hnone
    · intro hnotmem
      rw [hRT]
      by_cases hrn : r = n
      · rw [if_pos (Or.inl hrn)]
      · have hne : (s.validRevisions.getD r (0, 0)).1 ≠ revID := by
          intro heq
          refine hnotmem ?_
          have hrlt : r < n := lt_of_le_of_ne hspec.1 hrn
          have hrl : r < s.validRevisions.length := hrlt
          refine List.mem_map.mpr ⟨s.validRevisions[r], List.getElem_mem hrl, ?_⟩
          rw [List.getD_eq_getElem _ _ hrl] at heq
          exact heq
        rw [if_pos (Or.inr hne)]
  · intro k hk hkd
    have hre := hrek k hk hkd
    rw [hRT, if_neg (by
      push_neg
      exact ⟨by omega, by rw [hre]; exact hkd⟩)]
    rw [hre]
    have hj := journalRevert_entries w s ((s.validRevisions.getD k (0, 0)).2)
    exact ⟨_, rfl, hj.1, hj.2.1, rfl⟩

/-- Witness for C7 on an overlay with one snapshot (id 0). -/
theorem c7_revertToSnapshot_witness :
    ((sSnap.validRevisions.map Prod.fst).Pairwise (· < ·)) ∧
    ((RevertToSnapshot exWorld sSnap 0 = none ↔ 0 ∉ sSnap.validRevisions.map Prod.fst) ∧
      (∀ k, k < sSnap.validRevisions.length → (sSnap.validRevisions.getD k (0, 0)).1 = 0 →
        ∃ s2, RevertToSnapshot exWorld sSnap 0 = some s2 ∧
          s2.journal.entries = sSnap.journal.entries.take ((sSnap.validRevisions.getD k (0, 0)).2) ∧
          s2.journal.dirties = sSnap.journal.dirties ∧
          s2.validRevisions = sSnap.validRevisions.take k)) :=
  ⟨by decide, c7_revertToSnapshot exWorld sSnap 0 (by decide)⟩

theorem listGetD_set_self {α : Type} (l : List α) (i : Nat) (x d : α) (h : i < l.length) :
    (l.set i x).getD i d = x := by
  simp [List.getD_eq_getElem?_getD, List.getElem?_set_self', List.getElem?_eq_getElem h]

theorem listGetD_set_ne {α : Type} (l : List α) (i j : Nat) (x d : α) (h : i ≠ j) :
    (l.set i x).getD j d = l.getD j d := by
  simp [List.getD_eq_getElem?_getD, List.getElem?_set_ne h]

theorem listGetD_append_left {α : Type} (l m : List α) (i : Nat) (d : α) (h : i < l.length) :
    (l ++ m).getD i d = l.getD i d := by
  simp [List.getD_eq_getElem?_getD, List.getElem?_append_left h]

theorem listGetD_concat_len {α : Type} (l : List α) (x d : α) :
    (l ++ [x]).getD l.length d = x := by
  simp [List.getD_eq_getElem?_getD, List.getElem?_concat_length]

theorem listGetD_eraseIdx_lt {α : Type} (l : List α) (i j : Nat) (d : α) (h : j < i) :
    (l.eraseIdx i).getD j d = l.getD j d := by
  simp [List.getD_eq_getElem?_getD, List.getElem?_eraseIdx_of_lt l i j h]

theorem listGetD_eraseIdx_ge {α : Type} (l : List α) (i j : Nat) (d : α) (h : i ≤ j) :
    (l.eraseIdx i).getD j d = l.getD (j + 1) d := by
  simp [List.getD_eq_getElem?_getD, List.getElem?_eraseIdx_of_ge l i j h]

theorem WFIndex_congr (s s2 : CommitStateDB) (h1 : s2.stateObjects = s.stateObjects)
    (h2 : s2.addressToObjectIndex = s.addressToObjectIndex) (hw : WFIndex s) : WFIndex s2 := by
  constructor
  · intro a i hi
    rw [h2] at hi
    have := hw.lookup a i hi
    constructor
    · rw [h1]
      exact this.1
    · show (getEntry s2 i).address = a
      unfold getEntry
      rw [h1]
      exact this.2
  · intro i hi
    rw [h1] at hi
    have := hw.mem i hi
    rw [h2]
    show s.addressToObjectIndex (getEntry s2 i).address = some i
    unfold getEntry
    rw [h1]
    exact this

theorem WFIndex_carry (s : CommitStateDB) (hw : WFIndex s) (s2 : CommitStateDB)
    (h1 : s2.stateObjects = s.stateObjects)
    (h2 : s2.addressToObjectIndex = s.addressToObjectIndex) : WFIndex s2 :=
  WFIndex_congr s s2 h1 h2 hw

theorem WFIndex_set (s : CommitStateDB) (i : Nat) (x : StateEntry)
    (haddr : x.address = (getEntry s i).address) (hw : WFIndex s) :
    WFIndex { s with stateObjects := s.stateObjects.set i x } := by
  constructor
  · intro a j hj
    have h := hw.lookup a j hj
    refine ⟨by simpa using h.1, ?_⟩
    show ((s.stateObjects.set i x).getD j dummyEntry).address = a
    by_cases hij : i = j
    · subst hij
      rw [listGetD_set_self _ _ _ _ h.1, haddr]
      exact h.2
    · rw [listGetD_set_ne _ _ _ _ _ hij]
      exact h.2
  · intro j hj
    rw [List.length_set] at hj
    have hmem := hw.mem j hj
    show s.addressToObjectIndex ((s.stateObjects.set i x).getD j dummyEntry).address = some j
    by_cases hij : i = j
    · subst hij
      rw [listGetD_set_self _ _ _ _ hj, haddr]
      exact hmem
    · rw [listGetD_set_ne _ _ _ _ _ hij]
      exact hmem

theorem WFIndex_updateObjAt (s : CommitStateDB) (a : Addr) (f : StateObj → StateObj)
    (hw : WFIndex s) : WFIndex (updateObjAt s a f) := by
  unfold updateObjAt
  cases s.addressToObjectIndex a with
  | none => exact hw
  | some i => exact WFIndex_set s i _ rfl hw

theorem WFIndex_setStateObject (s : CommitStateDB) (so : StateObj) (hw : WFIndex s) :
    WFIndex (setStateObject s so) := by
  unfold setStateObject
  cases hidx : s.addressToObjectIndex so.account.addr with
  | some i => exact WFIndex_set s i _ rfl hw
  | none =>
      constructor
      · intro a j hj
        have hj2 : (if a = so.account.addr then some s.stateObjects.length
            else s.addressToObjectIndex a) = some j := hj
        by_cases hab : a = so.account.addr
        · rw [if_pos hab] at hj2
          cases hj2
          refine ⟨by simp, ?_⟩
          show ((s.stateObjects ++ [({ address := so.account.addr, so := so } : StateEntry)]).getD
            s.stateObjects.length dummyEntry).address = a
          rw [listGetD_concat_len]
          exact hab.symm
        · rw [if_neg hab] at hj2
          have h := hw.lookup a j hj2
          refine ⟨by simp; omega, ?_⟩
          show ((s.stateObjects ++ [({ address := so.account.addr, so := so } : StateEntry)]).getD j
            dummyEntry).address = a
          rw [listGetD_append_left _ _ _ _ h.1]
          exact h.2
      · intro j hj
        have hjlen : j < s.stateObjects.length + 1 := by
          simpa using hj
        show (if ((s.stateObjects ++ [({ address := so.account.addr, so := so } : StateEntry)]).getD j
            dummyEntry).address = so.account.addr then some s.stateObjects.length
          else s.addressToObjectIndex ((s.stateObjects ++
            [({ address := so.account.addr, so := so } : StateEntry)]).getD j dummyEntry).address) = some j
        rcases Nat.lt_or_ge j s.stateObjects.length with hlt | hge
        · rw [listGetD_append_left _ _ _ _ hlt]
          have hmem : s.addressToObjectIndex (s.stateObjects.getD j dummyEntry).address = some j :=
            hw.mem j hlt
          rw [if_neg ?hne]
          · exact hmem
          case hne =>
            intro habs
            rw [habs] at hmem
            rw [hidx] at hmem
            exact Option.noConfusion hmem
        · have hj2 : j = s.stateObjects.length := by omega
          subst hj2
          rw [listGetD_concat_len]
          rw [if_pos rfl]

theorem WFIndex_removeEntryFor (s : CommitStateDB) (a : Addr) (hw : WFIndex s) :
    WFIndex (removeEntryFor s a) := by
  unfold removeEntryFor
  cases hidx : s.addressToObjectIndex a with
  | none => exact hw
  | some i =>
      have hi := hw.lookup a i hidx
      have hi2 : (s.stateObjects.getD i dummyEntry).address = a := hi.2
      have hlen : (s.stateObjects.eraseIdx i).length = s.stateObjects.length - 1 :=
        List.length_eraseIdx_of_lt hi.1
      constructor
      · intro b j hj
        have hj2 : (if b = a then none
            else (s.addressToObjectIndex b).map fun k => if i < k then k - 1 else k) = some j := hj
        by_cases hba : b = a
        · rw [if_pos hba] at hj2
          exact Option.noConfusion hj2
        · rw [if_neg hba] at hj2
          rcases hb : s.addressToObjectIndex b with _ | jb
          · rw [hb] at hj2
            exact Option.noConfusion hj2
          · rw [hb] at hj2
            simp only [Option.map_some'] at hj2
            cases hj2
            have hjb := hw.lookup b jb hb
            have hjb2 : (s.stateObjects.getD jb dummyEntry).address = b := hjb.2
            have hjbne : jb ≠ i := by
              intro habs
              refine hba ?_
              rw [← hjb2, habs, hi2]
            rcases Nat.lt_or_ge jb i with hlt | hge
            · rw [if_neg (by omega)]
              refine ⟨?_, ?_⟩
              · show jb < (s.stateObjects.eraseIdx i).length
                rw [hlen]
                have hjb1 := hjb.1
                omega
              show ((s.stateObjects.eraseIdx i).getD jb dummyEntry).address = b
              rw [listGetD_eraseIdx_lt _ _ _ _ hlt]
              exact hjb2
            · have hgt : i < jb := by omega
              rw [if_pos hgt]
              refine ⟨?_, ?_⟩
              · show jb - 1 < (s.stateObjects.eraseIdx i).length
                rw [hlen]
                have hjb1 := hjb.1
                omega
              show ((s.stateObjects.eraseIdx i).getD (jb - 1) dummyEntry).address = b
              rw [listGetD_eraseIdx_ge _ _ _ _ (by omega)]
              have hsucc : jb - 1 + 1 = jb := by omega
              rw [hsucc]
              exact hjb2
      · intro j hj
        rw [hlen] at hj
        rcases Nat.lt_or_ge j i with hlt | hge
        · have hjl : j < s.stateObjects.length := by omega
          have hmem : s.addressToObjectIndex (s.stateObjects.getD j dummyEntry).address = some j :=
            hw.mem j hjl
          show (if ((s.stateObjects.eraseIdx i).getD j dummyEntry).address = a then none
            else (s.addressToObjectIndex ((s.stateObjects.eraseIdx i).getD j
              dummyEntry).address).map fun k => if i < k then k - 1 else k) = some j
          rw [listGetD_eraseIdx_lt _ _ _ _ hlt]
          rw [if_neg ?hne2]
          · rw [hmem]
            simp only [Option.map_some']
            rw [if_neg (by omega)]
          case hne2 =>
            intro habs
            rw [habs] at hmem
            rw [hidx] at hmem
            cases hmem
            omega
        · have hjl : j + 1 < s.stateObjects.length := by omega
          have hmem : s.addressToObjectIndex (s.stateObjects.getD (j + 1) dummyEntry).address =
              some (j + 1) := hw.mem (j + 1) hjl
          show (if ((s.stateObjects.eraseIdx i).getD j dummyEntry).address = a then none
            else (s.addressToObjectIndex ((s.stateObjects.eraseIdx i).getD j
              dummyEntry).address).map fun k => if i < k then k - 1 else k) = some j
          rw [listGetD_eraseIdx_ge _ _ _ _ hge]
          rw [if_neg ?hne3]
          · rw [hmem]
            simp only [Option.map_some']
            rw [if_pos (by omega)]
            have hj1 : j + 1 - 1 = j := by omega
            rw [hj1]
          case hne3 =>
            intro habs
            rw [habs] at hmem
            rw [hidx] at hmem
            cases hmem
            omega

theorem WFIndex_cleared (s : CommitStateDB) (h1 : s.stateObjects = [])
    (h2 : s.addressToObjectIndex = fun _ => none) : WFIndex s := by
  constructor
  · intro a i hi
    rw [h2] at hi
    exact Option.noConfusion hi
  · intro i hi
    rw [h1] at hi
    simp at hi

theorem setError_fields (s : CommitStateDB) (e : ErrKind) :
    (setError s e).stateObjects = s.stateObjects ∧
    (setError s e).addressToObjectIndex = s.addressToObjectIndex := by
  unfold setError
  cases s.dbErr <;> exact ⟨rfl, rfl⟩

theorem WFIndex_setError (s : CommitStateDB) (e : ErrKind) (hw : WFIndex s) :
    WFIndex (setError s e) :=
  WFIndex_congr s _ (setError_fields s e).1 (setError_fields s e).2 hw

theorem WFIndex_appendJ (s : CommitStateDB) (e : JEntry) (hw : WFIndex s) :
    WFIndex (appendJ s e) :=
  WFIndex_congr s _ rfl rfl hw

theorem WFIndex_GetParams (w : World) (s : CommitStateDB) (hw : WFIndex s) :
    WFIndex (GetParams w s).2 := by
  rw [GetParams_snd]
  exact WFIndex_congr s _ rfl rfl hw

theorem WFIndex_getStateObject (w : World) (s : CommitStateDB) (a : Addr) (hw : WFIndex s) :
    WFIndex (getStateObject w s a).2 := by
  unfold getStateObject
  cases s.addressToObjectIndex a with
  | some i =>
      dsimp only
      split
      · exact hw
      · exact hw
  | none =>
      cases w.accounts a with
      | none => exact WFIndex_setError s _ hw
      | some acc => exact WFIndex_setStateObject s _ hw

theorem WFIndex_createObject (w : World) (s : CommitStateDB) (a : Addr) (hw : WFIndex s) :
    WFIndex (createObject w s a).2.2 := by
  have h1 := WFIndex_getStateObject w s a hw
  unfold createObject
  dsimp only
  split
  · exact WFIndex_setStateObject _ _ (WFIndex_appendJ _ _ h1)
  · exact WFIndex_setStateObject _ _ (WFIndex_appendJ _ _ h1)

theorem WFIndex_GetOrNewStateObject (w : World) (s : CommitStateDB) (a : Addr) (hw : WFIndex s) :
    WFIndex (GetOrNewStateObject w s a).2 := by
  have h1 := WFIndex_getStateObject w s a hw
  unfold GetOrNewStateObject
  split
  · rename_i so s1 heq
    rw [heq] at h1
    exact h1
  · rename_i s1 heq
    rw [heq] at h1
    exact WFIndex_createObject w s1 a h1

theorem WFIndex_soBalanceOp (w : World) (s : CommitStateDB) (a : Addr) (f : Int → Int)
    (hw : WFIndex s) : WFIndex (soBalanceOp w s a f) := by
  have h1 := WFIndex_GetParams w s hw
  unfold soBalanceOp
  dsimp only
  split
  · exact WFIndex_updateObjAt _ _ _ (WFIndex_appendJ _ _ h1)
  · exact h1

theorem WFIndex_applyOp (w : World) (s : CommitStateDB) (op : Op) (hw : WFIndex s) :
    WFIndex (applyOp w s op) := by
  cases op with
  | setBalance a v =>
      show WFIndex (SetBalance w s a v)
      exact WFIndex_soBalanceOp w (GetOrNewStateObject w s a).2 a (fun _ => v)
        (WFIndex_GetOrNewStateObject w s a hw)
  | addBalance a v =>
      show WFIndex (AddBalance w s a v)
      exact WFIndex_soBalanceOp w (GetOrNewStateObject w s a).2 a (fun b => b + v)
        (WFIndex_GetOrNewStateObject w s a hw)
  | subBalance a v =>
      show WFIndex (SubBalance w s a v)
      exact WFIndex_soBalanceOp w (GetOrNewStateObject w s a).2 a (fun b => b - v)
        (WFIndex_GetOrNewStateObject w s a hw)
  | setNonce a n =>
      show WFIndex (SetNonce w s a n)
      have h1 := WFIndex_GetOrNewStateObject w s a hw
      unfold SetNonce
      dsimp only
      split
      · exact WFIndex_updateObjAt _ _ _ (WFIndex_appendJ _ _ h1)
      · exact h1
  | setState a k v =>
      show WFIndex (SetState w s a k v)
      have h1 := WFIndex_GetOrNewStateObject w s a hw
      unfold SetState
      dsimp only
      split
      · split
        · exact WFIndex_updateObjAt _ _ _ h1
        · exact WFIndex_updateObjAt _ _ _
            (WFIndex_appendJ _ _ (WFIndex_updateObjAt _ _ _ h1))
      · exact h1
  | setCode a c =>
      show WFIndex (SetCode w s a c)
      have h1 := WFIndex_GetOrNewStateObject w s a hw
      unfold SetCode
      dsimp only
      split
      · exact WFIndex_updateObjAt _ _ _ (WFIndex_appendJ _ _ h1)
      · exact h1
  | addLog l => exact WFIndex_congr s _ rfl rfl hw
  | addPreimage h p =>
      show WFIndex (AddPreimage s h p)
      unfold AddPreimage
      dsimp only
      split
      · exact hw
      · exact WFIndex_congr s _ rfl rfl hw
  | addRefund g => exact WFIndex_congr s _ rfl rfl hw
  | addAddress a =>
      show WFIndex (AddAddressToAccessList s a)
      unfold AddAddressToAccessList
      dsimp only
      split
      · exact WFIndex_congr s _ rfl rfl hw
      · exact WFIndex_congr s _ rfl rfl hw
  | addSlot a sl =>
      show WFIndex (AddSlotToAccessList s a sl)
      unfold AddSlotToAccessList
      dsimp only
      split
      · split
        · exact WFIndex_appendJ _ _ (WFIndex_appendJ _ _ (WFIndex_congr s _ rfl rfl hw))
        · exact WFIndex_appendJ _ _ (WFIndex_congr s _ rfl rfl hw)
      · split
        · exact WFIndex_appendJ _ _ (WFIndex_congr s _ rfl rfl hw)
        · exact WFIndex_congr s _ rfl rfl hw
  | createAccount a =>
      show WFIndex (CreateAccount w s a)
      have h1 := WFIndex_createObject w s a hw
      unfold CreateAccount
      dsimp only
      split
      · exact h1
      · exact WFIndex_updateObjAt _ _ _ (WFIndex_GetParams _ _ h1)

theorem WFIndex_undoEntry (w : World) (e : JEntry) (s : CommitStateDB) (hw : WFIndex s) :
    WFIndex (undoEntry w e s) := by
  cases e with
  | createObjectChange a =>
      simp only [undoEntry]
      exact WFIndex_removeEntryFor s a hw
  | resetObjectChange prev =>
      simp only [undoEntry]
      exact WFIndex_setStateObject s prev hw
  | suicideChange a pf pb =>
      simp only [undoEntry]
      exact WFIndex_updateObjAt s a _ hw
  | balanceChange a p =>
      simp only [undoEntry]
      exact WFIndex_updateObjAt s a _ hw
  | nonceChange a p =>
      simp only [undoEntry]
      exact WFIndex_updateObjAt s a _ hw
  | storageChange a k prevD =>
      simp only [undoEntry]
      exact WFIndex_updateObjAt s a _ hw
  | codeChange a pc ph pd =>
      simp only [undoEntry]
      exact WFIndex_updateObjAt s a _ hw
  | refundChange p =>
      simp only [undoEntry]
      exact WFIndex_congr s _ rfl rfl hw
  | addLogChange h =>
      simp only [undoEntry]
      exact WFIndex_congr s _ rfl rfl hw
  | addPreimageChange h =>
      simp only [undoEntry]
      cases s.hashToPreimageIndex h
      · exact hw
      · exact WFIndex_congr s _ rfl rfl hw
  | touchChange a =>
      simp only [undoEntry]
      exact hw
  | accessListAddAccountChange a =>
      simp only [undoEntry]
      exact WFIndex_congr s _ rfl rfl hw
  | accessListAddSlotChange a sl =>
      simp only [undoEntry]
      cases s.accessList.addresses a with
      | none => exact hw
      | some o =>
          cases o with
          | none => exact hw
          | some i =>
              dsimp only
              split
              · exact WFIndex_congr s _ rfl rfl hw
              · exact WFIndex_congr s _ rfl rfl hw

theorem WFIndex_undoSeq (w : World) (es : List JEntry) (s : CommitStateDB) (hw : WFIndex s) :
    WFIndex (undoSeq w es s) := by
  induction es with
  | nil => exact hw
  | cons e rest ih => exact WFIndex_undoEntry w e _ ih

theorem WFIndex_journalRevert (w : World) (s : CommitStateDB) (t : Nat) (hw : WFIndex s) :
    WFIndex (journalRevert w s t) := by
  unfold journalRevert
  exact WFIndex_undoSeq w _ _ (WFIndex_congr s _ rfl rfl hw)

theorem WFIndex_RevertToSnapshot (w : World) (s : CommitStateDB) (revID : Int)
    (hw : WFIndex s) :
    ∀ s2, RevertToSnapshot w s revID = some s2 → WFIndex s2 := by
  intro s2 h
  unfold RevertToSnapshot at h
  dsimp only at h
  split at h
  · exact Option.noConfusion h
  · cases h
    exact WFIndex_congr (journalRevert w s _) _ rfl rfl (WFIndex_journalRevert w s _ hw)

theorem WFIndex_updateStateObjectAt (w : World) (s : CommitStateDB) (i : Nat)
    (hw : WFIndex s) : WFIndex (updateStateObjectAt w s i).2.2 := by
  have h1 := WFIndex_GetParams w s hw
  unfold updateStateObjectAt
  dsimp only
  split
  · exact h1
  · split
    · exact h1
    · exact WFIndex_set (GetParams w s).2 i _ rfl h1

theorem WFIndex_deleteStateObjectAt (w : World) (s : CommitStateDB) (i : Nat)
    (hw : WFIndex s) : WFIndex (deleteStateObjectAt w s i).2 := by
  unfold deleteStateObjectAt
  exact WFIndex_set s i _ rfl hw

theorem WFIndex_commitStateAt (w : World) (s : CommitStateDB) (i : Nat)
    (hw : WFIndex s) : WFIndex (commitStateAt w s i).2 := by
  unfold commitStateAt
  exact WFIndex_set s i _ rfl hw

theorem WFIndex_commitLoop (b : Bool) :
    ∀ (idxs : List Nat) (w : World) (s : CommitStateDB), WFIndex s →
      WFIndex (commitLoop b w s idxs).2.2 := by
  intro idxs
  induction idxs with
  | nil => exact fun w s hw => hw
  | cons i rest ih =>
      intro w s hw
      unfold commitLoop
      dsimp only
      split
      · exact ih _ _ (WFIndex_congr (deleteStateObjectAt w s i).2 _ rfl rfl
          (WFIndex_deleteStateObjectAt w s i hw))
      · split
        · split
          · exact ih _ _ (WFIndex_congr (deleteStateObjectAt w (GetParams w s).2 i).2 _ rfl rfl
              (WFIndex_deleteStateObjectAt w (GetParams w s).2 i (WFIndex_GetParams w s hw)))
          · split
            · refine WFIndex_updateStateObjectAt _ _ i ?_
              split
              · refine WFIndex_set (GetParams w s).2 i _ ?_ (WFIndex_GetParams w s hw)
                show (getEntry s i).address = (getEntry (GetParams w s).2 i).address
                rw [GetParams_snd]
                rfl
              · exact WFIndex_GetParams w s hw
            · refine ih _ _ (WFIndex_carry _ (WFIndex_updateStateObjectAt _ _ i ?_) _ rfl rfl)
              split
              · refine WFIndex_set (GetParams w s).2 i _ ?_ (WFIndex_GetParams w s hw)
                show (getEntry s i).address = (getEntry (GetParams w s).2 i).address
                rw [GetParams_snd]
                rfl
              · exact WFIndex_GetParams w s hw
        · exact ih _ _ (WFIndex_congr s _ rfl rfl hw)

theorem WFIndex_Commit (w : World) (s : CommitStateDB) (b : Bool) (hw : WFIndex s) :
    WFIndex (Commit w s b).2.2.2 := by
  unfold Commit
  dsimp only
  refine WFIndex_congr (commitLoop b w (mergeJournalDirties s)
    (List.range (mergeJournalDirties s).stateObjects.length)).2.2 _ rfl rfl ?_
  exact WFIndex_commitLoop b _ w _ (WFIndex_congr s _ rfl rfl hw)

theorem WFIndex_finaliseLoop (b : Bool) :
    ∀ (addrs : List Addr) (w : World) (s : CommitStateDB), WFIndex s →
      WFIndex (finaliseLoop b w s addrs).2.2 := by
  intro addrs
  induction addrs with
  | nil => exact fun w s hw => hw
  | cons a rest ih =>
      intro w s hw
      unfold finaliseLoop
      dsimp only
      split
      · exact ih _ _ hw
      · rename_i idx hidx
        split
        · exact ih _ _ (WFIndex_congr (deleteStateObjectAt w (GetParams w s).2 idx).2 _ rfl rfl
            (WFIndex_deleteStateObjectAt w (GetParams w s).2 idx (WFIndex_GetParams w s hw)))
        · have hc : WFIndex (commitStateAt w (GetParams w s).2 idx).2 :=
            WFIndex_commitStateAt w (GetParams w s).2 idx (WFIndex_GetParams w s hw)
          have hu := WFIndex_updateStateObjectAt (commitStateAt w (GetParams w s).2 idx).1
            (commitStateAt w (GetParams w s).2 idx).2 idx hc
          split
          · exact hu
          · exact ih _ _ (WFIndex_carry _ hu _ rfl rfl)

theorem WFIndex_Finalise (w : World) (s : CommitStateDB) (b : Bool) (hw : WFIndex s) :
    WFIndex (Finalise w s b).2.2 := by
  unfold Finalise
  dsimp only
  have hl := WFIndex_finaliseLoop b s.journal.dirties w s hw
  split
  · exact hl
  · exact WFIndex_carry _ hl _ rfl rfl

theorem WFIndex_Suicide (w : World) (s : CommitStateDB) (a : Addr) (hw : WFIndex s) :
    WFIndex (Suicide w s a).2 := by
  have h1 := WFIndex_getStateObject w s a hw
  unfold Suicide
  split
  · rename_i s1 heq
    rw [heq] at h1
    exact h1
  · rename_i so s1 heq
    rw [heq] at h1
    dsimp only
    refine WFIndex_soBalanceOp w _ a _ ?_
    exact WFIndex_updateObjAt _ _ _ (WFIndex_appendJ _ _ (WFIndex_GetParams w s1 h1))


theorem WFIndex_SubRefund (s : CommitStateDB) (g : Nat) (hw : WFIndex s) :
    ∀ s2, SubRefund s g = some s2 → WFIndex s2 := by
  intro s2 h
  unfold SubRefund at h
  dsimp only at h
  split at h
  · exact Option.noConfusion h
  · cases h
    exact WFIndex_carry s hw _ rfl rfl

theorem WFIndex_Snapshot (s : CommitStateDB) (hw : WFIndex s) :
    WFIndex (Snapshot s).2 :=
  WFIndex_carry s hw _ rfl rfl

theorem WFIndex_Reset (w : World) (s : CommitStateDB) : WFIndex (Reset w s).2 :=
  WFIndex_cleared _ rfl rfl

theorem WFIndex_ClearStateObjects (s : CommitStateDB) : WFIndex (ClearStateObjects s) :=
  WFIndex_cleared _ rfl rfl

theorem WFIndex_Prepare (s : CommitStateDB) (th bh : Hash) (txi : Int) (hw : WFIndex s) :
    WFIndex (Prepare s th bh txi) :=
  WFIndex_carry s hw _ rfl rfl

theorem WFIndex_SetLogs (s : CommitStateDB) (ls : List Log) (hw : WFIndex s) :
    WFIndex (SetLogs s ls) :=
  WFIndex_carry s hw _ rfl rfl

theorem WFIndex_DeleteLogs (s : CommitStateDB) (hw : WFIndex s) :
    WFIndex (DeleteLogs s) :=
  WFIndex_carry s hw _ rfl rfl

theorem WFIndex_AddLog (s : CommitStateDB) (l : Log) (hw : WFIndex s) :
    WFIndex (AddLog s l) :=
  WFIndex_carry s hw _ rfl rfl

theorem WFIndex_GetBalance (w : World) (s : CommitStateDB) (a : Addr) (hw : WFIndex s) :
    WFIndex (GetBalance w s a).2 := by
  have h1 := WFIndex_getStateObject w s a hw
  unfold GetBalance
  split
  · rename_i so s1 heq
    rw [heq] at h1
    exact WFIndex_GetParams w s1 h1
  · rename_i s1 heq
    rw [heq] at h1
    exact h1

theorem WFIndex_GetNonce (w : World) (s : CommitStateDB) (a : Addr) (hw : WFIndex s) :
    WFIndex (GetNonce w s a).2 := by
  have h1 := WFIndex_getStateObject w s a hw
  unfold GetNonce
  split
  · rename_i so s1 heq
    rw [heq] at h1
    exact h1
  · rename_i s1 heq
    rw [heq] at h1
    exact h1

theorem WFIndex_GetCode (w : World) (s : CommitStateDB) (a : Addr) (hw : WFIndex s) :
    WFIndex (GetCode w s a).2 := by
  have h1 := WFIndex_getStateObject w s a hw
  unfold GetCode
  split
  · rename_i so s1 heq
    rw [heq] at h1
    exact h1
  · rename_i s1 heq
    rw [heq] at h1
    exact h1

theorem WFIndex_GetCodeHash (w : World) (s : CommitStateDB) (a : Addr) (hw : WFIndex s) :
    WFIndex (GetCodeHash w s a).2 := by
  have h1 := WFIndex_getStateObject w s a hw
  unfold GetCodeHash
  split
  · rename_i so s1 heq
    rw [heq] at h1
    exact h1
  · rename_i s1 heq
    rw [heq] at h1
    exact h1

theorem WFIndex_GetState (w : World) (s : CommitStateDB) (a : Addr) (k : Hash)
    (hw : WFIndex s) : WFIndex (GetState w s a k).2 := by
  have h1 := WFIndex_getStateObject w s a hw
  unfold GetState
  split
  · rename_i so s1 heq
    rw [heq] at h1
    dsimp only
    exact WFIndex_updateObjAt s1 a _ h1
  · rename_i s1 heq
    rw [heq] at h1
    exact h1

theorem WFIndex_GetCommittedState (w : World) (s : CommitStateDB) (a : Addr) (k : Hash)
    (hw : WFIndex s) : WFIndex (GetCommittedState w s a k).2 := by
  have h1 := WFIndex_getStateObject w s a hw
  unfold GetCommittedState
  split
  · rename_i so s1 heq
    rw [heq] at h1
    exact h1
  · rename_i s1 heq
    rw [heq] at h1
    exact h1

theorem WFIndex_HasSuicided (w : World) (s : CommitStateDB) (a : Addr) (hw : WFIndex s) :
    WFIndex (HasSuicided w s a).2 := by
  have h1 := WFIndex_getStateObject w s a hw
  unfold HasSuicided
  split
  · rename_i so s1 heq
    rw [heq] at h1
    exact h1
  · rename_i s1 heq
    rw [heq] at h1
    exact h1

theorem WFIndex_Empty (w : World) (s : CommitStateDB) (a : Addr) (hw : WFIndex s) :
    WFIndex (Empty w s a).2 := by
  have h1 := WFIndex_getStateObject w s a hw
  unfold Empty
  split
  · rename_i so s1 heq
    rw [heq] at h1
    exact WFIndex_GetParams w s1 h1
  · rename_i s1 heq
    rw [heq] at h1
    exact h1

theorem WFIndex_Exist (w : World) (s : CommitStateDB) (a : Addr) (hw : WFIndex s) :
    WFIndex (Exist w s a).2 :=
  WFIndex_getStateObject w s a hw

theorem WFIndex_applyPublicOp (w : World) (s : CommitStateDB) (op : PublicOp)
    (hw : WFIndex s) (w2 : World) (s2 : CommitStateDB)
    (h : applyPublicOp w s op = some (w2, s2)) : WFIndex s2 := by
  cases op with
  | mutate op =>
      simp only [applyPublicOp, Option.some.injEq, Prod.mk.injEq] at h
      obtain ⟨rfl, rfl⟩ := h
      exact WFIndex_applyOp w s op hw
  | suicide a =>
      simp only [applyPublicOp, Option.some.injEq, Prod.mk.injEq] at h
      obtain ⟨rfl, rfl⟩ := h
      exact WFIndex_Suicide w s a hw
  | subRefund g =>
      simp only [applyPublicOp, Option.map_eq_some'] at h
      obtain ⟨s3, hs3, heq⟩ := h
      simp only [Prod.mk.injEq] at heq
      obtain ⟨rfl, rfl⟩ := heq
      exact WFIndex_SubRefund s g hw _ hs3
  | snapshot =>
      simp only [applyPublicOp, Option.some.injEq, Prod.mk.injEq] at h
      obtain ⟨rfl, rfl⟩ := h
      exact WFIndex_Snapshot s hw
  | revertToSnapshot id =>
      simp only [applyPublicOp, Option.map_eq_some'] at h
      obtain ⟨s3, hs3, heq⟩ := h
      simp only [Prod.mk.injEq] at heq
      obtain ⟨rfl, rfl⟩ := heq
      exact WFIndex_RevertToSnapshot w s id hw _ hs3
  | commit b2 =>
      simp only [applyPublicOp, Option.some.injEq, Prod.mk.injEq] at h
      obtain ⟨rfl, rfl⟩ := h
      exact WFIndex_Commit w s b2 hw
  | finalise b2 =>
      simp only [applyPublicOp, Option.some.injEq, Prod.mk.injEq] at h
      obtain ⟨rfl, rfl⟩ := h
      exact WFIndex_Finalise w s b2 hw
  | reset =>
      simp only [applyPublicOp, Reset, Option.some.injEq, Prod.mk.injEq] at h
      obtain ⟨rfl, rfl⟩ := h
      exact WFIndex_Reset w s
  | clearStateObjects =>
      simp only [applyPublicOp, Option.some.injEq, Prod.mk.injEq] at h
      obtain ⟨rfl, rfl⟩ := h
      exact WFIndex_ClearStateObjects s
  | prepare th bh txi =>
      simp only [applyPublicOp, Option.some.injEq, Prod.mk.injEq] at h
      obtain ⟨rfl, rfl⟩ := h
      exact WFIndex_Prepare s th bh txi hw
  | getBalance a =>
      simp only [applyPublicOp, Option.some.injEq, Prod.mk.injEq] at h
      obtain ⟨rfl, rfl⟩ := h
      exact WFIndex_GetBalance w s a hw
  | getNonce a =>
      simp only [applyPublicOp, Option.some.injEq, Prod.mk.injEq] at h
      obtain ⟨rfl, rfl⟩ := h
      exact WFIndex_GetNonce w s a hw
  | getStateOf a k =>
      simp only [applyPublicOp, Option.some.injEq, Prod.mk.injEq] at h
      obtain ⟨rfl, rfl⟩ := h
      exact WFIndex_GetState w s a k hw
  | getCommittedStateOf a k =>
      simp only [applyPublicOp, Option.some.injEq, Prod.mk.injEq] at h
      obtain ⟨rfl, rfl⟩ := h
      exact WFIndex_GetCommittedState w s a k hw
  | getCode a =>
      simp only [applyPublicOp, Option.some.injEq, Prod.mk.injEq] at h
      obtain ⟨rfl, rfl⟩ := h
      exact WFIndex_GetCode w s a hw
  | getCodeHash a =>
      simp only [applyPublicOp, Option.some.injEq, Prod.mk.injEq] at h
      obtain ⟨rfl, rfl⟩ := h
      exact WFIndex_GetCodeHash w s a hw
  | getOrNew a =>
      simp only [applyPublicOp, Option.some.injEq, Prod.mk.injEq] at h
      obtain ⟨rfl, rfl⟩ := h
      exact WFIndex_GetOrNewStateObject w s a hw
  | existQ a =>
      simp only [applyPublicOp, Option.some.injEq, Prod.mk.injEq] at h
      obtain ⟨rfl, rfl⟩ := h
      exact WFIndex_Exist w s a hw
  | emptyQ a =>
      simp only [applyPublicOp, Option.some.injEq, Prod.mk.injEq] at h
      obtain ⟨rfl, rfl⟩ := h
      exact WFIndex_Empty w s a hw
  | hasSuicidedQ a =>
      simp only [applyPublicOp, Option.some.injEq, Prod.mk.injEq] at h
      obtain ⟨rfl, rfl⟩ := h
      exact WFIndex_HasSuicided w s a hw
  | setLogs ls =>
      simp only [applyPublicOp, Option.some.injEq, Prod.mk.injEq] at h
      obtain ⟨rfl, rfl⟩ := h
      exact WFIndex_SetLogs s ls hw
  | deleteLogs =>
      simp only [applyPublicOp, Option.some.injEq, Prod.mk.injEq] at h
      obtain ⟨rfl, rfl⟩ := h
      exact WFIndex_DeleteLogs s hw
  | addLogOp l =>
      simp only [applyPublicOp, Option.some.injEq, Prod.mk.injEq] at h
      obtain ⟨rfl, rfl⟩ := h
      exact WFIndex_AddLog s l hw

theorem wfIndex_newCommitStateDB : WFIndex newCommitStateDB :=
  WFIndex_cleared newCommitStateDB rfl rfl

/-- C10: every public overlay operation that returns (rather than
panicking) preserves the consistency of the address-to-index map with
the live object slice: starting from a state satisfying `WFIndex`, the
resulting state maps every indexed address `a` to a valid position of
`stateObjects` whose entry carries address `a`, and no address occupies
more than one entry of `stateObjects`. -/
theorem c10_public_ops_preserve_index (w : World) (s : CommitStateDB)
    (op : PublicOp) (hw : WFIndex s) (w2 : World) (s2 : CommitStateDB)
    (h : applyPublicOp w s op = some (w2, s2)) :
    (∀ a i, s2.addressToObjectIndex a = some i →
      i < s2.stateObjects.length ∧ (getEntry s2 i).address = a) ∧
    (∀ i j, i < s2.stateObjects.length → j < s2.stateObjects.length →
      (getEntry s2 i).address = (getEntry s2 j).address → i = j) := by
  have hw2 := WFIndex_applyPublicOp w s op hw w2 s2 h
  refine ⟨hw2.lookup, ?_⟩
  intro i j hi hj hij
  have h1 := hw2.mem i hi
  have h2 := hw2.mem j hj
  rw [hij] at h1
  rw [h1] at h2
  exact Option.some.inj h2

theorem c10_public_ops_preserve_index_witness :
    (∀ a i,
      (GetOrNewStateObject exWorld newCommitStateDB 0).2.addressToObjectIndex a = some i →
      i < (GetOrNewStateObject exWorld newCommitStateDB 0).2.stateObjects.length ∧
      (getEntry (GetOrNewStateObject exWorld newCommitStateDB 0).2 i).address = a) ∧
    (∀ i j, i < (GetOrNewStateObject exWorld newCommitStateDB 0).2.stateObjects.length →
      j < (GetOrNewStateObject exWorld newCommitStateDB 0).2.stateObjects.length →
      (getEntry (GetOrNewStateObject exWorld newCommitStateDB 0).2 i).address =
        (getEntry (GetOrNewStateObject exWorld newCommitStateDB 0).2 j).address → i = j) :=
  c10_public_ops_preserve_index exWorld newCommitStateDB (PublicOp.getOrNew 0)
    wfIndex_newCommitStateDB exWorld (GetOrNewStateObject exWorld newCommitStateDB 0).2 rfl


theorem GetParams_fst (w : World) (s : CommitStateDB) :
    (GetParams w s).1 = paramsVal w s := by
  unfold GetParams paramsVal
  cases s.params <;> rfl

theorem GetParams_cached (w : World) (s : CommitStateDB) (p : Params)
    (h : s.params = some p) : GetParams w s = (p, s) := by
  unfold GetParams
  rw [h]

theorem updateObjAt_params (s : CommitStateDB) (a : Addr) (f : StateObj → StateObj) :
    (updateObjAt s a f).params = s.params := by
  unfold updateObjAt
  cases s.addressToObjectIndex a <;> rfl

theorem getStateObject_fst (w : World) (s : CommitStateDB) (a : Addr) :
    (getStateObject w s a).1 = resolveVal w s a := by
  unfold getStateObject resolveVal
  cases s.addressToObjectIndex a with
  | some i =>
      dsimp only
      split <;> rfl
  | none => cases w.accounts a <;> rfl

theorem Cached_appendJ (s : CommitStateDB) (e : JEntry) (a : Addr) (i : Nat) (o : StateObj)
    (h : Cached s a i o) : Cached (appendJ s e) a i o :=
  ⟨h.idx, h.len, h.entry⟩

theorem Cached_updateObjAt (s : CommitStateDB) (a : Addr) (i : Nat) (o : StateObj)
    (f : StateObj → StateObj) (h : Cached s a i o) :
    Cached (updateObjAt s a f) a i (f o) := by
  have hu : updateObjAt s a f =
      { s with stateObjects :=
          s.stateObjects.set i { address := (getEntry s i).address, so := f (getEntry s i).so } } := by
    unfold updateObjAt
    rw [h.idx]
  refine ⟨?_, ?_, ?_⟩ <;> rw [hu]
  · exact h.idx
  · simpa using h.len
  · show ((s.stateObjects.set i _).getD i dummyEntry).so = f o
    rw [listGetD_set_self _ _ _ _ h.len]
    rw [h.entry]

theorem Cached_liveObj (s : CommitStateDB) (a : Addr) (i : Nat) (o : StateObj)
    (h : Cached s a i o) : liveObj s a = some o := by
  unfold liveObj
  rw [h.idx]
  simp only [Option.map_some']
  rw [h.entry]

theorem Cached_getStateObject (w : World) (s : CommitStateDB) (a : Addr) (i : Nat)
    (o : StateObj) (h : Cached s a i o) (hdel : o.deleted = false) :
    getStateObject w s a = (some o, s) := by
  unfold getStateObject
  rw [h.idx]
  dsimp only
  rw [h.entry, hdel]
  simp

theorem Cached_soBalanceOp (w : World) (s : CommitStateDB) (a : Addr) (i : Nat)
    (o : StateObj) (f : Int → Int) (p : Params)
    (h : Cached s a i o) (hpar : s.params = some p) :
    Cached (soBalanceOp w s a f) a i
      (o.setBalance p.evmDenom (f (o.balance p.evmDenom))) ∧
    (soBalanceOp w s a f).params = some p := by
  have hs : soBalanceOp w s a f =
      updateObjAt (appendJ s (.balanceChange a (o.balance p.evmDenom))) a
        (fun o2 => o2.setBalance p.evmDenom (f (o.balance p.evmDenom))) := by
    unfold soBalanceOp
    dsimp only
    rw [GetParams_cached w s p hpar]
    dsimp only
    rw [Cached_liveObj s a i o h]
  constructor
  · rw [hs]
    exact Cached_updateObjAt _ a i o _ (Cached_appendJ s _ a i o h)
  · rw [hs, updateObjAt_params]
    exact hpar

theorem getStateObject_resolves (w : World) (s : CommitStateDB) (a : Addr)
    (hw : WFIndex s)
    (hworld : ∀ b acc, w.accounts b = some acc → acc.addr = b)
    (so : StateObj) (s1 : CommitStateDB)
    (h : getStateObject w s a = (some so, s1)) :
    (∃ i, Cached s1 a i so) ∧ so.deleted = false := by
  unfold getStateObject at h
  cases hidx : s.addressToObjectIndex a with
  | some i =>
      rw [hidx] at h
      dsimp only at h
      split at h
      · simp at h
      · rename_i hdel
        simp only [Prod.mk.injEq, Option.some.injEq] at h
        obtain ⟨h3, h2⟩ := h
        subst h2
        refine ⟨⟨i, hidx, (hw.lookup a i hidx).1, h3⟩, ?_⟩
        rw [← h3]
        exact Bool.eq_false_iff.mpr hdel
  | none =>
      rw [hidx] at h
      dsimp only at h
      cases hacc : w.accounts a with
      | none =>
          rw [hacc] at h
          simp at h
      | some acc =>
          rw [hacc] at h
          dsimp only at h
          simp only [Prod.mk.injEq, Option.some.injEq] at h
          obtain ⟨h3, h2⟩ := h
          have haddr : acc.addr = a := hworld a acc hacc
          have hsso : setStateObject s (newStateObject acc) =
              { s with
                stateObjects := s.stateObjects ++ [{ address := a, so := newStateObject acc }]
                addressToObjectIndex := fun b =>
                  if b = a then some s.stateObjects.length
                  else s.addressToObjectIndex b } := by
            unfold setStateObject
            rw [show (newStateObject acc).account.addr = a from haddr]
            rw [hidx]
          rw [← h2, hsso]
          refine ⟨⟨s.stateObjects.length, ?_, ?_, ?_⟩, ?_⟩
          · simp
          · simp
          · show ((s.stateObjects ++ [_]).getD s.stateObjects.length dummyEntry).so = so
            rw [listGetD_concat_len]
            exact h3
          · rw [← h3]
            rfl

/-- C5: `Suicide(a)` returns true exactly when a state object for `a`
resolves (cached and not deleted, or loadable from the account keeper); and
whenever it returns true, immediately afterwards `HasSuicided(a)` is true
and `GetBalance(a)` is zero.  The hypotheses are the invariants the
implementation maintains: a consistent address index and a keeper that
stores each account under its own address. -/
theorem c5_suicide (w : World) (s : CommitStateDB) (a : Addr)
    (hw : WFIndex s)
    (hworld : ∀ b acc, w.accounts b = some acc → acc.addr = b) :
    ((Suicide w s a).1 = true ↔ (resolveVal w s a).isSome = true) ∧
    ((Suicide w s a).1 = true →
      (HasSuicided w (Suicide w s a).2 a).1 = true ∧
      (GetBalance w (Suicide w s a).2 a).1 = 0) := by
  have hfst := getStateObject_fst w s a
  rcases hg : getStateObject w s a with ⟨r, s1⟩
  rw [hg] at hfst
  dsimp only at hfst
  cases r with
  | none =>
      have hs : Suicide w s a = (false, s1) := by
        unfold Suicide
        rw [hg]
      rw [hs]
      constructor
      · rw [← hfst]
        simp
      · intro hfalse
        simp at hfalse
  | some so =>
      obtain ⟨⟨i, hC1⟩, hdel⟩ := getStateObject_resolves w s a hw hworld so s1 hg
      have hs : Suicide w s a =
          (true, soBalanceOp w
            (updateObjAt
              (appendJ (GetParams w s1).2
                (JEntry.suicideChange a so.suicided (so.balance (GetParams w s1).1.evmDenom)))
              a StateObj.markSuicided)
            a (fun _ => 0)) := by
        unfold Suicide
        rw [hg]
      rw [hs]
      refine ⟨by rw [← hfst]; simp, fun _ => ?_⟩
      have hCA : Cached (GetParams w s1).2 a i so := by
        rw [GetParams_snd]
        exact ⟨hC1.idx, hC1.len, hC1.entry⟩
      have hparA : (GetParams w s1).2.params = some (paramsVal w s1) := by
        rw [GetParams_snd]
      have hC2 := Cached_appendJ (GetParams w s1).2
        (JEntry.suicideChange a so.suicided (so.balance (GetParams w s1).1.evmDenom)) a i so hCA
      have hC3 := Cached_updateObjAt _ a i so StateObj.markSuicided hC2
      have hpar3 : (updateObjAt
          (appendJ (GetParams w s1).2
            (JEntry.suicideChange a so.suicided (so.balance (GetParams w s1).1.evmDenom)))
          a StateObj.markSuicided).params = some (paramsVal w s1) := by
        rw [updateObjAt_params]
        exact hparA
      obtain ⟨hC4, hpar4⟩ := Cached_soBalanceOp w _ a i so.markSuicided (fun _ => 0)
        (paramsVal w s1) hC3 hpar3
      have hdel4 : (so.markSuicided.setBalance (paramsVal w s1).evmDenom
          ((fun _ => 0) (so.markSuicided.balance (paramsVal w s1).evmDenom))).deleted = false :=
        hdel
      have hget4 := Cached_getStateObject w _ a i _ hC4 hdel4
      constructor
      · unfold HasSuicided
        rw [hget4]
        rfl
      · unfold GetBalance
        rw [hget4]
        dsimp only
        rw [GetParams_cached w _ (paramsVal w s1) hpar4]
        dsimp only
        simp [StateObj.setBalance, StateObj.balance, StateObj.markSuicided]


theorem exWorld_keyed : ∀ b acc, exWorld.accounts b = some acc → acc.addr = b := by
  intro b acc h
  have h2 : (if b = 0 then some acct0 else none) = some acc := h
  by_cases hb : b = 0
  · subst hb
    rw [if_pos rfl] at h2
    injection h2 with h3
    rw [← h3]
    rfl
  · rw [if_neg hb] at h2
    exact Option.noConfusion h2

theorem c5_suicide_witness :
    ((Suicide exWorld newCommitStateDB 0).1 = true ↔
      (resolveVal exWorld newCommitStateDB 0).isSome = true) ∧
    ((Suicide exWorld newCommitStateDB 0).1 = true →
      (HasSuicided exWorld (Suicide exWorld newCommitStateDB 0).2 0).1 = true ∧
      (GetBalance exWorld (Suicide exWorld newCommitStateDB 0).2 0).1 = 0) :=
  c5_suicide exWorld newCommitStateDB 0 wfIndex_newCommitStateDB exWorld_keyed


theorem listGetD_set {α : Type} (l : List α) (i k : Nat) (x d : α) :
    (l.set i x).getD k d = if i = k ∧ i < l.length then x else l.getD k d := by
  by_cases hik : i = k
  · subst hik
    by_cases hlen : i < l.length
    · rw [if_pos ⟨rfl, hlen⟩]
      exact listGetD_set_self l i x d hlen
    · rw [if_neg (fun hc => hlen hc.2), List.set_eq_of_length_le (by omega)]
  · rw [if_neg (fun hc => hik hc.1)]
    exact listGetD_set_ne l i k x d hik

theorem GetParams_stateObjects (w : World) (s : CommitStateDB) :
    (GetParams w s).2.stateObjects = s.stateObjects := by
  rw [GetParams_snd]

theorem GetParams_dirtyFlags (w : World) (s : CommitStateDB) :
    (GetParams w s).2.stateObjectsDirty = s.stateObjectsDirty := by
  rw [GetParams_snd]

theorem GetParams_params (w : World) (s : CommitStateDB) :
    (GetParams w s).2.params = some (paramsVal w s) := by
  rw [GetParams_snd]

theorem getEntry_GetParams (w : World) (s : CommitStateDB) (k : Nat) :
    getEntry (GetParams w s).2 k = getEntry s k := by
  rw [GetParams_snd]
  rfl

theorem paramsVal_GetParams (w : World) (s : CommitStateDB) :
    paramsVal w (GetParams w s).2 = paramsVal w s := by
  unfold paramsVal
  rw [GetParams_params]
  rfl

theorem commitCodeAt_accounts (w : World) (s : CommitStateDB) (i : Nat) :
    (commitCodeAt w s i).accounts = w.accounts := rfl

theorem commitCodeAt_keccak (w : World) (s : CommitStateDB) (i : Nat) :
    (commitCodeAt w s i).keccak = w.keccak := rfl

theorem commitCodeAt_storedParams (w : World) (s : CommitStateDB) (i : Nat) :
    (commitCodeAt w s i).storedParams = w.storedParams := rfl

theorem commitCodeAt_codeStore (w : World) (s : CommitStateDB) (i : Nat) (H : Hash) :
    (commitCodeAt w s i).codeStore H =
      if H = (getEntry s i).so.account.codeHash then (getEntry s i).so.code.getD []
      else w.codeStore H := rfl

theorem deleteStateObjectAt_accounts (w : World) (s : CommitStateDB) (i : Nat) (A : Addr) :
    (deleteStateObjectAt w s i).1.accounts A =
      if A = (getEntry s i).so.account.addr then none else w.accounts A := rfl

theorem deleteStateObjectAt_keccak (w : World) (s : CommitStateDB) (i : Nat) :
    (deleteStateObjectAt w s i).1.keccak = w.keccak := rfl

theorem deleteStateObjectAt_codeStore (w : World) (s : CommitStateDB) (i : Nat) :
    (deleteStateObjectAt w s i).1.codeStore = w.codeStore := rfl

theorem deleteStateObjectAt_storedParams (w : World) (s : CommitStateDB) (i : Nat) :
    (deleteStateObjectAt w s i).1.storedParams = w.storedParams := rfl

theorem deleteStateObjectAt_stateObjects (w : World) (s : CommitStateDB) (i : Nat) :
    (deleteStateObjectAt w s i).2.stateObjects =
      s.stateObjects.set i
        { address := (getEntry s i).address, so := { (getEntry s i).so with deleted := true } } :=
  rfl

theorem deleteStateObjectAt_params (w : World) (s : CommitStateDB) (i : Nat) :
    (deleteStateObjectAt w s i).2.params = s.params := rfl

theorem deleteStateObjectAt_dirtyFlags (w : World) (s : CommitStateDB) (i : Nat) :
    (deleteStateObjectAt w s i).2.stateObjectsDirty = s.stateObjectsDirty := rfl

theorem skel_of_set (s : CommitStateDB) (i k : Nat) (x : StateEntry)
    (hadd : x.address = (getEntry s i).address)
    (ha : x.so.account.addr = (getEntry s i).so.account.addr)
    (hch : x.so.account.codeHash = (getEntry s i).so.account.codeHash)
    (hcd : x.so.code = (getEntry s i).so.code) :
    ((s.stateObjects.set i x).getD k dummyEntry).address = (getEntry s k).address ∧
    ((s.stateObjects.set i x).getD k dummyEntry).so.account.addr =
      (getEntry s k).so.account.addr ∧
    ((s.stateObjects.set i x).getD k dummyEntry).so.account.codeHash =
      (getEntry s k).so.account.codeHash ∧
    ((s.stateObjects.set i x).getD k dummyEntry).so.code = (getEntry s k).so.code := by
  by_cases hc : i = k ∧ i < s.stateObjects.length
  · rw [listGetD_set, if_pos hc]
    obtain ⟨hik, _⟩ := hc
    subst hik
    exact ⟨hadd, ha, hch, hcd⟩
  · rw [listGetD_set, if_neg hc]
    exact ⟨rfl, rfl, rfl, rfl⟩

theorem updateStateObjectAt_world_codeStore (w : World) (s : CommitStateDB) (i : Nat) :
    (updateStateObjectAt w s i).2.1.codeStore = w.codeStore := by
  unfold updateStateObjectAt
  dsimp only
  split
  · rfl
  · split
    · rfl
    · rfl

theorem updateStateObjectAt_world_keccak (w : World) (s : CommitStateDB) (i : Nat) :
    (updateStateObjectAt w s i).2.1.keccak = w.keccak := by
  unfold updateStateObjectAt
  dsimp only
  split
  · rfl
  · split
    · rfl
    · rfl

theorem updateStateObjectAt_world_storedParams (w : World) (s : CommitStateDB) (i : Nat) :
    (updateStateObjectAt w s i).2.1.storedParams = w.storedParams := by
  unfold updateStateObjectAt
  dsimp only
  split
  · rfl
  · split
    · rfl
    · rfl

theorem updateStateObjectAt_accounts_ne (w : World) (s : CommitStateDB) (i : Nat) (A : Addr)
    (hA : (getEntry s i).so.account.addr ≠ A) :
    (updateStateObjectAt w s i).2.1.accounts A = w.accounts A := by
  have hA2 : (getEntry (GetParams w s).2 i).so.account.addr ≠ A := by
    rw [getEntry_GetParams]
    exact hA
  unfold updateStateObjectAt
  dsimp only
  split
  · rfl
  · split
    · rfl
    · show (if A = (getEntry (GetParams w s).2 i).so.account.addr then _ else w.accounts A) =
        w.accounts A
      exact if_neg (fun hc => hA2 hc.symm)

theorem updateStateObjectAt_skel (w : World) (s : CommitStateDB) (i k : Nat) :
    (getEntry (updateStateObjectAt w s i).2.2 k).address = (getEntry s k).address ∧
    (getEntry (updateStateObjectAt w s i).2.2 k).so.account.addr =
      (getEntry s k).so.account.addr ∧
    (getEntry (updateStateObjectAt w s i).2.2 k).so.account.codeHash =
      (getEntry s k).so.account.codeHash ∧
    (getEntry (updateStateObjectAt w s i).2.2 k).so.code = (getEntry s k).so.code := by
  have hG := getEntry_GetParams w s k
  unfold updateStateObjectAt
  dsimp only
  split
  · rw [hG]
    exact ⟨rfl, rfl, rfl, rfl⟩
  · split
    · rw [hG]
      exact ⟨rfl, rfl, rfl, rfl⟩
    · rw [← hG]
      exact skel_of_set (GetParams w s).2 i k _ rfl rfl rfl rfl

theorem updateStateObjectAt_len (w : World) (s : CommitStateDB) (i : Nat) :
    (updateStateObjectAt w s i).2.2.stateObjects.length = s.stateObjects.length := by
  unfold updateStateObjectAt
  dsimp only
  split
  · rw [GetParams_stateObjects]
  · split
    · rw [GetParams_stateObjects]
    · show ((GetParams w s).2.stateObjects.set i _).length = s.stateObjects.length
      rw [List.length_set, GetParams_stateObjects]

theorem updateStateObjectAt_dirtyFlags (w : World) (s : CommitStateDB) (i : Nat) :
    (updateStateObjectAt w s i).2.2.stateObjectsDirty = s.stateObjectsDirty := by
  unfold updateStateObjectAt
  dsimp only
  split
  · exact GetParams_dirtyFlags w s
  · split
    · exact GetParams_dirtyFlags w s
    · show (GetParams w s).2.stateObjectsDirty = s.stateObjectsDirty
      exact GetParams_dirtyFlags w s

theorem updateStateObjectAt_params_eq (w : World) (s : CommitStateDB) (i : Nat) :
    (updateStateObjectAt w s i).2.2.params = some (paramsVal w s) := by
  unfold updateStateObjectAt
  dsimp only
  split
  · exact GetParams_params w s
  · split
    · exact GetParams_params w s
    · show (GetParams w s).2.params = some (paramsVal w s)
      exact GetParams_params w s

theorem emptyObj_keccak (w w2 : World) (d : String) (o : StateObj)
    (h : w2.keccak = w.keccak) : StateObj.emptyObj w2 d o = StateObj.emptyObj w d o := by
  unfold StateObj.emptyObj
  rw [h]


theorem updateStateObjectAt_success (w : World) (s : CommitStateDB) (i : Nat)
    (h : (updateStateObjectAt w s i).1 = none) :
    ∃ acc, (updateStateObjectAt w s i).2.1.accounts (getEntry s i).so.account.addr = some acc ∧
      acc.addr = (getEntry s i).so.account.addr ∧
      acc.seq = (getEntry s i).so.account.seq ∧
      acc.codeHash = (getEntry s i).so.account.codeHash ∧
      acc.coins (paramsVal w s).evmDenom =
        (getEntry s i).so.account.coins (paramsVal w s).evmDenom := by
  have hG : getEntry (GetParams w s).2 i = getEntry s i := getEntry_GetParams w s i
  unfold updateStateObjectAt at h ⊢
  dsimp only at h ⊢
  split at h
  · exact absurd h (by simp)
  · rename_i hc1
    split at h
    · exact absurd h (by simp)
    · rename_i hc2
      rw [if_neg hc1, if_neg hc2]
      dsimp only
      rw [hG, GetParams_fst]
      rw [if_pos rfl]
      refine ⟨_, rfl, rfl, rfl, rfl, ?_⟩
      show (if (getEntry s i).so.account.coins (paramsVal w s).evmDenom = 0 ∨
            (getEntry s i).so.account.coins (paramsVal w s).evmDenom ≠
              (getEntry s i).so.balance (paramsVal w s).evmDenom then
            fun e => if e = (paramsVal w s).evmDenom then
              (getEntry s i).so.account.coins e + (getEntry s i).so.balance (paramsVal w s).evmDenom
            else (getEntry s i).so.account.coins e
          else (getEntry s i).so.account.coins) (paramsVal w s).evmDenom =
          (getEntry s i).so.account.coins (paramsVal w s).evmDenom
      have hba : (getEntry s i).so.balance (paramsVal w s).evmDenom =
          (getEntry s i).so.account.coins (paramsVal w s).evmDenom := rfl
      by_cases hbal : (getEntry s i).so.account.coins (paramsVal w s).evmDenom = 0
      · rw [if_pos (Or.inl hbal)]
        rw [if_pos rfl, hba, hbal]
        rfl
      · rw [if_neg ?hcond]
        case hcond =>
          intro hor
          rcases hor with h1 | h2
          · exact hbal h1
          · exact h2 hba.symm


theorem deleteStateObjectAt_skel (w : World) (s : CommitStateDB) (j k : Nat) :
    (getEntry (deleteStateObjectAt w s j).2 k).address = (getEntry s k).address ∧
    (getEntry (deleteStateObjectAt w s j).2 k).so.account.addr =
      (getEntry s k).so.account.addr ∧
    (getEntry (deleteStateObjectAt w s j).2 k).so.account.codeHash =
      (getEntry s k).so.account.codeHash ∧
    (getEntry (deleteStateObjectAt w s j).2 k).so.code = (getEntry s k).so.code :=
  skel_of_set s j k _ rfl rfl rfl rfl

theorem commitLoop_accounts_frame (b : Bool) :
    ∀ (idxs : List Nat) (w : World) (s : CommitStateDB) (A : Addr) (V : Option Account),
      w.accounts A = V →
      (∀ j ∈ idxs, j < s.stateObjects.length) →
      (∀ j ∈ idxs, (getEntry s j).so.account.addr ≠ A) →
      (commitLoop b w s idxs).2.1.accounts A = V := by
  intro idxs
  induction idxs with
  | nil =>
      intro w s A V hV _ _
      exact hV
  | cons j rest ih =>
      intro w s A V hV hlen hA
      have hAj : (getEntry s j).so.account.addr ≠ A := hA j (List.mem_cons_self j rest)
      have hAj2 : (getEntry (GetParams w s).2 j).so.account.addr ≠ A := by
        rw [getEntry_GetParams]
        exact hAj
      unfold commitLoop
      dsimp only
      split
      · refine ih _ _ A V ?_ ?_ ?_
        · rw [deleteStateObjectAt_accounts, if_neg (fun hc => hAj hc.symm)]
          exact hV
        · intro k hk
          show k < (deleteStateObjectAt w s j).2.stateObjects.length
          rw [deleteStateObjectAt_stateObjects, List.length_set]
          exact hlen k (List.mem_cons_of_mem j hk)
        · intro k hk
          show (getEntry (deleteStateObjectAt w s j).2 k).so.account.addr ≠ A
          rw [(deleteStateObjectAt_skel w s j k).2.1]
          exact hA k (List.mem_cons_of_mem j hk)
      · split
        · split
          · refine ih _ _ A V ?_ ?_ ?_
            · rw [deleteStateObjectAt_accounts, if_neg (fun hc => hAj2 hc.symm)]
              exact hV
            · intro k hk
              show k < (deleteStateObjectAt w (GetParams w s).2 j).2.stateObjects.length
              rw [deleteStateObjectAt_stateObjects, List.length_set, GetParams_stateObjects]
              exact hlen k (List.mem_cons_of_mem j hk)
            · intro k hk
              show (getEntry (deleteStateObjectAt w (GetParams w s).2 j).2 k).so.account.addr ≠ A
              rw [(deleteStateObjectAt_skel w (GetParams w s).2 j k).2.1, getEntry_GetParams]
              exact hA k (List.mem_cons_of_mem j hk)
          · by_cases hcB : ((getEntry s j).so.code.isSome && (getEntry s j).so.dirtyCode) = true
            · rw [if_pos hcB, if_pos hcB]
              have hset : (getEntry
                  { (GetParams w s).2 with
                      stateObjects :=
                        (GetParams w s).2.stateObjects.set j
                          { address := (getEntry s j).address,
                            so := { (getEntry s j).so with dirtyCode := false } } }
                  j).so.account.addr ≠ A := by
                show (((GetParams w s).2.stateObjects.set j _).getD j dummyEntry).so.account.addr ≠ A
                rw [(skel_of_set (GetParams w s).2 j j
                  { address := (getEntry s j).address,
                    so := { (getEntry s j).so with dirtyCode := false } }
                  (by rw [getEntry_GetParams]) (by rw [getEntry_GetParams])
                  (by rw [getEntry_GetParams]) (by rw [getEntry_GetParams])).2.1]
                exact hAj2
              split
              · show (updateStateObjectAt _ _ j).2.1.accounts A = V
                rw [updateStateObjectAt_accounts_ne _ _ j A hset, commitCodeAt_accounts]
                exact hV
              · refine ih _ _ A V ?_ ?_ ?_
                · show (updateStateObjectAt _ _ j).2.1.accounts A = V
                  rw [updateStateObjectAt_accounts_ne _ _ j A hset, commitCodeAt_accounts]
                  exact hV
                · intro k hk
                  show k < (updateStateObjectAt _ _ j).2.2.stateObjects.length
                  rw [updateStateObjectAt_len]
                  show k < ((GetParams w s).2.stateObjects.set j _).length
                  rw [List.length_set, GetParams_stateObjects]
                  exact hlen k (List.mem_cons_of_mem j hk)
                · intro k hk
                  show (getEntry (updateStateObjectAt _ _ j).2.2 k).so.account.addr ≠ A
                  rw [(updateStateObjectAt_skel _ _ j k).2.1]
                  show (((GetParams w s).2.stateObjects.set j _).getD k dummyEntry).so.account.addr ≠ A
                  rw [(skel_of_set (GetParams w s).2 j k
                    { address := (getEntry s j).address,
                      so := { (getEntry s j).so with dirtyCode := false } }
                    (by rw [getEntry_GetParams]) (by rw [getEntry_GetParams])
                    (by rw [getEntry_GetParams]) (by rw [getEntry_GetParams])).2.1,
                    getEntry_GetParams]
                  exact hA k (List.mem_cons_of_mem j hk)
            · rw [if_neg hcB, if_neg hcB]
              split
              · show (updateStateObjectAt _ _ j).2.1.accounts A = V
                rw [updateStateObjectAt_accounts_ne _ _ j A hAj2]
                exact hV
              · refine ih _ _ A V ?_ ?_ ?_
                · show (updateStateObjectAt _ _ j).2.1.accounts A = V
                  rw [updateStateObjectAt_accounts_ne _ _ j A hAj2]
                  exact hV
                · intro k hk
                  show k < (updateStateObjectAt _ _ j).2.2.stateObjects.length
                  rw [updateStateObjectAt_len, GetParams_stateObjects]
                  exact hlen k (List.mem_cons_of_mem j hk)
                · intro k hk
                  show (getEntry (updateStateObjectAt _ _ j).2.2 k).so.account.addr ≠ A
                  rw [(updateStateObjectAt_skel _ _ j k).2.1, getEntry_GetParams]
                  exact hA k (List.mem_cons_of_mem j hk)
        · refine ih _ _ A V hV ?_ ?_
          · intro k hk
            show k < s.stateObjects.length
            exact hlen k (List.mem_cons_of_mem j hk)
          · intro k hk
            show (getEntry s k).so.account.addr ≠ A
            exact hA k (List.mem_cons_of_mem j hk)


theorem commitLoop_codeStore_frame (b : Bool) :
    ∀ (idxs : List Nat) (w : World) (s : CommitStateDB) (H : Hash) (V : List Nat),
      w.codeStore H = V →
      (∀ j ∈ idxs, j < s.stateObjects.length) →
      (∀ j ∈ idxs, (getEntry s j).so.account.codeHash = H →
        (getEntry s j).so.code.getD [] = V) →
      (commitLoop b w s idxs).2.1.codeStore H = V := by
  intro idxs
  induction idxs with
  | nil =>
      intro w s H V hV _ _
      exact hV
  | cons j rest ih =>
      intro w s H V hV hlen hcode
      unfold commitLoop
      dsimp only
      split
      · refine ih _ _ H V ?_ ?_ ?_
        · show (deleteStateObjectAt w s j).1.codeStore H = V
          rw [deleteStateObjectAt_codeStore]
          exact hV
        · intro k hk
          show k < (deleteStateObjectAt w s j).2.stateObjects.length
          rw [deleteStateObjectAt_stateObjects, List.length_set]
          exact hlen k (List.mem_cons_of_mem j hk)
        · intro k hk heq
          show (getEntry (deleteStateObjectAt w s j).2 k).so.code.getD [] = V
          rw [(deleteStateObjectAt_skel w s j k).2.2.2]
          refine hcode k (List.mem_cons_of_mem j hk) ?_
          rw [← (deleteStateObjectAt_skel w s j k).2.2.1]
          exact heq
      · split
        · split
          · refine ih _ _ H V ?_ ?_ ?_
            · show (deleteStateObjectAt w (GetParams w s).2 j).1.codeStore H = V
              rw [deleteStateObjectAt_codeStore]
              exact hV
            · intro k hk
              show k < (deleteStateObjectAt w (GetParams w s).2 j).2.stateObjects.length
              rw [deleteStateObjectAt_stateObjects, List.length_set, GetParams_stateObjects]
              exact hlen k (List.mem_cons_of_mem j hk)
            · intro k hk heq
              show (getEntry (deleteStateObjectAt w (GetParams w s).2 j).2 k).so.code.getD [] = V
              rw [(deleteStateObjectAt_skel w (GetParams w s).2 j k).2.2.2, getEntry_GetParams]
              refine hcode k (List.mem_cons_of_mem j hk) ?_
              rw [← getEntry_GetParams w s k, ← (deleteStateObjectAt_skel w (GetParams w s).2 j k).2.2.1]
              exact heq
          · by_cases hcB : ((getEntry s j).so.code.isSome && (getEntry s j).so.dirtyCode) = true
            · rw [if_pos hcB, if_pos hcB]
              have hw1 : (commitCodeAt w (GetParams w s).2 j).codeStore H = V := by
                rw [commitCodeAt_codeStore, getEntry_GetParams]
                by_cases hH : H = (getEntry s j).so.account.codeHash
                · rw [if_pos hH]
                  exact hcode j (List.mem_cons_self j rest) hH.symm
                · rw [if_neg hH]
                  exact hV
              split
              · show (updateStateObjectAt _ _ j).2.1.codeStore H = V
                rw [updateStateObjectAt_world_codeStore]
                exact hw1
              · refine ih _ _ H V ?_ ?_ ?_
                · show (updateStateObjectAt _ _ j).2.1.codeStore H = V
                  rw [updateStateObjectAt_world_codeStore]
                  exact hw1
                · intro k hk
                  show k < (updateStateObjectAt _ _ j).2.2.stateObjects.length
                  rw [updateStateObjectAt_len]
                  show k < ((GetParams w s).2.stateObjects.set j _).length
                  rw [List.length_set, GetParams_stateObjects]
                  exact hlen k (List.mem_cons_of_mem j hk)
                · intro k hk heq
                  show (getEntry (updateStateObjectAt _ _ j).2.2 k).so.code.getD [] = V
                  rw [(updateStateObjectAt_skel _ _ j k).2.2.2]
                  show (((GetParams w s).2.stateObjects.set j _).getD k dummyEntry).so.code.getD [] = V
                  rw [(skel_of_set (GetParams w s).2 j k
                    { address := (getEntry s j).address,
                      so := { (getEntry s j).so with dirtyCode := false } }
                    (by rw [getEntry_GetParams]) (by rw [getEntry_GetParams])
                    (by rw [getEntry_GetParams]) (by rw [getEntry_GetParams])).2.2.2,
                    getEntry_GetParams]
                  refine hcode k (List.mem_cons_of_mem j hk) ?_
                  change (getEntry (updateStateObjectAt _ _ j).2.2 k).so.account.codeHash = H
                    at heq
                  rw [(updateStateObjectAt_skel _ _ j k).2.2.1] at heq
                  change (((GetParams w s).2.stateObjects.set j _).getD k
                    dummyEntry).so.account.codeHash = H at heq
                  rw [(skel_of_set (GetParams w s).2 j k
                    { address := (getEntry s j).address,
                      so := { (getEntry s j).so with dirtyCode := false } }
                    (by rw [getEntry_GetParams]) (by rw [getEntry_GetParams])
                    (by rw [getEntry_GetParams]) (by rw [getEntry_GetParams])).2.2.1,
                    getEntry_GetParams] at heq
                  exact heq
            · rw [if_neg hcB, if_neg hcB]
              split
              · show (updateStateObjectAt _ _ j).2.1.codeStore H = V
                rw [updateStateObjectAt_world_codeStore]
                exact hV
              · refine ih _ _ H V ?_ ?_ ?_
                · show (updateStateObjectAt _ _ j).2.1.codeStore H = V
                  rw [updateStateObjectAt_world_codeStore]
                  exact hV
                · intro k hk
                  show k < (updateStateObjectAt _ _ j).2.2.stateObjects.length
                  rw [updateStateObjectAt_len, GetParams_stateObjects]
                  exact hlen k (List.mem_cons_of_mem j hk)
                · intro k hk heq
                  show (getEntry (updateStateObjectAt _ _ j).2.2 k).so.code.getD [] = V
                  rw [(updateStateObjectAt_skel _ _ j k).2.2.2, getEntry_GetParams]
                  refine hcode k (List.mem_cons_of_mem j hk) ?_
                  change (getEntry (updateStateObjectAt _ _ j).2.2 k).so.account.codeHash = H
                    at heq
                  rw [(updateStateObjectAt_skel _ _ j k).2.2.1, getEntry_GetParams] at heq
                  exact heq
        · refine ih _ _ H V hV ?_ ?_
          · intro k hk
            show k < s.stateObjects.length
            exact hlen k (List.mem_cons_of_mem j hk)
          · intro k hk heq
            show (getEntry s k).so.code.getD [] = V
            refine hcode k (List.mem_cons_of_mem j hk) ?_
            exact heq


theorem deleteStateObjectAt_entry_ne (w : World) (s : CommitStateDB) (j k : Nat)
    (hne : j ≠ k) : getEntry (deleteStateObjectAt w s j).2 k = getEntry s k := by
  show (s.stateObjects.set j _).getD k dummyEntry = getEntry s k
  rw [listGetD_set_ne _ _ _ _ _ hne]
  rfl

theorem updateStateObjectAt_entry_ne (w : World) (s : CommitStateDB) (j k : Nat)
    (hne : j ≠ k) : getEntry (updateStateObjectAt w s j).2.2 k = getEntry s k := by
  unfold updateStateObjectAt
  dsimp only
  split
  · exact getEntry_GetParams w s k
  · split
    · exact getEntry_GetParams w s k
    · show ((GetParams w s).2.stateObjects.set j _).getD k dummyEntry = getEntry s k
      rw [listGetD_set_ne _ _ _ _ _ hne]
      exact getEntry_GetParams w s k

theorem optGetD_some {α : Type} (x y : α) : (some x).getD y = x := rfl

theorem commitLoop_spec :
    ∀ (idxs : List Nat) (w : World) (s : CommitStateDB) (i : Nat),
      i ∈ idxs →
      idxs.Nodup →
      (∀ j ∈ idxs, j < s.stateObjects.length) →
      (∀ j ∈ idxs, (getEntry s j).so.account.addr = (getEntry s j).address) →
      (∀ j ∈ idxs, ∀ k ∈ idxs, (getEntry s j).address = (getEntry s k).address → j = k) →
      (∀ j ∈ idxs, ∀ k ∈ idxs,
        (getEntry s j).so.account.codeHash = (getEntry s k).so.account.codeHash →
        (getEntry s j).so.code.getD [] = (getEntry s k).so.code.getD []) →
      (commitLoop true w s idxs).1 = none →
      ((getEntry s i).so.suicided = true ∨
          (s.stateObjectsDirty (getEntry s i).address = true ∧
            StateObj.emptyObj w (paramsVal w s).evmDenom (getEntry s i).so = true) →
        (commitLoop true w s idxs).2.1.accounts (getEntry s i).so.account.addr = none) ∧
      ((getEntry s i).so.suicided = false →
        s.stateObjectsDirty (getEntry s i).address = true →
        StateObj.emptyObj w (paramsVal w s).evmDenom (getEntry s i).so = false →
        (((getEntry s i).so.code.isSome && (getEntry s i).so.dirtyCode) = true →
          (commitLoop true w s idxs).2.1.codeStore (getEntry s i).so.account.codeHash =
            (getEntry s i).so.code.getD []) ∧
        ∃ acc,
          (commitLoop true w s idxs).2.1.accounts (getEntry s i).so.account.addr = some acc ∧
          acc.addr = (getEntry s i).so.account.addr ∧
          acc.seq = (getEntry s i).so.account.seq ∧
          acc.codeHash = (getEntry s i).so.account.codeHash ∧
          acc.coins (paramsVal w s).evmDenom =
            (getEntry s i).so.account.coins (paramsVal w s).evmDenom) := by
  intro idxs
  induction idxs with
  | nil =>
      intro w s i hmem
      exact absurd hmem (List.not_mem_nil i)
  | cons j rest ih =>
      intro w s i hmem hnd hlen haddr huniq hcode hsucc
      have hnotin : j ∉ rest := (List.nodup_cons.mp hnd).1
      have hndR : rest.Nodup := (List.nodup_cons.mp hnd).2
      rcases List.mem_cons.mp hmem with heq | hmemR
      · subst heq
        have hjm : i ∈ i :: rest := List.mem_cons_self i rest
        have hlenI : i < s.stateObjects.length := hlen i hjm
        cases hsui : (getEntry s i).so.suicided with
        | true =>
            have hstep : commitLoop true w s (i :: rest) = commitLoop true (deleteStateObjectAt w s i).1 { (deleteStateObjectAt w s i).2 with stateObjectsDirty := fun b2 => if b2 = (getEntry s i).address then false else (deleteStateObjectAt w s i).2.stateObjectsDirty b2 } rest := by
              conv_lhs => unfold commitLoop
              dsimp only
              rw [if_pos hsui]
            constructor
            · intro hyp2
              rw [hstep]
              refine commitLoop_accounts_frame true rest _ _ _ _ ?_ ?_ ?_
              · rw [deleteStateObjectAt_accounts, if_pos rfl]
              · intro k hk
                show k < (deleteStateObjectAt w s i).2.stateObjects.length
                rw [deleteStateObjectAt_stateObjects, List.length_set]
                exact hlen k (List.mem_cons_of_mem i hk)
              · intro k hk
                show (getEntry (deleteStateObjectAt w s i).2 k).so.account.addr ≠ (getEntry s i).so.account.addr
                rw [(deleteStateObjectAt_skel w s i k).2.1]
                intro hEq
                have hka : (getEntry s k).address = (getEntry s i).address := by
                  rw [← haddr k (List.mem_cons_of_mem i hk), ← haddr i hjm]
                  exact hEq
                have hki : k = i := huniq k (List.mem_cons_of_mem i hk) i hjm hka
                rw [hki] at hk
                exact hnotin hk
            · intro hs2
              exact Bool.noConfusion hs2
        | false =>
          cases hdirty : s.stateObjectsDirty (getEntry s i).address with
          | false =>
              refine ⟨fun hc => ?_, fun hx2 hd2 => ?_⟩
              · rcases hc with hc | ⟨hc, hc2⟩
                · exact Bool.noConfusion hc
                · exact Bool.noConfusion hc
              · exact Bool.noConfusion hd2
          | true =>
            cases hemp : StateObj.emptyObj w (paramsVal w s).evmDenom (getEntry s i).so with
            | true =>
                have hstep : commitLoop true w s (i :: rest) = commitLoop true (deleteStateObjectAt w (GetParams w s).2 i).1 { (deleteStateObjectAt w (GetParams w s).2 i).2 with stateObjectsDirty := fun b2 => if b2 = (getEntry s i).address then false else (deleteStateObjectAt w (GetParams w s).2 i).2.stateObjectsDirty b2 } rest := by
                  conv_lhs => unfold commitLoop
                  dsimp only
                  rw [if_neg (by rw [hsui]; exact fun hx => Bool.noConfusion hx), if_pos hdirty, if_pos (by rw [Bool.true_and, GetParams_fst]; exact hemp)]
                constructor
                · intro hyp2
                  rw [hstep]
                  refine commitLoop_accounts_frame true rest _ _ _ _ ?_ ?_ ?_
                  · rw [deleteStateObjectAt_accounts, getEntry_GetParams, if_pos rfl]
                  · intro k hk
                    show k < (deleteStateObjectAt w (GetParams w s).2 i).2.stateObjects.length
                    rw [deleteStateObjectAt_stateObjects, List.length_set, GetParams_stateObjects]
                    exact hlen k (List.mem_cons_of_mem i hk)
                  · intro k hk
                    show (getEntry (deleteStateObjectAt w (GetParams w s).2 i).2 k).so.account.addr ≠ (getEntry s i).so.account.addr
                    rw [(deleteStateObjectAt_skel w (GetParams w s).2 i k).2.1, getEntry_GetParams]
                    intro hEq
                    have hka : (getEntry s k).address = (getEntry s i).address := by
                      rw [← haddr k (List.mem_cons_of_mem i hk), ← haddr i hjm]
                      exact hEq
                    have hki : k = i := huniq k (List.mem_cons_of_mem i hk) i hjm hka
                    rw [hki] at hk
                    exact hnotin hk
                · intro hx2 hx3 hne
                  exact Bool.noConfusion hne
            | false =>
              by_cases hcB : ((getEntry s i).so.code.isSome && (getEntry s i).so.dirtyCode) = true
              · cases hu : (updateStateObjectAt (commitCodeAt w (GetParams w s).2 i) { (GetParams w s).2 with stateObjects := (GetParams w s).2.stateObjects.set i { address := (getEntry s i).address, so := { (getEntry s i).so with dirtyCode := false } } } i).1 with
                | some err =>
                    have hstep : commitLoop true w s (i :: rest) = (some err, (updateStateObjectAt (commitCodeAt w (GetParams w s).2 i) { (GetParams w s).2 with stateObjects := (GetParams w s).2.stateObjects.set i { address := (getEntry s i).address, so := { (getEntry s i).so with dirtyCode := false } } } i).2.1, (updateStateObjectAt (commitCodeAt w (GetParams w s).2 i) { (GetParams w s).2 with stateObjects := (GetParams w s).2.stateObjects.set i { address := (getEntry s i).address, so := { (getEntry s i).so with dirtyCode := false } } } i).2.2) := by
                      conv_lhs => unfold commitLoop
                      dsimp only
                      rw [if_neg (by rw [hsui]; exact fun hx => Bool.noConfusion hx), if_pos hdirty, if_neg (by rw [Bool.true_and, GetParams_fst, hemp]; exact fun hx => Bool.noConfusion hx), if_pos hcB, if_pos hcB, hu]
                    rw [hstep] at hsucc
                    exact absurd hsucc (by simp)
                | none =>
                    have hstep : commitLoop true w s (i :: rest) = commitLoop true (updateStateObjectAt (commitCodeAt w (GetParams w s).2 i) { (GetParams w s).2 with stateObjects := (GetParams w s).2.stateObjects.set i { address := (getEntry s i).address, so := { (getEntry s i).so with dirtyCode := false } } } i).2.1 { (updateStateObjectAt (commitCodeAt w (GetParams w s).2 i) { (GetParams w s).2 with stateObjects := (GetParams w s).2.stateObjects.set i { address := (getEntry s i).address, so := { (getEntry s i).so with dirtyCode := false } } } i).2.2 with stateObjectsDirty := fun b2 => if b2 = (getEntry s i).address then false else (updateStateObjectAt (commitCodeAt w (GetParams w s).2 i) { (GetParams w s).2 with stateObjects := (GetParams w s).2.stateObjects.set i { address := (getEntry s i).address, so := { (getEntry s i).so with dirtyCode := false } } } i).2.2.stateObjectsDirty b2 } rest := by
                      conv_lhs => unfold commitLoop
                      dsimp only
                      rw [if_neg (by rw [hsui]; exact fun hx => Bool.noConfusion hx), if_pos hdirty, if_neg (by rw [Bool.true_and, GetParams_fst, hemp]; exact fun hx => Bool.noConfusion hx), if_pos hcB, if_pos hcB, hu]
                    have hS1e : (getEntry { (GetParams w s).2 with stateObjects := (GetParams w s).2.stateObjects.set i { address := (getEntry s i).address, so := { (getEntry s i).so with dirtyCode := false } } } i).so.account = (getEntry s i).so.account := by
                      show (((GetParams w s).2.stateObjects.set i { address := (getEntry s i).address, so := { (getEntry s i).so with dirtyCode := false } }).getD i dummyEntry).so.account = (getEntry s i).so.account
                      rw [listGetD_set_self _ _ _ _ (by rw [GetParams_stateObjects]; exact hlenI)]
                    have hPv : paramsVal (commitCodeAt w (GetParams w s).2 i) { (GetParams w s).2 with stateObjects := (GetParams w s).2.stateObjects.set i { address := (getEntry s i).address, so := { (getEntry s i).so with dirtyCode := false } } } = paramsVal w s := by
                      unfold paramsVal
                      show ((GetParams w s).2.params).getD ((commitCodeAt w (GetParams w s).2 i).storedParams) = s.params.getD w.storedParams
                      rw [GetParams_params, commitCodeAt_storedParams, optGetD_some]
                      rfl
                    have hOK := updateStateObjectAt_success (commitCodeAt w (GetParams w s).2 i) { (GetParams w s).2 with stateObjects := (GetParams w s).2.stateObjects.set i { address := (getEntry s i).address, so := { (getEntry s i).so with dirtyCode := false } } } i hu
                    rw [hS1e, hPv] at hOK
                    obtain ⟨acc, hacc, ha1, ha2, ha3, ha4⟩ := hOK
                    refine ⟨fun hc => ?_, fun hx2 hx3 hx4 => ⟨fun hx5 => ?_, ?_⟩⟩
                    · rcases hc with hc | ⟨hc2, hc⟩
                      · exact Bool.noConfusion hc
                      · exact Bool.noConfusion hc
                    · rw [hstep]
                      refine commitLoop_codeStore_frame true rest _ _ _ _ ?_ ?_ ?_
                      · rw [updateStateObjectAt_world_codeStore, commitCodeAt_codeStore, getEntry_GetParams, if_pos rfl]
                      · intro k hk
                        show k < (updateStateObjectAt (commitCodeAt w (GetParams w s).2 i) { (GetParams w s).2 with stateObjects := (GetParams w s).2.stateObjects.set i { address := (getEntry s i).address, so := { (getEntry s i).so with dirtyCode := false } } } i).2.2.stateObjects.length
                        rw [updateStateObjectAt_len]
                        show k < ((GetParams w s).2.stateObjects.set i { address := (getEntry s i).address, so := { (getEntry s i).so with dirtyCode := false } }).length
                        rw [List.length_set, GetParams_stateObjects]
                        exact hlen k (List.mem_cons_of_mem i hk)
                      · intro k hk heqH
                        show (getEntry (updateStateObjectAt (commitCodeAt w (GetParams w s).2 i) { (GetParams w s).2 with stateObjects := (GetParams w s).2.stateObjects.set i { address := (getEntry s i).address, so := { (getEntry s i).so with dirtyCode := false } } } i).2.2 k).so.code.getD [] = (getEntry s i).so.code.getD []
                        rw [(updateStateObjectAt_skel (commitCodeAt w (GetParams w s).2 i) { (GetParams w s).2 with stateObjects := (GetParams w s).2.stateObjects.set i { address := (getEntry s i).address, so := { (getEntry s i).so with dirtyCode := false } } } i k).2.2.2]
                        show (((GetParams w s).2.stateObjects.set i { address := (getEntry s i).address, so := { (getEntry s i).so with dirtyCode := false } }).getD k dummyEntry).so.code.getD [] = (getEntry s i).so.code.getD []
                        rw [(skel_of_set (GetParams w s).2 i k { address := (getEntry s i).address, so := { (getEntry s i).so with dirtyCode := false } } (by rw [getEntry_GetParams]) (by rw [getEntry_GetParams]) (by rw [getEntry_GetParams]) (by rw [getEntry_GetParams])).2.2.2, getEntry_GetParams]
                        refine hcode k (List.mem_cons_of_mem i hk) i hjm ?_
                        change (getEntry (updateStateObjectAt (commitCodeAt w (GetParams w s).2 i) { (GetParams w s).2 with stateObjects := (GetParams w s).2.stateObjects.set i { address := (getEntry s i).address, so := { (getEntry s i).so with dirtyCode := false } } } i).2.2 k).so.account.codeHash = (getEntry s i).so.account.codeHash at heqH
                        rw [(updateStateObjectAt_skel (commitCodeAt w (GetParams w s).2 i) { (GetParams w s).2 with stateObjects := (GetParams w s).2.stateObjects.set i { address := (getEntry s i).address, so := { (getEntry s i).so with dirtyCode := false } } } i k).2.2.1] at heqH
                        change (((GetParams w s).2.stateObjects.set i { address := (getEntry s i).address, so := { (getEntry s i).so with dirtyCode := false } }).getD k dummyEntry).so.account.codeHash = (getEntry s i).so.account.codeHash at heqH
                        rw [(skel_of_set (GetParams w s).2 i k { address := (getEntry s i).address, so := { (getEntry s i).so with dirtyCode := false } } (by rw [getEntry_GetParams]) (by rw [getEntry_GetParams]) (by rw [getEntry_GetParams]) (by rw [getEntry_GetParams])).2.2.1, getEntry_GetParams] at heqH
                        exact heqH
                    · refine ⟨acc, ?_, ha1, ha2, ha3, ha4⟩
                      rw [hstep]
                      refine commitLoop_accounts_frame true rest _ _ _ _ hacc ?_ ?_
                      · intro k hk
                        show k < (updateStateObjectAt (commitCodeAt w (GetParams w s).2 i) { (GetParams w s).2 with stateObjects := (GetParams w s).2.stateObjects.set i { address := (getEntry s i).address, so := { (getEntry s i).so with dirtyCode := false } } } i).2.2.stateObjects.length
                        rw [updateStateObjectAt_len]
                        show k < ((GetParams w s).2.stateObjects.set i { address := (getEntry s i).address, so := { (getEntry s i).so with dirtyCode := false } }).length
                        rw [List.length_set, GetParams_stateObjects]
                        exact hlen k (List.mem_cons_of_mem i hk)
                      · intro k hk
                        show (getEntry (updateStateObjectAt (commitCodeAt w (GetParams w s).2 i) { (GetParams w s).2 with stateObjects := (GetParams w s).2.stateObjects.set i { address := (getEntry s i).address, so := { (getEntry s i).so with dirtyCode := false } } } i).2.2 k).so.account.addr ≠ (getEntry s i).so.account.addr
                        rw [(updateStateObjectAt_skel (commitCodeAt w (GetParams w s).2 i) { (GetParams w s).2 with stateObjects := (GetParams w s).2.stateObjects.set i { address := (getEntry s i).address, so := { (getEntry s i).so with dirtyCode := false } } } i k).2.1]
                        show (((GetParams w s).2.stateObjects.set i { address := (getEntry s i).address, so := { (getEntry s i).so with dirtyCode := false } }).getD k dummyEntry).so.account.addr ≠ (getEntry s i).so.account.addr
                        rw [(skel_of_set (GetParams w s).2 i k { address := (getEntry s i).address, so := { (getEntry s i).so with dirtyCode := false } } (by rw [getEntry_GetParams]) (by rw [getEntry_GetParams]) (by rw [getEntry_GetParams]) (by rw [getEntry_GetParams])).2.1, getEntry_GetParams]
                        intro hEq
                        have hka : (getEntry s k).address = (getEntry s i).address := by
                          rw [← haddr k (List.mem_cons_of_mem i hk), ← haddr i hjm]
                          exact hEq
                        have hki : k = i := huniq k (List.mem_cons_of_mem i hk) i hjm hka
                        rw [hki] at hk
                        exact hnotin hk
              · cases hu : (updateStateObjectAt w (GetParams w s).2 i).1 with
                | some err =>
                    have hstep : commitLoop true w s (i :: rest) = (some err, (updateStateObjectAt w (GetParams w s).2 i).2.1, (updateStateObjectAt w (GetParams w s).2 i).2.2) := by
                      conv_lhs => unfold commitLoop
                      dsimp only
                      rw [if_neg (by rw [hsui]; exact fun hx => Bool.noConfusion hx), if_pos hdirty, if_neg (by rw [Bool.true_and, GetParams_fst, hemp]; exact fun hx => Bool.noConfusion hx), if_neg hcB, if_neg hcB, hu]
                    rw [hstep] at hsucc
                    exact absurd hsucc (by simp)
                | none =>
                    have hstep : commitLoop true w s (i :: rest) = commitLoop true (updateStateObjectAt w (GetParams w s).2 i).2.1 { (updateStateObjectAt w (GetParams w s).2 i).2.2 with stateObjectsDirty := fun b2 => if b2 = (getEntry s i).address then false else (updateStateObjectAt w (GetParams w s).2 i).2.2.stateObjectsDirty b2 } rest := by
                      conv_lhs => unfold commitLoop
                      dsimp only
                      rw [if_neg (by rw [hsui]; exact fun hx => Bool.noConfusion hx), if_pos hdirty, if_neg (by rw [Bool.true_and, GetParams_fst, hemp]; exact fun hx => Bool.noConfusion hx), if_neg hcB, if_neg hcB, hu]
                    have hOK := updateStateObjectAt_success w (GetParams w s).2 i hu
                    rw [getEntry_GetParams, paramsVal_GetParams] at hOK
                    obtain ⟨acc, hacc, ha1, ha2, ha3, ha4⟩ := hOK
                    refine ⟨fun hc => ?_, fun hx2 hx3 hx4 => ⟨fun hx5 => absurd hx5 hcB, ?_⟩⟩
                    · rcases hc with hc | ⟨hc2, hc⟩
                      · exact Bool.noConfusion hc
                      · exact Bool.noConfusion hc
                    · refine ⟨acc, ?_, ha1, ha2, ha3, ha4⟩
                      rw [hstep]
                      refine commitLoop_accounts_frame true rest _ _ _ _ hacc ?_ ?_
                      · intro k hk
                        show k < (updateStateObjectAt w (GetParams w s).2 i).2.2.stateObjects.length
                        rw [updateStateObjectAt_len, GetParams_stateObjects]
                        exact hlen k (List.mem_cons_of_mem i hk)
                      · intro k hk
                        show (getEntry (updateStateObjectAt w (GetParams w s).2 i).2.2 k).so.account.addr ≠ (getEntry s i).so.account.addr
                        rw [(updateStateObjectAt_skel w (GetParams w s).2 i k).2.1, getEntry_GetParams]
                        intro hEq
                        have hka : (getEntry s k).address = (getEntry s i).address := by
                          rw [← haddr k (List.mem_cons_of_mem i hk), ← haddr i hjm]
                          exact hEq
                        have hki : k = i := huniq k (List.mem_cons_of_mem i hk) i hjm hka
                        rw [hki] at hk
                        exact hnotin hk
      · have hjm : j ∈ j :: rest := List.mem_cons_self j rest
        have hji : j ≠ i := fun hx => hnotin (by rw [hx]; exact hmemR)
        have hijaddr : (getEntry s i).address ≠ (getEntry s j).address := by
          intro hx
          exact hji (huniq j hjm i (List.mem_cons_of_mem j hmemR) hx.symm)
        cases hs1 : (getEntry s j).so.suicided with
        | true =>
            have hstep : commitLoop true w s (j :: rest) = commitLoop true (deleteStateObjectAt w s j).1 { (deleteStateObjectAt w s j).2 with stateObjectsDirty := fun b2 => if b2 = (getEntry s j).address then false else (deleteStateObjectAt w s j).2.stateObjectsDirty b2 } rest := by
              conv_lhs => unfold commitLoop
              dsimp only
              rw [if_pos hs1]
            have hskel : ∀ k, (getEntry { (deleteStateObjectAt w s j).2 with stateObjectsDirty := fun b2 => if b2 = (getEntry s j).address then false else (deleteStateObjectAt w s j).2.stateObjectsDirty b2 } k).address = (getEntry s k).address ∧ (getEntry { (deleteStateObjectAt w s j).2 with stateObjectsDirty := fun b2 => if b2 = (getEntry s j).address then false else (deleteStateObjectAt w s j).2.stateObjectsDirty b2 } k).so.account.addr = (getEntry s k).so.account.addr ∧ (getEntry { (deleteStateObjectAt w s j).2 with stateObjectsDirty := fun b2 => if b2 = (getEntry s j).address then false else (deleteStateObjectAt w s j).2.stateObjectsDirty b2 } k).so.account.codeHash = (getEntry s k).so.account.codeHash ∧ (getEntry { (deleteStateObjectAt w s j).2 with stateObjectsDirty := fun b2 => if b2 = (getEntry s j).address then false else (deleteStateObjectAt w s j).2.stateObjectsDirty b2 } k).so.code = (getEntry s k).so.code := fun k => deleteStateObjectAt_skel w s j k
            have hLenEq : ({ (deleteStateObjectAt w s j).2 with stateObjectsDirty := fun b2 => if b2 = (getEntry s j).address then false else (deleteStateObjectAt w s j).2.stateObjectsDirty b2 }).stateObjects.length = s.stateObjects.length := by
              show (s.stateObjects.set j _).length = s.stateObjects.length
              rw [List.length_set]
            have hEi : getEntry { (deleteStateObjectAt w s j).2 with stateObjectsDirty := fun b2 => if b2 = (getEntry s j).address then false else (deleteStateObjectAt w s j).2.stateObjectsDirty b2 } i = getEntry s i := deleteStateObjectAt_entry_ne w s j i hji
            have hD : ({ (deleteStateObjectAt w s j).2 with stateObjectsDirty := fun b2 => if b2 = (getEntry s j).address then false else (deleteStateObjectAt w s j).2.stateObjectsDirty b2 }).stateObjectsDirty (getEntry s i).address = s.stateObjectsDirty (getEntry s i).address := by
              show (if (getEntry s i).address = (getEntry s j).address then false else (deleteStateObjectAt w s j).2.stateObjectsDirty (getEntry s i).address) = s.stateObjectsDirty (getEntry s i).address
              rw [if_neg hijaddr, deleteStateObjectAt_dirtyFlags]
            have hPv2 : paramsVal (deleteStateObjectAt w s j).1 { (deleteStateObjectAt w s j).2 with stateObjectsDirty := fun b2 => if b2 = (getEntry s j).address then false else (deleteStateObjectAt w s j).2.stateObjectsDirty b2 } = paramsVal w s := by
              unfold paramsVal
              show ((deleteStateObjectAt w s j).2.params).getD ((deleteStateObjectAt w s j).1.storedParams) = s.params.getD w.storedParams
              rw [deleteStateObjectAt_params, deleteStateObjectAt_storedParams]
            have hk2 : ((deleteStateObjectAt w s j).1).keccak = w.keccak := deleteStateObjectAt_keccak w s j
            have hempEq : StateObj.emptyObj (deleteStateObjectAt w s j).1 (paramsVal w s).evmDenom (getEntry s i).so = StateObj.emptyObj w (paramsVal w s).evmDenom (getEntry s i).so := emptyObj_keccak w (deleteStateObjectAt w s j).1 (paramsVal w s).evmDenom (getEntry s i).so hk2
            have hlen2 : ∀ k ∈ rest, k < ({ (deleteStateObjectAt w s j).2 with stateObjectsDirty := fun b2 => if b2 = (getEntry s j).address then false else (deleteStateObjectAt w s j).2.stateObjectsDirty b2 }).stateObjects.length := by
              intro k hk
              rw [hLenEq]
              exact hlen k (List.mem_cons_of_mem j hk)
            have haddr2 : ∀ k ∈ rest, (getEntry { (deleteStateObjectAt w s j).2 with stateObjectsDirty := fun b2 => if b2 = (getEntry s j).address then false else (deleteStateObjectAt w s j).2.stateObjectsDirty b2 } k).so.account.addr = (getEntry { (deleteStateObjectAt w s j).2 with stateObjectsDirty := fun b2 => if b2 = (getEntry s j).address then false else (deleteStateObjectAt w s j).2.stateObjectsDirty b2 } k).address := by
              intro k hk
              rw [(hskel k).2.1, (hskel k).1]
              exact haddr k (List.mem_cons_of_mem j hk)
            have huniq2 : ∀ k ∈ rest, ∀ m ∈ rest, (getEntry { (deleteStateObjectAt w s j).2 with stateObjectsDirty := fun b2 => if b2 = (getEntry s j).address then false else (deleteStateObjectAt w s j).2.stateObjectsDirty b2 } k).address = (getEntry { (deleteStateObjectAt w s j).2 with stateObjectsDirty := fun b2 => if b2 = (getEntry s j).address then false else (deleteStateObjectAt w s j).2.stateObjectsDirty b2 } m).address → k = m := by
              intro k hk m hm hEq2
              refine huniq k (List.mem_cons_of_mem j hk) m (List.mem_cons_of_mem j hm) ?_
              rw [← (hskel k).1, ← (hskel m).1]
              exact hEq2
            have hcode2 : ∀ k ∈ rest, ∀ m ∈ rest, (getEntry { (deleteStateObjectAt w s j).2 with stateObjectsDirty := fun b2 => if b2 = (getEntry s j).address then false else (deleteStateObjectAt w s j).2.stateObjectsDirty b2 } k).so.account.codeHash = (getEntry { (deleteStateObjectAt w s j).2 with stateObjectsDirty := fun b2 => if b2 = (getEntry s j).address then false else (deleteStateObjectAt w s j).2.stateObjectsDirty b2 } m).so.account.codeHash → (getEntry { (deleteStateObjectAt w s j).2 with stateObjectsDirty := fun b2 => if b2 = (getEntry s j).address then false else (deleteStateObjectAt w s j).2.stateObjectsDirty b2 } k).so.code.getD [] = (getEntry { (deleteStateObjectAt w s j).2 with stateObjectsDirty := fun b2 => if b2 = (getEntry s j).address then false else (deleteStateObjectAt w s j).2.stateObjectsDirty b2 } m).so.code.getD [] := by
              intro k hk m hm hEq2
              rw [(hskel k).2.2.2, (hskel m).2.2.2]
              refine hcode k (List.mem_cons_of_mem j hk) m (List.mem_cons_of_mem j hm) ?_
              rw [← (hskel k).2.2.1, ← (hskel m).2.2.1]
              exact hEq2
            rw [hstep] at hsucc
            have hmain := ih (deleteStateObjectAt w s j).1 { (deleteStateObjectAt w s j).2 with stateObjectsDirty := fun b2 => if b2 = (getEntry s j).address then false else (deleteStateObjectAt w s j).2.stateObjectsDirty b2 } i hmemR hndR hlen2 haddr2 huniq2 hcode2 hsucc
            rw [hEi, hPv2, hD, hempEq] at hmain
            rw [hstep]
            exact hmain
        | false =>
          cases hd1 : s.stateObjectsDirty (getEntry s j).address with
          | false =>
              have hstep : commitLoop true w s (j :: rest) = commitLoop true w { s with stateObjectsDirty := fun b2 => if b2 = (getEntry s j).address then false else s.stateObjectsDirty b2 } rest := by
                conv_lhs => unfold commitLoop
                dsimp only
                rw [if_neg (by rw [hs1]; exact fun hx => Bool.noConfusion hx), if_neg (by rw [hd1]; exact fun hx => Bool.noConfusion hx)]
              have hskel : ∀ k, (getEntry { s with stateObjectsDirty := fun b2 => if b2 = (getEntry s j).address then false else s.stateObjectsDirty b2 } k).address = (getEntry s k).address ∧ (getEntry { s with stateObjectsDirty := fun b2 => if b2 = (getEntry s j).address then false else s.stateObjectsDirty b2 } k).so.account.addr = (getEntry s k).so.account.addr ∧ (getEntry { s with stateObjectsDirty := fun b2 => if b2 = (getEntry s j).address then false else s.stateObjectsDirty b2 } k).so.account.codeHash = (getEntry s k).so.account.codeHash ∧ (getEntry { s with stateObjectsDirty := fun b2 => if b2 = (getEntry s j).address then false else s.stateObjectsDirty b2 } k).so.code = (getEntry s k).so.code := fun k => ⟨rfl, rfl, rfl, rfl⟩
              have hLenEq : ({ s with stateObjectsDirty := fun b2 => if b2 = (getEntry s j).address then false else s.stateObjectsDirty b2 }).stateObjects.length = s.stateObjects.length := rfl
              have hEi : getEntry { s with stateObjectsDirty := fun b2 => if b2 = (getEntry s j).address then false else s.stateObjectsDirty b2 } i = getEntry s i := rfl
              have hD : ({ s with stateObjectsDirty := fun b2 => if b2 = (getEntry s j).address then false else s.stateObjectsDirty b2 }).stateObjectsDirty (getEntry s i).address = s.stateObjectsDirty (getEntry s i).address := by
                show (if (getEntry s i).address = (getEntry s j).address then false else s.stateObjectsDirty (getEntry s i).address) = s.stateObjectsDirty (getEntry s i).address
                rw [if_neg hijaddr]
              have hPv2 : paramsVal w { s with stateObjectsDirty := fun b2 => if b2 = (getEntry s j).address then false else s.stateObjectsDirty b2 } = paramsVal w s := rfl
              have hlen2 : ∀ k ∈ rest, k < ({ s with stateObjectsDirty := fun b2 => if b2 = (getEntry s j).address then false else s.stateObjectsDirty b2 }).stateObjects.length := by
                intro k hk
                rw [hLenEq]
                exact hlen k (List.mem_cons_of_mem j hk)
              have haddr2 : ∀ k ∈ rest, (getEntry { s with stateObjectsDirty := fun b2 => if b2 = (getEntry s j).address then false else s.stateObjectsDirty b2 } k).so.account.addr = (getEntry { s with stateObjectsDirty := fun b2 => if b2 = (getEntry s j).address then false else s.stateObjectsDirty b2 } k).address := by
                intro k hk
                rw [(hskel k).2.1, (hskel k).1]
                exact haddr k (List.mem_cons_of_mem j hk)
              have huniq2 : ∀ k ∈ rest, ∀ m ∈ rest, (getEntry { s with stateObjectsDirty := fun b2 => if b2 = (getEntry s j).address then false else s.stateObjectsDirty b2 } k).address = (getEntry { s with stateObjectsDirty := fun b2 => if b2 = (getEntry s j).address then false else s.stateObjectsDirty b2 } m).address → k = m := by
                intro k hk m hm hEq2
                refine huniq k (List.mem_cons_of_mem j hk) m (List.mem_cons_of_mem j hm) ?_
                rw [← (hskel k).1, ← (hskel m).1]
                exact hEq2
              have hcode2 : ∀ k ∈ rest, ∀ m ∈ rest, (getEntry { s with stateObjectsDirty := fun b2 => if b2 = (getEntry s j).address then false else s.stateObjectsDirty b2 } k).so.account.codeHash = (getEntry { s with stateObjectsDirty := fun b2 => if b2 = (getEntry s j).address then false else s.stateObjectsDirty b2 } m).so.account.codeHash → (getEntry { s with stateObjectsDirty := fun b2 => if b2 = (getEntry s j).address then false else s.stateObjectsDirty b2 } k).so.code.getD [] = (getEntry { s with stateObjectsDirty := fun b2 => if b2 = (getEntry s j).address then false else s.stateObjectsDirty b2 } m).so.code.getD [] := by
                intro k hk m hm hEq2
                rw [(hskel k).2.2.2, (hskel m).2.2.2]
                refine hcode k (List.mem_cons_of_mem j hk) m (List.mem_cons_of_mem j hm) ?_
                rw [← (hskel k).2.2.1, ← (hskel m).2.2.1]
                exact hEq2
              rw [hstep] at hsucc
              have hmain := ih w { s with stateObjectsDirty := fun b2 => if b2 = (getEntry s j).address then false else s.stateObjectsDirty b2 } i hmemR hndR hlen2 haddr2 huniq2 hcode2 hsucc
              rw [hEi, hPv2, hD] at hmain
              rw [hstep]
              exact hmain
          | true =>
            cases he1 : StateObj.emptyObj w (paramsVal w s).evmDenom (getEntry s j).so with
            | true =>
                have hstep : commitLoop true w s (j :: rest) = commitLoop true (deleteStateObjectAt w (GetParams w s).2 j).1 { (deleteStateObjectAt w (GetParams w s).2 j).2 with stateObjectsDirty := fun b2 => if b2 = (getEntry s j).address then false else (deleteStateObjectAt w (GetParams w s).2 j).2.stateObjectsDirty b2 } rest := by
                  conv_lhs => unfold commitLoop
                  dsimp only
                  rw [if_neg (by rw [hs1]; exact fun hx => Bool.noConfusion hx), if_pos hd1, if_pos (by rw [Bool.true_and, GetParams_fst]; exact he1)]
                have hskel : ∀ k, (getEntry { (deleteStateObjectAt w (GetParams w s).2 j).2 with stateObjectsDirty := fun b2 => if b2 = (getEntry s j).address then false else (deleteStateObjectAt w (GetParams w s).2 j).2.stateObjectsDirty b2 } k).address = (getEntry s k).address ∧ (getEntry { (deleteStateObjectAt w (GetParams w s).2 j).2 with stateObjectsDirty := fun b2 => if b2 = (getEntry s j).address then false else (deleteStateObjectAt w (GetParams w s).2 j).2.stateObjectsDirty b2 } k).so.account.addr = (getEntry s k).so.account.addr ∧ (getEntry { (deleteStateObjectAt w (GetParams w s).2 j).2 with stateObjectsDirty := fun b2 => if b2 = (getEntry s j).address then false else (deleteStateObjectAt w (GetParams w s).2 j).2.stateObjectsDirty b2 } k).so.account.codeHash = (getEntry s k).so.account.codeHash ∧ (getEntry { (deleteStateObjectAt w (GetParams w s).2 j).2 with stateObjectsDirty := fun b2 => if b2 = (getEntry s j).address then false else (deleteStateObjectAt w (GetParams w s).2 j).2.stateObjectsDirty b2 } k).so.code = (getEntry s k).so.code := by
                  intro k
                  refine ⟨?_, ?_, ?_, ?_⟩
                  · show (getEntry (deleteStateObjectAt w (GetParams w s).2 j).2 k).address = (getEntry s k).address
                    rw [(deleteStateObjectAt_skel w (GetParams w s).2 j k).1, getEntry_GetParams]
                  · show (getEntry (deleteStateObjectAt w (GetParams w s).2 j).2 k).so.account.addr = (getEntry s k).so.account.addr
                    rw [(deleteStateObjectAt_skel w (GetParams w s).2 j k).2.1, getEntry_GetParams]
                  · show (getEntry (deleteStateObjectAt w (GetParams w s).2 j).2 k).so.account.codeHash = (getEntry s k).so.account.codeHash
                    rw [(deleteStateObjectAt_skel w (GetParams w s).2 j k).2.2.1, getEntry_GetParams]
                  · show (getEntry (deleteStateObjectAt w (GetParams w s).2 j).2 k).so.code = (getEntry s k).so.code
                    rw [(deleteStateObjectAt_skel w (GetParams w s).2 j k).2.2.2, getEntry_GetParams]
                have hLenEq : ({ (deleteStateObjectAt w (GetParams w s).2 j).2 with stateObjectsDirty := fun b2 => if b2 = (getEntry s j).address then false else (deleteStateObjectAt w (GetParams w s).2 j).2.stateObjectsDirty b2 }).stateObjects.length = s.stateObjects.length := by
                  show ((GetParams w s).2.stateObjects.set j _).length = s.stateObjects.length
                  rw [List.length_set, GetParams_stateObjects]
                have hEi : getEntry { (deleteStateObjectAt w (GetParams w s).2 j).2 with stateObjectsDirty := fun b2 => if b2 = (getEntry s j).address then false else (deleteStateObjectAt w (GetParams w s).2 j).2.stateObjectsDirty b2 } i = getEntry s i := (deleteStateObjectAt_entry_ne w (GetParams w s).2 j i hji).trans (getEntry_GetParams w s i)
                have hD : ({ (deleteStateObjectAt w (GetParams w s).2 j).2 with stateObjectsDirty := fun b2 => if b2 = (getEntry s j).address then false else (deleteStateObjectAt w (GetParams w s).2 j).2.stateObjectsDirty b2 }).stateObjectsDirty (getEntry s i).address = s.stateObjectsDirty (getEntry s i).address := by
                  show (if (getEntry s i).address = (getEntry s j).address then false else (deleteStateObjectAt w (GetParams w s).2 j).2.stateObjectsDirty (getEntry s i).address) = s.stateObjectsDirty (getEntry s i).address
                  rw [if_neg hijaddr, deleteStateObjectAt_dirtyFlags, GetParams_dirtyFlags]
                have hPv2 : paramsVal (deleteStateObjectAt w (GetParams w s).2 j).1 { (deleteStateObjectAt w (GetParams w s).2 j).2 with stateObjectsDirty := fun b2 => if b2 = (getEntry s j).address then false else (deleteStateObjectAt w (GetParams w s).2 j).2.stateObjectsDirty b2 } = paramsVal w s := by
                  unfold paramsVal
                  show ((deleteStateObjectAt w (GetParams w s).2 j).2.params).getD ((deleteStateObjectAt w (GetParams w s).2 j).1.storedParams) = s.params.getD w.storedParams
                  rw [deleteStateObjectAt_params, deleteStateObjectAt_storedParams, GetParams_params, optGetD_some]
                  rfl
                have hk2 : ((deleteStateObjectAt w (GetParams w s).2 j).1).keccak = w.keccak := deleteStateObjectAt_keccak w (GetParams w s).2 j
                have hempEq : StateObj.emptyObj (deleteStateObjectAt w (GetParams w s).2 j).1 (paramsVal w s).evmDenom (getEntry s i).so = StateObj.emptyObj w (paramsVal w s).evmDenom (getEntry s i).so := emptyObj_keccak w (deleteStateObjectAt w (GetParams w s).2 j).1 (paramsVal w s).evmDenom (getEntry s i).so hk2
                have hlen2 : ∀ k ∈ rest, k < ({ (deleteStateObjectAt w (GetParams w s).2 j).2 with stateObjectsDirty := fun b2 => if b2 = (getEntry s j).address then false else (deleteStateObjectAt w (GetParams w s).2 j).2.stateObjectsDirty b2 }).stateObjects.length := by
                  intro k hk
                  rw [hLenEq]
                  exact hlen k (List.mem_cons_of_mem j hk)
                have haddr2 : ∀ k ∈ rest, (getEntry { (deleteStateObjectAt w (GetParams w s).2 j).2 with stateObjectsDirty := fun b2 => if b2 = (getEntry s j).address then false else (deleteStateObjectAt w (GetParams w s).2 j).2.stateObjectsDirty b2 } k).so.account.addr = (getEntry { (deleteStateObjectAt w (GetParams w s).2 j).2 with stateObjectsDirty := fun b2 => if b2 = (getEntry s j).address then false else (deleteStateObjectAt w (GetParams w s).2 j).2.stateObjectsDirty b2 } k).address := by
                  intro k hk
                  rw [(hskel k).2.1, (hskel k).1]
                  exact haddr k (List.mem_cons_of_mem j hk)
                have huniq2 : ∀ k ∈ rest, ∀ m ∈ rest, (getEntry { (deleteStateObjectAt w (GetParams w s).2 j).2 with stateObjectsDirty := fun b2 => if b2 = (getEntry s j).address then false else (deleteStateObjectAt w (GetParams w s).2 j).2.stateObjectsDirty b2 } k).address = (getEntry { (deleteStateObjectAt w (GetParams w s).2 j).2 with stateObjectsDirty := fun b2 => if b2 = (getEntry s j).address then false else (deleteStateObjectAt w (GetParams w s).2 j).2.stateObjectsDirty b2 } m).address → k = m := by
                  intro k hk m hm hEq2
                  refine huniq k (List.mem_cons_of_mem j hk) m (List.mem_cons_of_mem j hm) ?_
                  rw [← (hskel k).1, ← (hskel m).1]
                  exact hEq2
                have hcode2 : ∀ k ∈ rest, ∀ m ∈ rest, (getEntry { (deleteStateObjectAt w (GetParams w s).2 j).2 with stateObjectsDirty := fun b2 => if b2 = (getEntry s j).address then false else (deleteStateObjectAt w (GetParams w s).2 j).2.stateObjectsDirty b2 } k).so.account.codeHash = (getEntry { (deleteStateObjectAt w (GetParams w s).2 j).2 with stateObjectsDirty := fun b2 => if b2 = (getEntry s j).address then false else (deleteStateObjectAt w (GetParams w s).2 j).2.stateObjectsDirty b2 } m).so.account.codeHash → (getEntry { (deleteStateObjectAt w (GetParams w s).2 j).2 with stateObjectsDirty := fun b2 => if b2 = (getEntry s j).address then false else (deleteStateObjectAt w (GetParams w s).2 j).2.stateObjectsDirty b2 } k).so.code.getD [] = (getEntry { (deleteStateObjectAt w (GetParams w s).2 j).2 with stateObjectsDirty := fun b2 => if b2 = (getEntry s j).address then false else (deleteStateObjectAt w (GetParams w s).2 j).2.stateObjectsDirty b2 } m).so.code.getD [] := by
                  intro k hk m hm hEq2
                  rw [(hskel k).2.2.2, (hskel m).2.2.2]
                  refine hcode k (List.mem_cons_of_mem j hk) m (List.mem_cons_of_mem j hm) ?_
                  rw [← (hskel k).2.2.1, ← (hskel m).2.2.1]
                  exact hEq2
                rw [hstep] at hsucc
                have hmain := ih (deleteStateObjectAt w (GetParams w s).2 j).1 { (deleteStateObjectAt w (GetParams w s).2 j).2 with stateObjectsDirty := fun b2 => if b2 = (getEntry s j).address then false else (deleteStateObjectAt w (GetParams w s).2 j).2.stateObjectsDirty b2 } i hmemR hndR hlen2 haddr2 huniq2 hcode2 hsucc
                rw [hEi, hPv2, hD, hempEq] at hmain
                rw [hstep]
                exact hmain
            | false =>
              by_cases hcB1 : ((getEntry s j).so.code.isSome && (getEntry s j).so.dirtyCode) = true
              · cases hu : (updateStateObjectAt (commitCodeAt w (GetParams w s).2 j) { (GetParams w s).2 with stateObjects := (GetParams w s).2.stateObjects.set j { address := (getEntry s j).address, so := { (getEntry s j).so with dirtyCode := false } } } j).1 with
                | some err =>
                    have hstep : commitLoop true w s (j :: rest) = (some err, (updateStateObjectAt (commitCodeAt w (GetParams w s).2 j) { (GetParams w s).2 with stateObjects := (GetParams w s).2.stateObjects.set j { address := (getEntry s j).address, so := { (getEntry s j).so with dirtyCode := false } } } j).2.1, (updateStateObjectAt (commitCodeAt w (GetParams w s).2 j) { (GetParams w s).2 with stateObjects := (GetParams w s).2.stateObjects.set j { address := (getEntry s j).address, so := { (getEntry s j).so with dirtyCode := false } } } j).2.2) := by
                      conv_lhs => unfold commitLoop
                      dsimp only
                      rw [if_neg (by rw [hs1]; exact fun hx => Bool.noConfusion hx), if_pos hd1, if_neg (by rw [Bool.true_and, GetParams_fst, he1]; exact fun hx => Bool.noConfusion hx), if_pos hcB1, if_pos hcB1, hu]
                    rw [hstep] at hsucc
                    exact absurd hsucc (by simp)
                | none =>
                    have hstep : commitLoop true w s (j :: rest) = commitLoop true (updateStateObjectAt (commitCodeAt w (GetParams w s).2 j) { (GetParams w s).2 with stateObjects := (GetParams w s).2.stateObjects.set j { address := (getEntry s j).address, so := { (getEntry s j).so with dirtyCode := false } } } j).2.1 { (updateStateObjectAt (commitCodeAt w (GetParams w s).2 j) { (GetParams w s).2 with stateObjects := (GetParams w s).2.stateObjects.set j { address := (getEntry s j).address, so := { (getEntry s j).so with dirtyCode := false } } } j).2.2 with stateObjectsDirty := fun b2 => if b2 = (getEntry s j).address then false else (updateStateObjectAt (commitCodeAt w (GetParams w s).2 j) { (GetParams w s).2 with stateObjects := (GetParams w s).2.stateObjects.set j { address := (getEntry s j).address, so := { (getEntry s j).so with dirtyCode := false } } } j).2.2.stateObjectsDirty b2 } rest := by
                      conv_lhs => unfold commitLoop
                      dsimp only
                      rw [if_neg (by rw [hs1]; exact fun hx => Bool.noConfusion hx), if_pos hd1, if_neg (by rw [Bool.true_and, GetParams_fst, he1]; exact fun hx => Bool.noConfusion hx), if_pos hcB1, if_pos hcB1, hu]
                    have hskel : ∀ k, (getEntry { (updateStateObjectAt (commitCodeAt w (GetParams w s).2 j) { (GetParams w s).2 with stateObjects := (GetParams w s).2.stateObjects.set j { address := (getEntry s j).address, so := { (getEntry s j).so with dirtyCode := false } } } j).2.2 with stateObjectsDirty := fun b2 => if b2 = (getEntry s j).address then false else (updateStateObjectAt (commitCodeAt w (GetParams w s).2 j) { (GetParams w s).2 with stateObjects := (GetParams w s).2.stateObjects.set j { address := (getEntry s j).address, so := { (getEntry s j).so with dirtyCode := false } } } j).2.2.stateObjectsDirty b2 } k).address = (getEntry s k).address ∧ (getEntry { (updateStateObjectAt (commitCodeAt w (GetParams w s).2 j) { (GetParams w s).2 with stateObjects := (GetParams w s).2.stateObjects.set j { address := (getEntry s j).address, so := { (getEntry s j).so with dirtyCode := false } } } j).2.2 with stateObjectsDirty := fun b2 => if b2 = (getEntry s j).address then false else (updateStateObjectAt (commitCodeAt w (GetParams w s).2 j) { (GetParams w s).2 with stateObjects := (GetParams w s).2.stateObjects.set j { address := (getEntry s j).address, so := { (getEntry s j).so with dirtyCode := false } } } j).2.2.stateObjectsDirty b2 } k).so.account.addr = (getEntry s k).so.account.addr ∧ (getEntry { (updateStateObjectAt (commitCodeAt w (GetParams w s).2 j) { (GetParams w s).2 with stateObjects := (GetParams w s).2.stateObjects.set j { address := (getEntry s j).address, so := { (getEntry s j).so with dirtyCode := false } } } j).2.2 with stateObjectsDirty := fun b2 => if b2 = (getEntry s j).address then false else (updateStateObjectAt (commitCodeAt w (GetParams w s).2 j) { (GetParams w s).2 with stateObjects := (GetParams w s).2.stateObjects.set j { address := (getEntry s j).address, so := { (getEntry s j).so with dirtyCode := false } } } j).2.2.stateObjectsDirty b2 } k).so.account.codeHash = (getEntry s k).so.account.codeHash ∧ (getEntry { (updateStateObjectAt (commitCodeAt w (GetParams w s).2 j) { (GetParams w s).2 with stateObjects := (GetParams w s).2.stateObjects.set j { address := (getEntry s j).address, so := { (getEntry s j).so with dirtyCode := false } } } j).2.2 with stateObjectsDirty := fun b2 => if b2 = (getEntry s j).address then false else (updateStateObjectAt (commitCodeAt w (GetParams w s).2 j) { (GetParams w s).2 with stateObjects := (GetParams w s).2.stateObjects.set j { address := (getEntry s j).address, so := { (getEntry s j).so with dirtyCode := false } } } j).2.2.stateObjectsDirty b2 } k).so.code = (getEntry s k).so.code := by
                      intro k
                      refine ⟨?_, ?_, ?_, ?_⟩
                      · show (getEntry (updateStateObjectAt (commitCodeAt w (GetParams w s).2 j) { (GetParams w s).2 with stateObjects := (GetParams w s).2.stateObjects.set j { address := (getEntry s j).address, so := { (getEntry s j).so with dirtyCode := false } } } j).2.2 k).address = (getEntry s k).address
                        rw [(updateStateObjectAt_skel (commitCodeAt w (GetParams w s).2 j) { (GetParams w s).2 with stateObjects := (GetParams w s).2.stateObjects.set j { address := (getEntry s j).address, so := { (getEntry s j).so with dirtyCode := false } } } j k).1]
                        show (((GetParams w s).2.stateObjects.set j { address := (getEntry s j).address, so := { (getEntry s j).so with dirtyCode := false } }).getD k dummyEntry).address = (getEntry s k).address
                        rw [(skel_of_set (GetParams w s).2 j k { address := (getEntry s j).address, so := { (getEntry s j).so with dirtyCode := false } } (by rw [getEntry_GetParams]) (by rw [getEntry_GetParams]) (by rw [getEntry_GetParams]) (by rw [getEntry_GetParams])).1, getEntry_GetParams]
                      · show (getEntry (updateStateObjectAt (commitCodeAt w (GetParams w s).2 j) { (GetParams w s).2 with stateObjects := (GetParams w s).2.stateObjects.set j { address := (getEntry s j).address, so := { (getEntry s j).so with dirtyCode := false } } } j).2.2 k).so.account.addr = (getEntry s k).so.account.addr
                        rw [(updateStateObjectAt_skel (commitCodeAt w (GetParams w s).2 j) { (GetParams w s).2 with stateObjects := (GetParams w s).2.stateObjects.set j { address := (getEntry s j).address, so := { (getEntry s j).so with dirtyCode := false } } } j k).2.1]
                        show (((GetParams w s).2.stateObjects.set j { address := (getEntry s j).address, so := { (getEntry s j).so with dirtyCode := false } }).getD k dummyEntry).so.account.addr = (getEntry s k).so.account.addr
                        rw [(skel_of_set (GetParams w s).2 j k { address := (getEntry s j).address, so := { (getEntry s j).so with dirtyCode := false } } (by rw [getEntry_GetParams]) (by rw [getEntry_GetParams]) (by rw [getEntry_GetParams]) (by rw [getEntry_GetParams])).2.1, getEntry_GetParams]
                      · show (getEntry (updateStateObjectAt (commitCodeAt w (GetParams w s).2 j) { (GetParams w s).2 with stateObjects := (GetParams w s).2.stateObjects.set j { address := (getEntry s j).address, so := { (getEntry s j).so with dirtyCode := false } } } j).2.2 k).so.account.codeHash = (getEntry s k).so.account.codeHash
                        rw [(updateStateObjectAt_skel (commitCodeAt w (GetParams w s).2 j) { (GetParams w s).2 with stateObjects := (GetParams w s).2.stateObjects.set j { address := (getEntry s j).address, so := { (getEntry s j).so with dirtyCode := false } } } j k).2.2.1]
                        show (((GetParams w s).2.stateObjects.set j { address := (getEntry s j).address, so := { (getEntry s j).so with dirtyCode := false } }).getD k dummyEntry).so.account.codeHash = (getEntry s k).so.account.codeHash
                        rw [(skel_of_set (GetParams w s).2 j k { address := (getEntry s j).address, so := { (getEntry s j).so with dirtyCode := false } } (by rw [getEntry_GetParams]) (by rw [getEntry_GetParams]) (by rw [getEntry_GetParams]) (by rw [getEntry_GetParams])).2.2.1, getEntry_GetParams]
                      · show (getEntry (updateStateObjectAt (commitCodeAt w (GetParams w s).2 j) { (GetParams w s).2 with stateObjects := (GetParams w s).2.stateObjects.set j { address := (getEntry s j).address, so := { (getEntry s j).so with dirtyCode := false } } } j).2.2 k).so.code = (getEntry s k).so.code
                        rw [(updateStateObjectAt_skel (commitCodeAt w (GetParams w s).2 j) { (GetParams w s).2 with stateObjects := (GetParams w s).2.stateObjects.set j { address := (getEntry s j).address, so := { (getEntry s j).so with dirtyCode := false } } } j k).2.2.2]
                        show (((GetParams w s).2.stateObjects.set j { address := (getEntry s j).address, so := { (getEntry s j).so with dirtyCode := false } }).getD k dummyEntry).so.code = (getEntry s k).so.code
                        rw [(skel_of_set (GetParams w s).2 j k { address := (getEntry s j).address, so := { (getEntry s j).so with dirtyCode := false } } (by rw [getEntry_GetParams]) (by rw [getEntry_GetParams]) (by rw [getEntry_GetParams]) (by rw [getEntry_GetParams])).2.2.2, getEntry_GetParams]
                    have hLenEq : ({ (updateStateObjectAt (commitCodeAt w (GetParams w s).2 j) { (GetParams w s).2 with stateObjects := (GetParams w s).2.stateObjects.set j { address := (getEntry s j).address, so := { (getEntry s j).so with dirtyCode := false } } } j).2.2 with stateObjectsDirty := fun b2 => if b2 = (getEntry s j).address then false else (updateStateObjectAt (commitCodeAt w (GetParams w s).2 j) { (GetParams w s).2 with stateObjects := (GetParams w s).2.stateObjects.set j { address := (getEntry s j).address, so := { (getEntry s j).so with dirtyCode := false } } } j).2.2.stateObjectsDirty b2 }).stateObjects.length = s.stateObjects.length := by
                      show ((updateStateObjectAt (commitCodeAt w (GetParams w s).2 j) { (GetParams w s).2 with stateObjects := (GetParams w s).2.stateObjects.set j { address := (getEntry s j).address, so := { (getEntry s j).so with dirtyCode := false } } } j)).2.2.stateObjects.length = s.stateObjects.length
                      rw [updateStateObjectAt_len]
                      show ((GetParams w s).2.stateObjects.set j { address := (getEntry s j).address, so := { (getEntry s j).so with dirtyCode := false } }).length = s.stateObjects.length
                      rw [List.length_set, GetParams_stateObjects]
                    have hEi : getEntry { (updateStateObjectAt (commitCodeAt w (GetParams w s).2 j) { (GetParams w s).2 with stateObjects := (GetParams w s).2.stateObjects.set j { address := (getEntry s j).address, so := { (getEntry s j).so with dirtyCode := false } } } j).2.2 with stateObjectsDirty := fun b2 => if b2 = (getEntry s j).address then false else (updateStateObjectAt (commitCodeAt w (GetParams w s).2 j) { (GetParams w s).2 with stateObjects := (GetParams w s).2.stateObjects.set j { address := (getEntry s j).address, so := { (getEntry s j).so with dirtyCode := false } } } j).2.2.stateObjectsDirty b2 } i = getEntry s i := by
                      show getEntry (updateStateObjectAt (commitCodeAt w (GetParams w s).2 j) { (GetParams w s).2 with stateObjects := (GetParams w s).2.stateObjects.set j { address := (getEntry s j).address, so := { (getEntry s j).so with dirtyCode := false } } } j).2.2 i = getEntry s i
                      rw [updateStateObjectAt_entry_ne (commitCodeAt w (GetParams w s).2 j) { (GetParams w s).2 with stateObjects := (GetParams w s).2.stateObjects.set j { address := (getEntry s j).address, so := { (getEntry s j).so with dirtyCode := false } } } j i hji]
                      show ((GetParams w s).2.stateObjects.set j { address := (getEntry s j).address, so := { (getEntry s j).so with dirtyCode := false } }).getD i dummyEntry = getEntry s i
                      rw [listGetD_set_ne _ _ _ _ _ hji]
                      exact getEntry_GetParams w s i
                    have hD : ({ (updateStateObjectAt (commitCodeAt w (GetParams w s).2 j) { (GetParams w s).2 with stateObjects := (GetParams w s).2.stateObjects.set j { address := (getEntry s j).address, so := { (getEntry s j).so with dirtyCode := false } } } j).2.2 with stateObjectsDirty := fun b2 => if b2 = (getEntry s j).address then false else (updateStateObjectAt (commitCodeAt w (GetParams w s).2 j) { (GetParams w s).2 with stateObjects := (GetParams w s).2.stateObjects.set j { address := (getEntry s j).address, so := { (getEntry s j).so with dirtyCode := false } } } j).2.2.stateObjectsDirty b2 }).stateObjectsDirty (getEntry s i).address = s.stateObjectsDirty (getEntry s i).address := by
                      show (if (getEntry s i).address = (getEntry s j).address then false else (updateStateObjectAt (commitCodeAt w (GetParams w s).2 j) { (GetParams w s).2 with stateObjects := (GetParams w s).2.stateObjects.set j { address := (getEntry s j).address, so := { (getEntry s j).so with dirtyCode := false } } } j).2.2.stateObjectsDirty (getEntry s i).address) = s.stateObjectsDirty (getEntry s i).address
                      rw [if_neg hijaddr, updateStateObjectAt_dirtyFlags]
                      show (GetParams w s).2.stateObjectsDirty (getEntry s i).address = s.stateObjectsDirty (getEntry s i).address
                      rw [GetParams_dirtyFlags]
                    have hPv2 : paramsVal (updateStateObjectAt (commitCodeAt w (GetParams w s).2 j) { (GetParams w s).2 with stateObjects := (GetParams w s).2.stateObjects.set j { address := (getEntry s j).address, so := { (getEntry s j).so with dirtyCode := false } } } j).2.1 { (updateStateObjectAt (commitCodeAt w (GetParams w s).2 j) { (GetParams w s).2 with stateObjects := (GetParams w s).2.stateObjects.set j { address := (getEntry s j).address, so := { (getEntry s j).so with dirtyCode := false } } } j).2.2 with stateObjectsDirty := fun b2 => if b2 = (getEntry s j).address then false else (updateStateObjectAt (commitCodeAt w (GetParams w s).2 j) { (GetParams w s).2 with stateObjects := (GetParams w s).2.stateObjects.set j { address := (getEntry s j).address, so := { (getEntry s j).so with dirtyCode := false } } } j).2.2.stateObjectsDirty b2 } = paramsVal w s := by
                      unfold paramsVal
                      show ((updateStateObjectAt (commitCodeAt w (GetParams w s).2 j) { (GetParams w s).2 with stateObjects := (GetParams w s).2.stateObjects.set j { address := (getEntry s j).address, so := { (getEntry s j).so with dirtyCode := false } } } j).2.2.params).getD ((updateStateObjectAt (commitCodeAt w (GetParams w s).2 j) { (GetParams w s).2 with stateObjects := (GetParams w s).2.stateObjects.set j { address := (getEntry s j).address, so := { (getEntry s j).so with dirtyCode := false } } } j).2.1.storedParams) = s.params.getD w.storedParams
                      rw [updateStateObjectAt_params_eq, optGetD_some]
                      unfold paramsVal
                      show ((GetParams w s).2.params).getD ((commitCodeAt w (GetParams w s).2 j).storedParams) = s.params.getD w.storedParams
                      rw [GetParams_params, commitCodeAt_storedParams, optGetD_some]
                      rfl
                    have hk2 : ((updateStateObjectAt (commitCodeAt w (GetParams w s).2 j) { (GetParams w s).2 with stateObjects := (GetParams w s).2.stateObjects.set j { address := (getEntry s j).address, so := { (getEntry s j).so with dirtyCode := false } } } j).2.1).keccak = w.keccak := by rw [updateStateObjectAt_world_keccak, commitCodeAt_keccak]
                    have hempEq : StateObj.emptyObj (updateStateObjectAt (commitCodeAt w (GetParams w s).2 j) { (GetParams w s).2 with stateObjects := (GetParams w s).2.stateObjects.set j { address := (getEntry s j).address, so := { (getEntry s j).so with dirtyCode := false } } } j).2.1 (paramsVal w s).evmDenom (getEntry s i).so = StateObj.emptyObj w (paramsVal w s).evmDenom (getEntry s i).so := emptyObj_keccak w (updateStateObjectAt (commitCodeAt w (GetParams w s).2 j) { (GetParams w s).2 with stateObjects := (GetParams w s).2.stateObjects.set j { address := (getEntry s j).address, so := { (getEntry s j).so with dirtyCode := false } } } j).2.1 (paramsVal w s).evmDenom (getEntry s i).so hk2
                    have hlen2 : ∀ k ∈ rest, k < ({ (updateStateObjectAt (commitCodeAt w (GetParams w s).2 j) { (GetParams w s).2 with stateObjects := (GetParams w s).2.stateObjects.set j { address := (getEntry s j).address, so := { (getEntry s j).so with dirtyCode := false } } } j).2.2 with stateObjectsDirty := fun b2 => if b2 = (getEntry s j).address then false else (updateStateObjectAt (commitCodeAt w (GetParams w s).2 j) { (GetParams w s).2 with stateObjects := (GetParams w s).2.stateObjects.set j { address := (getEntry s j).address, so := { (getEntry s j).so with dirtyCode := false } } } j).2.2.stateObjectsDirty b2 }).stateObjects.length := by
                      intro k hk
                      rw [hLenEq]
                      exact hlen k (List.mem_cons_of_mem j hk)
                    have haddr2 : ∀ k ∈ rest, (getEntry { (updateStateObjectAt (commitCodeAt w (GetParams w s).2 j) { (GetParams w s).2 with stateObjects := (GetParams w s).2.stateObjects.set j { address := (getEntry s j).address, so := { (getEntry s j).so with dirtyCode := false } } } j).2.2 with stateObjectsDirty := fun b2 => if b2 = (getEntry s j).address then false else (updateStateObjectAt (commitCodeAt w (GetParams w s).2 j) { (GetParams w s).2 with stateObjects := (GetParams w s).2.stateObjects.set j { address := (getEntry s j).address, so := { (getEntry s j).so with dirtyCode := false } } } j).2.2.stateObjectsDirty b2 } k).so.account.addr = (getEntry { (updateStateObjectAt (commitCodeAt w (GetParams w s).2 j) { (GetParams w s).2 with stateObjects := (GetParams w s).2.stateObjects.set j { address := (getEntry s j).address, so := { (getEntry s j).so with dirtyCode := false } } } j).2.2 with stateObjectsDirty := fun b2 => if b2 = (getEntry s j).address then false else (updateStateObjectAt (commitCodeAt w (GetParams w s).2 j) { (GetParams w s).2 with stateObjects := (GetParams w s).2.stateObjects.set j { address := (getEntry s j).address, so := { (getEntry s j).so with dirtyCode := false } } } j).2.2.stateObjectsDirty b2 } k).address := by
                      intro k hk
                      rw [(hskel k).2.1, (hskel k).1]
                      exact haddr k (List.mem_cons_of_mem j hk)
                    have huniq2 : ∀ k ∈ rest, ∀ m ∈ rest, (getEntry { (updateStateObjectAt (commitCodeAt w (GetParams w s).2 j) { (GetParams w s).2 with stateObjects := (GetParams w s).2.stateObjects.set j { address := (getEntry s j).address, so := { (getEntry s j).so with dirtyCode := false } } } j).2.2 with stateObjectsDirty := fun b2 => if b2 = (getEntry s j).address then false else (updateStateObjectAt (commitCodeAt w (GetParams w s).2 j) { (GetParams w s).2 with stateObjects := (GetParams w s).2.stateObjects.set j { address := (getEntry s j).address, so := { (getEntry s j).so with dirtyCode := false } } } j).2.2.stateObjectsDirty b2 } k).address = (getEntry { (updateStateObjectAt (commitCodeAt w (GetParams w s).2 j) { (GetParams w s).2 with stateObjects := (GetParams w s).2.stateObjects.set j { address := (getEntry s j).address, so := { (getEntry s j).so with dirtyCode := false } } } j).2.2 with stateObjectsDirty := fun b2 => if b2 = (getEntry s j).address then false else (updateStateObjectAt (commitCodeAt w (GetParams w s).2 j) { (GetParams w s).2 with stateObjects := (GetParams w s).2.stateObjects.set j { address := (getEntry s j).address, so := { (getEntry s j).so with dirtyCode := false } } } j).2.2.stateObjectsDirty b2 } m).address → k = m := by
                      intro k hk m hm hEq2
                      refine huniq k (List.mem_cons_of_mem j hk) m (List.mem_cons_of_mem j hm) ?_
                      rw [← (hskel k).1, ← (hskel m).1]
                      exact hEq2
                    have hcode2 : ∀ k ∈ rest, ∀ m ∈ rest, (getEntry { (updateStateObjectAt (commitCodeAt w (GetParams w s).2 j) { (GetParams w s).2 with stateObjects := (GetParams w s).2.stateObjects.set j { address := (getEntry s j).address, so := { (getEntry s j).so with dirtyCode := false } } } j).2.2 with stateObjectsDirty := fun b2 => if b2 = (getEntry s j).address then false else (updateStateObjectAt (commitCodeAt w (GetParams w s).2 j) { (GetParams w s).2 with stateObjects := (GetParams w s).2.stateObjects.set j { address := (getEntry s j).address, so := { (getEntry s j).so with dirtyCode := false } } } j).2.2.stateObjectsDirty b2 } k).so.account.codeHash = (getEntry { (updateStateObjectAt (commitCodeAt w (GetParams w s).2 j) { (GetParams w s).2 with stateObjects := (GetParams w s).2.stateObjects.set j { address := (getEntry s j).address, so := { (getEntry s j).so with dirtyCode := false } } } j).2.2 with stateObjectsDirty := fun b2 => if b2 = (getEntry s j).address then false else (updateStateObjectAt (commitCodeAt w (GetParams w s).2 j) { (GetParams w s).2 with stateObjects := (GetParams w s).2.stateObjects.set j { address := (getEntry s j).address, so := { (getEntry s j).so with dirtyCode := false } } } j).2.2.stateObjectsDirty b2 } m).so.account.codeHash → (getEntry { (updateStateObjectAt (commitCodeAt w (GetParams w s).2 j) { (GetParams w s).2 with stateObjects := (GetParams w s).2.stateObjects.set j { address := (getEntry s j).address, so := { (getEntry s j).so with dirtyCode := false } } } j).2.2 with stateObjectsDirty := fun b2 => if b2 = (getEntry s j).address then false else (updateStateObjectAt (commitCodeAt w (GetParams w s).2 j) { (GetParams w s).2 with stateObjects := (GetParams w s).2.stateObjects.set j { address := (getEntry s j).address, so := { (getEntry s j).so with dirtyCode := false } } } j).2.2.stateObjectsDirty b2 } k).so.code.getD [] = (getEntry { (updateStateObjectAt (commitCodeAt w (GetParams w s).2 j) { (GetParams w s).2 with stateObjects := (GetParams w s).2.stateObjects.set j { address := (getEntry s j).address, so := { (getEntry s j).so with dirtyCode := false } } } j).2.2 with stateObjectsDirty := fun b2 => if b2 = (getEntry s j).address then false else (updateStateObjectAt (commitCodeAt w (GetParams w s).2 j) { (GetParams w s).2 with stateObjects := (GetParams w s).2.stateObjects.set j { address := (getEntry s j).address, so := { (getEntry s j).so with dirtyCode := false } } } j).2.2.stateObjectsDirty b2 } m).so.code.getD [] := by
                      intro k hk m hm hEq2
                      rw [(hskel k).2.2.2, (hskel m).2.2.2]
                      refine hcode k (List.mem_cons_of_mem j hk) m (List.mem_cons_of_mem j hm) ?_
                      rw [← (hskel k).2.2.1, ← (hskel m).2.2.1]
                      exact hEq2
                    rw [hstep] at hsucc
                    have hmain := ih (updateStateObjectAt (commitCodeAt w (GetParams w s).2 j) { (GetParams w s).2 with stateObjects := (GetParams w s).2.stateObjects.set j { address := (getEntry s j).address, so := { (getEntry s j).so with dirtyCode := false } } } j).2.1 { (updateStateObjectAt (commitCodeAt w (GetParams w s).2 j) { (GetParams w s).2 with stateObjects := (GetParams w s).2.stateObjects.set j { address := (getEntry s j).address, so := { (getEntry s j).so with dirtyCode := false } } } j).2.2 with stateObjectsDirty := fun b2 => if b2 = (getEntry s j).address then false else (updateStateObjectAt (commitCodeAt w (GetParams w s).2 j) { (GetParams w s).2 with stateObjects := (GetParams w s).2.stateObjects.set j { address := (getEntry s j).address, so := { (getEntry s j).so with dirtyCode := false } } } j).2.2.stateObjectsDirty b2 } i hmemR hndR hlen2 haddr2 huniq2 hcode2 hsucc
                    rw [hEi, hPv2, hD, hempEq] at hmain
                    rw [hstep]
                    exact hmain
              · cases hu : (updateStateObjectAt w (GetParams w s).2 j).1 with
                | some err =>
                    have hstep : commitLoop true w s (j :: rest) = (some err, (updateStateObjectAt w (GetParams w s).2 j).2.1, (updateStateObjectAt w (GetParams w s).2 j).2.2) := by
                      conv_lhs => unfold commitLoop
                      dsimp only
                      rw [if_neg (by rw [hs1]; exact fun hx => Bool.noConfusion hx), if_pos hd1, if_neg (by rw [Bool.true_and, GetParams_fst, he1]; exact fun hx => Bool.noConfusion hx), if_neg hcB1, if_neg hcB1, hu]
                    rw [hstep] at hsucc
                    exact absurd hsucc (by simp)
                | none =>
                    have hstep : commitLoop true w s (j :: rest) = commitLoop true (updateStateObjectAt w (GetParams w s).2 j).2.1 { (updateStateObjectAt w (GetParams w s).2 j).2.2 with stateObjectsDirty := fun b2 => if b2 = (getEntry s j).address then false else (updateStateObjectAt w (GetParams w s).2 j).2.2.stateObjectsDirty b2 } rest := by
                      conv_lhs => unfold commitLoop
                      dsimp only
                      rw [if_neg (by rw [hs1]; exact fun hx => Bool.noConfusion hx), if_pos hd1, if_neg (by rw [Bool.true_and, GetParams_fst, he1]; exact fun hx => Bool.noConfusion hx), if_neg hcB1, if_neg hcB1, hu]
                    have hskel : ∀ k, (getEntry { (updateStateObjectAt w (GetParams w s).2 j).2.2 with stateObjectsDirty := fun b2 => if b2 = (getEntry s j).address then false else (updateStateObjectAt w (GetParams w s).2 j).2.2.stateObjectsDirty b2 } k).address = (getEntry s k).address ∧ (getEntry { (updateStateObjectAt w (GetParams w s).2 j).2.2 with stateObjectsDirty := fun b2 => if b2 = (getEntry s j).address then false else (updateStateObjectAt w (GetParams w s).2 j).2.2.stateObjectsDirty b2 } k).so.account.addr = (getEntry s k).so.account.addr ∧ (getEntry { (updateStateObjectAt w (GetParams w s).2 j).2.2 with stateObjectsDirty := fun b2 => if b2 = (getEntry s j).address then false else (updateStateObjectAt w (GetParams w s).2 j).2.2.stateObjectsDirty b2 } k).so.account.codeHash = (getEntry s k).so.account.codeHash ∧ (getEntry { (updateStateObjectAt w (GetParams w s).2 j).2.2 with stateObjectsDirty := fun b2 => if b2 = (getEntry s j).address then false else (updateStateObjectAt w (GetParams w s).2 j).2.2.stateObjectsDirty b2 } k).so.code = (getEntry s k).so.code := by
                      intro k
                      refine ⟨?_, ?_, ?_, ?_⟩
                      · show (getEntry (updateStateObjectAt w (GetParams w s).2 j).2.2 k).address = (getEntry s k).address
                        rw [(updateStateObjectAt_skel w (GetParams w s).2 j k).1, getEntry_GetParams]
                      · show (getEntry (updateStateObjectAt w (GetParams w s).2 j).2.2 k).so.account.addr = (getEntry s k).so.account.addr
                        rw [(updateStateObjectAt_skel w (GetParams w s).2 j k).2.1, getEntry_GetParams]
                      · show (getEntry (updateStateObjectAt w (GetParams w s).2 j).2.2 k).so.account.codeHash = (getEntry s k).so.account.codeHash
                        rw [(updateStateObjectAt_skel w (GetParams w s).2 j k).2.2.1, getEntry_GetParams]
                      · show (getEntry (updateStateObjectAt w (GetParams w s).2 j).2.2 k).so.code = (getEntry s k).so.code
                        rw [(updateStateObjectAt_skel w (GetParams w s).2 j k).2.2.2, getEntry_GetParams]
                    have hLenEq : ({ (updateStateObjectAt w (GetParams w s).2 j).2.2 with stateObjectsDirty := fun b2 => if b2 = (getEntry s j).address then false else (updateStateObjectAt w (GetParams w s).2 j).2.2.stateObjectsDirty b2 }).stateObjects.length = s.stateObjects.length := by
                      show ((updateStateObjectAt w (GetParams w s).2 j)).2.2.stateObjects.length = s.stateObjects.length
                      rw [updateStateObjectAt_len, GetParams_stateObjects]
                    have hEi : getEntry { (updateStateObjectAt w (GetParams w s).2 j).2.2 with stateObjectsDirty := fun b2 => if b2 = (getEntry s j).address then false else (updateStateObjectAt w (GetParams w s).2 j).2.2.stateObjectsDirty b2 } i = getEntry s i := by
                      show getEntry (updateStateObjectAt w (GetParams w s).2 j).2.2 i = getEntry s i
                      rw [updateStateObjectAt_entry_ne w (GetParams w s).2 j i hji]
                      exact getEntry_GetParams w s i
                    have hD : ({ (updateStateObjectAt w (GetParams w s).2 j).2.2 with stateObjectsDirty := fun b2 => if b2 = (getEntry s j).address then false else (updateStateObjectAt w (GetParams w s).2 j).2.2.stateObjectsDirty b2 }).stateObjectsDirty (getEntry s i).address = s.stateObjectsDirty (getEntry s i).address := by
                      show (if (getEntry s i).address = (getEntry s j).address then false else (updateStateObjectAt w (GetParams w s).2 j).2.2.stateObjectsDirty (getEntry s i).address) = s.stateObjectsDirty (getEntry s i).address
                      rw [if_neg hijaddr, updateStateObjectAt_dirtyFlags]
                      rw [GetParams_dirtyFlags]
                    have hPv2 : paramsVal (updateStateObjectAt w (GetParams w s).2 j).2.1 { (updateStateObjectAt w (GetParams w s).2 j).2.2 with stateObjectsDirty := fun b2 => if b2 = (getEntry s j).address then false else (updateStateObjectAt w (GetParams w s).2 j).2.2.stateObjectsDirty b2 } = paramsVal w s := by
                      unfold paramsVal
                      show ((updateStateObjectAt w (GetParams w s).2 j).2.2.params).getD ((updateStateObjectAt w (GetParams w s).2 j).2.1.storedParams) = s.params.getD w.storedParams
                      rw [updateStateObjectAt_params_eq, optGetD_some, paramsVal_GetParams]
                      rfl
                    have hk2 : ((updateStateObjectAt w (GetParams w s).2 j).2.1).keccak = w.keccak := by rw [updateStateObjectAt_world_keccak]
                    have hempEq : StateObj.emptyObj (updateStateObjectAt w (GetParams w s).2 j).2.1 (paramsVal w s).evmDenom (getEntry s i).so = StateObj.emptyObj w (paramsVal w s).evmDenom (getEntry s i).so := emptyObj_keccak w (updateStateObjectAt w (GetParams w s).2 j).2.1 (paramsVal w s).evmDenom (getEntry s i).so hk2
                    have hlen2 : ∀ k ∈ rest, k < ({ (updateStateObjectAt w (GetParams w s).2 j).2.2 with stateObjectsDirty := fun b2 => if b2 = (getEntry s j).address then false else (updateStateObjectAt w (GetParams w s).2 j).2.2.stateObjectsDirty b2 }).stateObjects.length := by
                      intro k hk
                      rw [hLenEq]
                      exact hlen k (List.mem_cons_of_mem j hk)
                    have haddr2 : ∀ k ∈ rest, (getEntry { (updateStateObjectAt w (GetParams w s).2 j).2.2 with stateObjectsDirty := fun b2 => if b2 = (getEntry s j).address then false else (updateStateObjectAt w (GetParams w s).2 j).2.2.stateObjectsDirty b2 } k).so.account.addr = (getEntry { (updateStateObjectAt w (GetParams w s).2 j).2.2 with stateObjectsDirty := fun b2 => if b2 = (getEntry s j).address then false else (updateStateObjectAt w (GetParams w s).2 j).2.2.stateObjectsDirty b2 } k).address := by
                      intro k hk
                      rw [(hskel k).2.1, (hskel k).1]
                      exact haddr k (List.mem_cons_of_mem j hk)
                    have huniq2 : ∀ k ∈ rest, ∀ m ∈ rest, (getEntry { (updateStateObjectAt w (GetParams w s).2 j).2.2 with stateObjectsDirty := fun b2 => if b2 = (getEntry s j).address then false else (updateStateObjectAt w (GetParams w s).2 j).2.2.stateObjectsDirty b2 } k).address = (getEntry { (updateStateObjectAt w (GetParams w s).2 j).2.2 with stateObjectsDirty := fun b2 => if b2 = (getEntry s j).address then false else (updateStateObjectAt w (GetParams w s).2 j).2.2.stateObjectsDirty b2 } m).address → k = m := by
                      intro k hk m hm hEq2
                      refine huniq k (List.mem_cons_of_mem j hk) m (List.mem_cons_of_mem j hm) ?_
                      rw [← (hskel k).1, ← (hskel m).1]
                      exact hEq2
                    have hcode2 : ∀ k ∈ rest, ∀ m ∈ rest, (getEntry { (updateStateObjectAt w (GetParams w s).2 j).2.2 with stateObjectsDirty := fun b2 => if b2 = (getEntry s j).address then false else (updateStateObjectAt w (GetParams w s).2 j).2.2.stateObjectsDirty b2 } k).so.account.codeHash = (getEntry { (updateStateObjectAt w (GetParams w s).2 j).2.2 with stateObjectsDirty := fun b2 => if b2 = (getEntry s j).address then false else (updateStateObjectAt w (GetParams w s).2 j).2.2.stateObjectsDirty b2 } m).so.account.codeHash → (getEntry { (updateStateObjectAt w (GetParams w s).2 j).2.2 with stateObjectsDirty := fun b2 => if b2 = (getEntry s j).address then false else (updateStateObjectAt w (GetParams w s).2 j).2.2.stateObjectsDirty b2 } k).so.code.getD [] = (getEntry { (updateStateObjectAt w (GetParams w s).2 j).2.2 with stateObjectsDirty := fun b2 => if b2 = (getEntry s j).address then false else (updateStateObjectAt w (GetParams w s).2 j).2.2.stateObjectsDirty b2 } m).so.code.getD [] := by
                      intro k hk m hm hEq2
                      rw [(hskel k).2.2.2, (hskel m).2.2.2]
                      refine hcode k (List.mem_cons_of_mem j hk) m (List.mem_cons_of_mem j hm) ?_
                      rw [← (hskel k).2.2.1, ← (hskel m).2.2.1]
                      exact hEq2
                    rw [hstep] at hsucc
                    have hmain := ih (updateStateObjectAt w (GetParams w s).2 j).2.1 { (updateStateObjectAt w (GetParams w s).2 j).2.2 with stateObjectsDirty := fun b2 => if b2 = (getEntry s j).address then false else (updateStateObjectAt w (GetParams w s).2 j).2.2.stateObjectsDirty b2 } i hmemR hndR hlen2 haddr2 huniq2 hcode2 hsucc
                    rw [hEi, hPv2, hD, hempEq] at hmain
                    rw [hstep]
                    exact hmain


end OkexStateDB
